import Mathlib

/-!
Aegis: scan orchestration on the agent, reconciliation on the controller

A shallow embedding of the Go sources

* `pkg/models/models.go`   (records),
* `pkg/scanner/scanner.go` (`GetContainer`, `ScanContainer`, `parseResults`),
* `pkg/api/handler.go`     (`startScan` and its worker goroutine),
* `pkg/hooks/manager.go`   (`AddHook`, `ExecuteHooks`, `executeHook`, `ValidateHook`),
* `pkg/db/db.go`           (the store calls used by the controller),
* `cmd/aegis/main.go`      (`scan status`),
* `pkg/tui/tui.go`         (`startScan`, `monitorScanStatus`, `performExport`).

Conventions.  `time.Time` is a natural number of ticks whose zero value is `0`;
a `*time.Time` is an `Option`.  Everything the outside world decides (the exit
of the scanner command, the contents of the results file, fresh uuids, the
clock, whether a store write succeeds, what a poll returns) is an explicit
argument.  A goroutine is a list of atomic instructions; concurrency is the
interleaving of such lists.
-/

namespace Aegis

/-- Ticks of `time.Time`; `0` is the zero value (`IsZero`). -/
abbrev Time := Nat

/-! ## pkg/models/models.go -/

/-- Record `models.Container`. -/
structure Container where
  ID : String
  HostID : String
  Name : String
  Image : String
  Status : String
  CreatedAt : Time
  UpdatedAt : Time
  deriving DecidableEq, Repr

/-- Record `models.Vulnerability`. -/
structure Vulnerability where
  ID : String
  ScanID : String
  ContainerID : String
  HostID : String
  VulnerabilityID : String
  Severity : String
  Title : String
  Description : String
  Package : String
  InstalledVersion : String
  FixedVersion : String
  References : String
  DiscoveredAt : Time
  deriving DecidableEq, Repr

/-- Record `models.ScanRequest`. -/
structure ScanRequest where
  ContainerID : String
  deriving DecidableEq, Repr

/-- Record `models.ScanStatusResponse`: the agent's registry entry of a job and
the snapshot the controller decodes. -/
structure ScanStatusResponse where
  ScanID : String
  Status : String
  StartedAt : Time
  FinishedAt : Option Time
  Vulnerabilities : List Vulnerability
  ErrorMsg : String
  deriving DecidableEq, Repr

/-- Record `models.Scan`: the controller's durable scan record. -/
structure Scan where
  ID : String
  HostID : String
  ContainerID : String
  Status : String
  StartedAt : Time
  FinishedAt : Time
  ResultPath : String
  ErrorMsg : String
  deriving DecidableEq, Repr

/-- Record `models.Host` (the fields the controller reads). -/
structure Host where
  ID : String
  Name : String
  Address : String
  Port : Nat
  deriving DecidableEq, Repr

/-- A status is terminal when it is `completed` or `failed`. -/
def terminal (status : String) : Bool :=
  status == "completed" || status == "failed"

/-! ## pkg/scanner/scanner.go -/

/-- Record `TrivyVulnerability`. -/
structure TrivyVulnerability where
  VulnerabilityID : String
  PkgName : String
  PkgID : String
  InstalledVersion : String
  FixedVersion : String
  Title : String
  Description : String
  Severity : String
  References : List String
  deriving DecidableEq, Repr

/-- Record `TrivyResult`. -/
structure TrivyResult where
  Target : String
  Class : String
  ResultType : String
  Vulnerabilities : List TrivyVulnerability
  deriving DecidableEq, Repr

/-- Record `TrivyReport`. -/
structure TrivyReport where
  SchemaVersion : Nat
  ArtifactName : String
  ArtifactType : String
  Results : List TrivyResult
  deriving DecidableEq, Repr

/-- The semaphore `Scanner.sem`: a buffered channel of `struct{}` with its
capacity and the number of elements it holds. -/
structure Sem where
  cap : Nat
  len : Nat
  deriving DecidableEq, Repr

/-- Channel creation `make(chan struct{}, concurrency)` of `NewScanner`. -/
def NewSem (concurrency : Nat) : Sem := { cap := concurrency, len := 0 }

/-- Send `s.sem <- struct{}{}`: possible only while the buffer is not full
(`none`: the sender stays blocked). -/
def Sem.send (s : Sem) : Option Sem :=
  if s.len < s.cap then some { s with len := s.len + 1 } else none

/-- Receive `<-s.sem`: possible only while the buffer is not empty. -/
def Sem.recv (s : Sem) : Option Sem :=
  if 0 < s.len then some { s with len := s.len - 1 } else none

/-- The Docker client calls `GetContainer` makes, as seen by the scanner. -/
structure DockerClient where
  ContainerInspect : String → Except String Container
  ContainerList : Except String (List Container)

/-- Method `Scanner.GetContainer`: inspect by the given id, else scan the
container list for ids starting with `id`. -/
def GetContainer (docker : DockerClient) (id : String) : Except String Container :=
  match docker.ContainerInspect id with
  | .ok c => .ok c
  | .error _ =>
    match docker.ContainerList with
    | .error err => .error ("ошибка получения списка контейнеров: " ++ err)
    | .ok containers =>
      match containers.filter (fun cont => id.data.isPrefixOf cont.ID.data) with
      | [] => .error ("контейнер не найден: " ++ id)
      | [matchedContainer] =>
        match docker.ContainerInspect matchedContainer.ID with
        | .error err => .error ("ошибка получения информации о контейнере: " ++ err)
        | .ok c => .ok c
      | matchingContainers =>
        .error ("найдено несколько контейнеров с ID, начинающимся с " ++ id ++ ": " ++
          ", ".intercalate (matchingContainers.map fun cont =>
            (if cont.ID.length > 12 then cont.ID.take 12 else cont.ID) ++ " (" ++ cont.Name ++ ")"))

/-- What `cmd.CombinedOutput()` of the scanner command gives. -/
inductive CmdResult where
  | error (err output : String)
  | ok
  deriving DecidableEq, Repr

/-- What reading and decoding the results file gives. -/
inductive FileResult where
  | readError (err : String)
  | jsonError (err : String)
  | report (r : TrivyReport)
  deriving DecidableEq, Repr

/-- Everything the outside world contributes to one `ScanContainer` call. -/
structure ScanRun where
  resultsID : String
  cmd : CmdResult
  file : FileResult
  uuid : Nat → String
  now : Time

/-- The finding `parseResults` builds from one retained record; the first
part of `strings.Split(vuln.PkgID, "@")` is what precedes the first `@`. -/
def parseVulnerability (scanID containerID hostID vulnID : String) (now : Time)
    (vuln : TrivyVulnerability) : Vulnerability :=
  { ID := vulnID
    ScanID := scanID
    ContainerID := containerID
    HostID := hostID
    VulnerabilityID := vuln.VulnerabilityID
    Severity := vuln.Severity
    Title := vuln.Title
    Description := vuln.Description
    Package :=
      if vuln.PkgName == "" && vuln.PkgID != "" then
        String.mk (vuln.PkgID.data.takeWhile fun c => c != '@')
      else vuln.PkgName
    InstalledVersion := vuln.InstalledVersion
    FixedVersion := vuln.FixedVersion
    References := ",".intercalate vuln.References
    DiscoveredAt := now }

/-- Method `Scanner.parseResults`; the k-th `uuid.New()` of the call is
`uuid k`, and the scan id is the base name of the results file. -/
def parseResults (file : FileResult) (scanID containerID hostID : String)
    (uuid : Nat → String) (now : Time) : Except String (List Vulnerability) :=
  match file with
  | .readError err => .error ("ошибка чтения файла результатов: " ++ err)
  | .jsonError err => .error ("ошибка разбора JSON: " ++ err)
  | .report report =>
    .ok (report.Results.foldl (fun vulnerabilities result =>
      result.Vulnerabilities.foldl (fun vulnerabilities vuln =>
        if vuln.VulnerabilityID == "" then vulnerabilities
        else vulnerabilities ++
          [parseVulnerability scanID containerID hostID (uuid vulnerabilities.length) now vuln])
        vulnerabilities) [])

/-- The part of `ScanContainer` between acquiring and releasing the permit:
run the scanner command, then parse its results file. -/
def scanBody (container : Container) (run : ScanRun) : Except String (List Vulnerability) :=
  match run.cmd with
  | .error err output => .error ("ошибка сканирования: " ++ err ++ ": " ++ output)
  | .ok =>
    match parseResults run.file run.resultsID container.ID container.HostID run.uuid run.now with
    | .error err => .error ("ошибка парсинга результатов: " ++ err)
    | .ok vulnerabilities => .ok vulnerabilities

/-- Method `Scanner.ScanContainer` run without interference on the semaphore:
send, body, deferred receive.  `none`: the call blocks. -/
def ScanContainer (sem : Sem) (container : Container) (run : ScanRun) :
    Option (Except String (List Vulnerability) × Sem) :=
  match sem.send with
  | none => none
  | some held =>
    let result := scanBody container run
    match held.recv with
    | none => none
    | some released => some (result, released)

/-! ## pkg/api/handler.go -/

/-- One atomic step of the worker goroutine of `startScan`: an assignment to a
field of the job's registry entry, a call of `ExecuteHooks`, or one of the two
channel operations of the `ScanContainer` call it makes. -/
inductive Instr where
  | setStatus (status : String)
  | setErrorMsg (msg : String)
  | setFinishedAt (t : Time)
  | setVulnerabilities (results : List Vulnerability)
  | ExecuteHooks (event : String)
  | semSend
  | semRecv
  deriving DecidableEq, Repr

/-- The goroutine `go func() { ... }()` of `startScan`, in program order, for a
given behaviour of the outside world: `scan.Status = "running"`, the call of
`ScanContainer` (send, body, deferred receive), then the branch on its error. -/
def worker (container : Container) (run : ScanRun) (finishedAt : Time) : List Instr :=
  [.setStatus "running", .semSend, .semRecv] ++
    match scanBody container run with
    | .error err =>
      [.setStatus "failed", .setErrorMsg err, .ExecuteHooks "on_error"]
    | .ok results =>
      [.setStatus "completed", .setFinishedAt finishedAt, .setVulnerabilities results,
        .ExecuteHooks "on_scan_complete"]

/-- Effect of an instruction on the registry entry. -/
def Instr.write (i : Instr) (scan : ScanStatusResponse) : ScanStatusResponse :=
  match i with
  | .setStatus status => { scan with Status := status }
  | .setErrorMsg msg => { scan with ErrorMsg := msg }
  | .setFinishedAt t => { scan with FinishedAt := some t }
  | .setVulnerabilities results => { scan with Vulnerabilities := results }
  | _ => scan

/-- Effect of an instruction on the semaphore (`none`: not enabled). -/
def Instr.sem (i : Instr) (s : Sem) : Option Sem :=
  match i with
  | .semSend => s.send
  | .semRecv => s.recv
  | _ => some s

/-- A job: its registry entry `h.scans[scanID]`, what is left of its worker
goroutine, whether that worker is inside `ScanContainer` between the send and
the deferred receive, and the events it passed to `ExecuteHooks` so far. -/
structure Job where
  scan : ScanStatusResponse
  todo : List Instr
  inScan : Bool
  fired : List String
  deriving DecidableEq, Repr

/-- The worker of a job executes its next instruction. -/
def Job.exec (j : Job) : Job :=
  match j.todo with
  | [] => j
  | i :: rest =>
    { scan := i.write j.scan
      todo := rest
      inScan := match i with
        | .semSend => true
        | .semRecv => false
        | _ => j.inScan
      fired := match i with
        | .ExecuteHooks event => j.fired ++ [event]
        | _ => j.fired }

/-- The job after `k` steps of its worker. -/
def Job.run : Nat → Job → Job
  | 0, j => j
  | k + 1, j => Job.run k j.exec

/-- The job once its worker goroutine has finished. -/
def Job.finish (j : Job) : Job := Job.run j.todo.length j

/-- The Status values the instructions write, in order. -/
def statusWrites : List Instr → List String
  | [] => []
  | .setStatus status :: rest => status :: statusWrites rest
  | _ :: rest => statusWrites rest

/-- The agent: the scanner's semaphore and the handler's registry `h.scans`
(each entry with its worker). -/
structure Agent where
  sem : Sem
  scans : List Job
  deriving DecidableEq, Repr

/-- The agent after `NewScanner(concurrency, _)` and `NewHandler`. -/
def NewAgent (concurrency : Nat) : Agent := { sem := NewSem concurrency, scans := [] }

/-- Decoding of the request body of `startScan`. -/
inductive Body where
  | invalidJSON
  | request (req : ScanRequest)
  deriving DecidableEq, Repr

/-- The HTTP answer of a handler: `respondWithError` or `respondWithJSON` of a
`ScanResponse`. -/
inductive Reply where
  | error (code : Nat) (message : String)
  | scanResponse (code : Nat) (scanID : String)
  deriving DecidableEq, Repr

/-- The registry entry and worker `startScan` creates. -/
def newJob (scanID : String) (now : Time) (container : Container) (run : ScanRun)
    (finishedAt : Time) : Job :=
  { scan :=
      { ScanID := scanID, Status := "pending", StartedAt := now, FinishedAt := none,
        Vulnerabilities := [], ErrorMsg := "" }
    todo := worker container run finishedAt
    inScan := false
    fired := ["on_scan_start"] }

/-- Handler `startScan`: `scanID` is the fresh uuid, `now` the clock at
creation; `run` and `finishedAt` are what the spawned worker will meet.  The
registry `h.scans` is kept as the list of its entries in insertion order.  The
reply is produced without waiting for the worker. -/
def startScan (docker : DockerClient) (body : Body) (scanID : String) (now : Time)
    (run : ScanRun) (finishedAt : Time) (a : Agent) : Reply × Agent :=
  match body with
  | .invalidJSON => (.error 400 "Неверный формат JSON", a)
  | .request req =>
    if req.ContainerID == "" then (.error 400 "Не указан ID контейнера", a)
    else
      match GetContainer docker req.ContainerID with
      | .error _ => (.error 404 ("Контейнер не найден: " ++ req.ContainerID), a)
      | .ok container =>
        (.scanResponse 202 scanID,
          { a with scans := a.scans ++ [newJob scanID now container run finishedAt] })

/-- Handler `getScanStatus`: the entry as it is at the moment of the read. -/
def getScanStatus (a : Agent) (scanID : String) : Option ScanStatusResponse :=
  (a.scans.find? fun j => j.scan.ScanID == scanID).map fun j => j.scan

/-- The worker steps that fall before each field read of `json.Marshal(scan)`
in `respondWithJSON`: `getScanStatus` passes the live entry the worker writes,
no lock is held, and the fields are read in the order of their declaration in
`models.ScanStatusResponse`; each number counts the steps since the previous
read. -/
structure ReadSchedule where
  beforeScanID : Nat
  beforeStatus : Nat
  beforeStartedAt : Nat
  beforeFinishedAt : Nat
  beforeVulnerabilities : Nat
  beforeErrorMsg : Nat
  deriving DecidableEq, Repr

/-- What `getScanStatus` sends for an entry whose worker runs while the entry
is marshalled: each field is read from the entry as it is at that moment. -/
def marshalScan (j : Job) (s : ReadSchedule) : ScanStatusResponse :=
  let j := j.run s.beforeScanID
  let ScanID := j.scan.ScanID
  let j := j.run s.beforeStatus
  let Status := j.scan.Status
  let j := j.run s.beforeStartedAt
  let StartedAt := j.scan.StartedAt
  let j := j.run s.beforeFinishedAt
  let FinishedAt := j.scan.FinishedAt
  let j := j.run s.beforeVulnerabilities
  let Vulnerabilities := j.scan.Vulnerabilities
  let j := j.run s.beforeErrorMsg
  { ScanID := ScanID, Status := Status, StartedAt := StartedAt, FinishedAt := FinishedAt,
    Vulnerabilities := Vulnerabilities, ErrorMsg := j.scan.ErrorMsg }

/-- The worker of the `n`-th job executes its next instruction, if it has one
and the semaphore lets it. -/
def Agent.exec (a : Agent) (n : Nat) : Option Agent :=
  match a.scans[n]? with
  | none => none
  | some j =>
    match j.todo with
    | [] => none
    | i :: _ =>
      match i.sem a.sem with
      | none => none
      | some sem => some { sem := sem, scans := a.scans.set n j.exec }

/-- One step of the agent: a `startScan` request is served (its uuid is not
yet a key of the registry), or some worker executes one instruction. -/
inductive Step : Agent → Agent → Prop where
  | dispatch (a : Agent) (docker : DockerClient) (body : Body) (scanID : String) (now : Time)
      (run : ScanRun) (finishedAt : Time)
      (fresh : ∀ j ∈ a.scans, j.scan.ScanID ≠ scanID) :
      Step a (startScan docker body scanID now run finishedAt a).2
  | exec (a a' : Agent) (n : Nat) (h : a.exec n = some a') : Step a a'

/-- States the agent can be in when started with capacity `N`. -/
def Reachable (N : Nat) (a : Agent) : Prop :=
  Relation.ReflTransGen Step (NewAgent N) a

/-- Number of jobs whose registry entry has Status `running`. -/
def runningJobs (a : Agent) : Nat :=
  a.scans.countP fun j => j.scan.Status == "running"

/-- Number of `ScanContainer` calls between acquire and release. -/
def scanningJobs (a : Agent) : Nat :=
  a.scans.countP fun j => j.inScan

/-! ## pkg/db/db.go -/

/-- The tables of the controller's store that the reconciliation touches, and
the database `NewStore` connects to (`cfg.DatabaseType`: "sqlite" or
"postgresql"). -/
structure Store where
  hosts : List Host
  containers : List Container
  scans : List Scan
  vulnerabilities : List Vulnerability
  DatabaseType : String := "sqlite"
  deriving DecidableEq, Repr

/-- The `LIKE` operator of the database, pattern first: `%` stands for any run
of characters and `_` for any one character; SQLite (`sqlite = true`) compares
ASCII letters without regard to case and has no escape character, PostgreSQL
compares exactly and takes the character after a backslash as it is. -/
def like (sqlite : Bool) : List Char → List Char → Bool
  | [], text => text.isEmpty
  | p :: pattern, text =>
    if p == '%' then text.tails.any fun rest => like sqlite pattern rest
    else if p == '_' then
      match text with
      | [] => false
      | _ :: rest => like sqlite pattern rest
    else if p == '\\' && !sqlite then
      match pattern, text with
      | q :: pattern, c :: rest => q == c && like sqlite pattern rest
      | _, _ => false
    else
      match text with
      | [] => false
      | c :: rest =>
        (if sqlite then p.toLower == c.toLower else p == c) && like sqlite pattern rest

/-- Query `Store.GetScan`; `none` stands for every error return. -/
def Store.GetScan (s : Store) (id : String) : Option Scan :=
  s.scans.find? fun scan => scan.ID == id

/-- Query `Store.GetHost`. -/
def Store.GetHost (s : Store) (id : String) : Option Host :=
  s.hosts.find? fun host => host.ID == id

/-- Query `Store.GetContainer`: the row with the exact id, else (for ids of at
least 3 bytes) the only row of `SELECT * FROM containers WHERE id LIKE id%`;
`none` stands for every error return. -/
def Store.GetContainer (s : Store) (id : String) : Option Container :=
  match s.containers.find? fun container => container.ID == id with
  | some container => some container
  | none =>
    if id.utf8ByteSize ≥ 3 then
      match s.containers.filter
          (fun c => like (s.DatabaseType == "sqlite") (id.data ++ ['%']) c.ID.data) with
      | [container] => some container
      | _ => none
    else none

/-- Query `Store.ListContainers`: the rows of the host, newest first. -/
def Store.ListContainers (s : Store) (hostID : String) : List Container :=
  (s.containers.filter fun container => container.HostID == hostID).insertionSort
    fun a b => b.CreatedAt ≤ a.CreatedAt

/-- Statement `Store.AddScan`: insert one row, `id` being the primary key of the
table; `ok` tells whether the write succeeds otherwise. -/
def Store.AddScan (s : Store) (ok : Bool) (scan : Scan) : Store :=
  if ok && s.scans.all (fun row => row.ID != scan.ID) then
    { s with scans := s.scans ++ [scan] }
  else s

/-- Statement `Store.UpdateScan`: `UPDATE scans SET status, finished_at,
result_path, error_msg WHERE id = :id`; `ok` tells whether the write succeeds. -/
def Store.UpdateScan (s : Store) (ok : Bool) (scan : Scan) : Store :=
  if ok then
    { s with scans := s.scans.map fun row =>
        if row.ID == scan.ID then
          { row with Status := scan.Status, FinishedAt := scan.FinishedAt,
                     ResultPath := scan.ResultPath, ErrorMsg := scan.ErrorMsg }
        else row }
  else s

/-- Statement `Store.AddVulnerability`: insert one row; `ok` tells whether the
write succeeds. -/
def Store.AddVulnerability (s : Store) (ok : Bool) (vulnerability : Vulnerability) : Store :=
  if ok then { s with vulnerabilities := s.vulnerabilities ++ [vulnerability] } else s

/-- Query `Store.ListVulnerabilities("", "", scanID, "")`, up to order. -/
def Store.ListVulnerabilities (s : Store) (scanID : String) : List Vulnerability :=
  s.vulnerabilities.filter fun v => v.ScanID == scanID

/-! ## cmd/aegis/main.go (`scan status`) and pkg/tui/tui.go (`monitorScanStatus`, `startScan`) -/

/-- What one `http.Get` of the status URL gives: a connection error, or a
response with its status code and its body (`none`: the body does not decode). -/
inductive Poll where
  | connError
  | response (code : Nat) (body : Option ScanStatusResponse)
  deriving DecidableEq, Repr

/-- One poll together with what the outside world does while it is handled:
the k-th `uuid.New()`, the clock, and which store writes succeed. -/
structure Tick where
  poll : Poll
  uuid : Nat → String
  now : Time
  updateScanOk : Bool
  addVulnerabilityOk : Nat → Bool

/-- A call of `SendScanCompletedNotification`. -/
structure Notification where
  hostName : String
  containerName : String
  vulns : List Vulnerability
  scanDuration : Int
  deriving DecidableEq, Repr

/-- The controller: its store and the notifications it has sent. -/
structure Controller where
  store : Store
  notifications : List Notification
  deriving DecidableEq, Repr

/-- The update of the local scan record from a decoded snapshot
(`scan.Status = ...` and the two guarded assignments). -/
def mergeSnapshot (scan : Scan) (scanStatusResp : ScanStatusResponse) : Scan :=
  let scan := { scan with Status := scanStatusResp.Status }
  let scan :=
    match scanStatusResp.FinishedAt with
    | some t => { scan with FinishedAt := t }
    | none => scan
  if scanStatusResp.ErrorMsg != "" then { scan with ErrorMsg := scanStatusResp.ErrorMsg }
  else scan

/-- The loop that stores the findings of a snapshot: each is given a fresh id,
the scan id, the container id, the host id and the discovery time, then
inserted; `k` counts the findings handled so far. -/
def addVulnerabilities (tick : Tick) (scanID containerID hostID : String) :
    Nat → List Vulnerability → Store → Store
  | _, [], store => store
  | k, vuln :: rest, store =>
    addVulnerabilities tick scanID containerID hostID (k + 1) rest
      (store.AddVulnerability (tick.addVulnerabilityOk k)
        { vuln with ID := tick.uuid k, ScanID := scanID, ContainerID := containerID,
                    HostID := hostID, DiscoveredAt := tick.now })

/-- Command `aegis scan status SCAN_ID` of `handleScan`; `notifier` tells
whether `notificationManager != nil`. -/
def handleScanStatus (notifier : Bool) (scanID : String) (tick : Tick) (c : Controller) :
    Controller :=
  match c.store.GetScan scanID with
  | none => c
  | some scan =>
    match c.store.GetHost scan.HostID with
    | none => c
    | some host =>
      if scan.Status == "completed" || scan.Status == "failed" then c
      else
        match tick.poll with
        | .connError => c
        | .response code body =>
          if code != 200 && code != 202 then c
          else
            match body with
            | none => c
            | some scanStatusResp =>
              let scan := mergeSnapshot scan scanStatusResp
              let store := c.store.UpdateScan tick.updateScanOk scan
              let store :=
                if scan.Status == "completed" && scanStatusResp.Vulnerabilities.length > 0 then
                  addVulnerabilities tick scanID scan.ContainerID scan.HostID 0
                    scanStatusResp.Vulnerabilities store
                else store
              let containerName :=
                match store.GetContainer scan.ContainerID with
                | some container => container.Name
                | none => scan.ContainerID
              { store := store
                notifications :=
                  if scan.Status == "completed" && notifier then
                    c.notifications ++
                      [{ hostName := host.Name, containerName := containerName,
                         vulns := scanStatusResp.Vulnerabilities,
                         scanDuration := (scan.FinishedAt : Int) - (scan.StartedAt : Int) }]
                  else c.notifications }

/-- The `for { select { ... } }` loop of `monitorScanStatus`: one element of
`ticks` per firing of the ticker before the deadline; the deadline fires when
the list is exhausted.  `scan` is the local record the loop keeps updating. -/
def monitorLoop (scanID : String) (host : Host) (container : Container) :
    List Tick → Scan → Controller → Controller
  | [], _, c => c
  | tick :: ticks, scan, c =>
    match tick.poll with
    | .connError => monitorLoop scanID host container ticks scan c
    | .response code body =>
      if code != 200 then monitorLoop scanID host container ticks scan c
      else
        match body with
        | none => monitorLoop scanID host container ticks scan c
        | some scanStatusResp =>
          let scan := mergeSnapshot scan scanStatusResp
          let store := c.store.UpdateScan tick.updateScanOk scan
          if scan.Status == "completed" || scan.Status == "failed" then
            if scan.Status == "completed" then
              { c with store := (addVulnerabilities tick scanID container.ID host.ID 0
                  scanStatusResp.Vulnerabilities store) }
            else { c with store := store }
          else monitorLoop scanID host container ticks scan { c with store := store }

/-- Method `TUI.monitorScanStatus`. -/
def monitorScanStatus (scanID : String) (ticks : List Tick) (c : Controller) : Controller :=
  match c.store.GetScan scanID with
  | none => c
  | some scan =>
    match c.store.GetHost scan.HostID with
    | none => c
    | some host =>
      match c.store.GetContainer scan.ContainerID with
      | none => c
      | some container => monitorLoop scanID host container ticks scan c

/-- What the `http.Post` of `TUI.startScan` gives: a connection error, or a
response with its status code and the scan id of its body (`none`: the body
does not decode). -/
inductive PostReply where
  | connError
  | response (code : Nat) (scanID : Option String)
  deriving DecidableEq, Repr

/-- The goroutine `go func() { ... }()` of `TUI.startScan`: `post` is the
agent's answer, `now` the clock and `addScanOk` whether the insert of the scan
record succeeds; the monitor then runs on the scan id of the answer. -/
def TUI.startScan.goroutine (activeHost : Host) (selectedContainer : Container)
    (post : PostReply) (now : Time) (addScanOk : Bool) (ticks : List Tick) (c : Controller) :
    Controller :=
  match post with
  | .connError => c
  | .response code body =>
    if code != 200 && code != 202 then c
    else
      match body with
      | none => c
      | some scanID =>
        let scan : Scan :=
          { ID := scanID, HostID := activeHost.ID, ContainerID := selectedContainer.ID,
            Status := "pending", StartedAt := now, FinishedAt := 0, ResultPath := "",
            ErrorMsg := "" }
        monitorScanStatus scanID ticks { c with store := c.store.AddScan addScanOk scan }

/-- Method `TUI.startScan`: `containers` is `t.containers` and `cursor` the
cursor line of the containers view (`none`: the view does not exist). -/
def TUI.startScan (activeHost : Option Host) (containers : List Container)
    (cursor : Option Int) (post : PostReply) (now : Time) (addScanOk : Bool)
    (ticks : List Tick) (c : Controller) : Controller :=
  match activeHost with
  | none => c
  | some activeHost =>
    let selectedContainer : Option Container :=
      match cursor with
      | some cy => if 0 ≤ cy ∧ cy < containers.length then containers[cy.toNat]? else none
      | none => none
    match selectedContainer with
    | none => c
    | some selectedContainer =>
      TUI.startScan.goroutine activeHost selectedContainer post now addScanOk ticks c

/-! ## pkg/hooks/manager.go -/

/-- Record `models.Hook`. -/
structure Hook where
  ID : String
  Name : String
  Event : String
  ScriptPath : String
  TimeoutSeconds : Int
  Enabled : Bool
  CreatedAt : Time
  UpdatedAt : Time
  deriving DecidableEq, Repr

/-- Record `models.HookExecution`. -/
structure HookExecution where
  ID : String
  HookID : String
  ScanID : String
  Status : String
  Output : String
  ErrorMsg : String
  StartedAt : Time
  FinishedAt : Time
  deriving DecidableEq, Repr

/-- The hook manager: its hook list `m.hooks`. -/
structure Manager where
  hooks : List Hook
  deriving DecidableEq, Repr

/-- Constructor `NewManager`. -/
def NewManager (hooks : List Hook) : Manager := { hooks := hooks }

/-- The loop of `AddHook` over `m.hooks`: the first hook with the id of `hook`
is overwritten by `hook` (`none`: the loop ends without a match). -/
def replaceHook (hook : Hook) : List Hook → Option (List Hook)
  | [] => none
  | h :: rest =>
    if h.ID == hook.ID then some (hook :: rest)
    else (replaceHook hook rest).map fun hooks => h :: hooks

/-- Method `Manager.AddHook`; it has no result. -/
def Manager.AddHook (m : Manager) (hook : Hook) : Manager :=
  match replaceHook hook m.hooks with
  | some hooks => { hooks := hooks }
  | none => { hooks := m.hooks ++ [hook] }

/-- Method `Manager.ExecuteHooks`: the calls `go m.executeHook(hook, scanID)` it
makes, in the order it makes them. -/
def Manager.ExecuteHooks (m : Manager) (event scanID : String) : List (Hook × String) :=
  let hooksToExecute :=
    m.hooks.foldl (fun hooksToExecute hook =>
      if hook.Event == event && hook.Enabled then hooksToExecute ++ [hook]
      else hooksToExecute) []
  hooksToExecute.foldl (fun started hook => started ++ [(hook, scanID)]) []

/-- How the script of a hook ends, as `exec.CommandContext(ctx, ...)` sees it:
it exits with a code, it cannot be started (`err` is the message of the error),
or it is killed when the timeout of the context expires (`err` is the message
of the error `Wait` then returns, such as "signal: killed"). -/
inductive ScriptOutcome where
  | exited (code : Nat) (output : String)
  | startFailed (err : String)
  | killed (err output : String)
  deriving DecidableEq, Repr

/-- The result `(output, err)` of `cmd.CombinedOutput()` for each way the script
ends: `err` is nil exactly on exit code 0. -/
def ScriptOutcome.CombinedOutput : ScriptOutcome → String × Option String
  | .exited 0 output => (output, none)
  | .exited (code + 1) output => (output, some ("exit status " ++ toString (code + 1)))
  | .startFailed err => ("", some err)
  | .killed err output => (output, some err)

/-- Everything the outside world contributes to one `executeHook` call. -/
structure HookRun where
  uuid : String
  startedAt : Time
  outcome : ScriptOutcome
  finishedAt : Time
  deriving DecidableEq, Repr

/-- Method `Manager.executeHook`: the `HookExecution` it fills in (and logs). -/
def executeHook (hook : Hook) (scanID : String) (run : HookRun) : HookExecution :=
  let execution : HookExecution :=
    { ID := run.uuid, HookID := hook.ID, ScanID := scanID, Status := "", Output := "",
      ErrorMsg := "", StartedAt := run.startedAt, FinishedAt := 0 }
  let result := run.outcome.CombinedOutput
  let execution := { execution with FinishedAt := run.finishedAt, Output := result.1 }
  match result.2 with
  | some err => { execution with Status := "failure", ErrorMsg := err }
  | none => { execution with Status := "success" }

/-- Method `Manager.ValidateHook`: its error (`none`: nil), together with the
manager and the hook as the call leaves them; `LookPath` tells whether
`exec.LookPath` resolves a path to an executable. -/
def Manager.ValidateHook (m : Manager) (LookPath : String → Bool) (hook : Hook) :
    Option String × Manager × Hook :=
  if hook.Name == "" then (some "имя хука не может быть пустым", m, hook)
  else if hook.ScriptPath == "" then (some "путь к скрипту не может быть пустым", m, hook)
  else if hook.TimeoutSeconds ≤ 0 then
    (some "таймаут должен быть положительным числом", m, hook)
  else if !(hook.Event == "on_scan_start" || hook.Event == "on_scan_complete" ||
      hook.Event == "on_error") then
    (some ("недопустимое событие: " ++ hook.Event), m, hook)
  else if !LookPath hook.ScriptPath then
    (some ("скрипт не найден или не исполняемый: " ++ hook.ScriptPath), m, hook)
  else (none, m, hook)

/-! ## Hooks along the life of a job -/

/-- The hook executions the next instruction of the worker starts, each with
the result the outside world `world` gives it. -/
def Job.startedHooks (m : Manager) (world : Hook → String → HookRun) (j : Job) :
    List HookExecution :=
  match j.todo with
  | .ExecuteHooks event :: _ =>
    (m.ExecuteHooks event j.scan.ScanID).map fun p => executeHook p.1 p.2 (world p.1 p.2)
  | _ => []

/-- The job and the hook executions recorded so far, after `k` more steps of
the worker. -/
def Job.runWithHooks (m : Manager) (world : Hook → String → HookRun) :
    Nat → Job × List HookExecution → Job × List HookExecution
  | 0, s => s
  | k + 1, s => Job.runWithHooks m world k (s.1.exec, s.2 ++ s.1.startedHooks m world)

/-- One scan from `startScan` to the end of its worker with the hook manager
`m`: the on_scan_start hooks are started at dispatch, the others by the worker. -/
def scanWithHooks (m : Manager) (world : Hook → String → HookRun) (scanID : String)
    (now : Time) (container : Container) (run : ScanRun) (finishedAt : Time) :
    Job × List HookExecution :=
  Job.runWithHooks m world (worker container run finishedAt).length
    (newJob scanID now container run finishedAt,
      (m.ExecuteHooks "on_scan_start" scanID).map fun p => executeHook p.1 p.2 (world p.1 p.2))

/-! ## Words of the specification -/

/-- A failed poll: connection error, response other than 200, or a body that
does not decode. -/
def Tick.failed (tick : Tick) : Bool :=
  match tick.poll with
  | .connError => true
  | .response code body => code != 200 || body.isNone

/-- The findings for the records with a non-empty VulnerabilityID of a list, in
order, the first of them getting the `k`-th uuid. -/
def retainedFindings (scanID containerID hostID : String) (uuid : Nat → String) (now : Time) :
    Nat → List TrivyVulnerability → List Vulnerability
  | _, [] => []
  | k, vuln :: rest =>
    if vuln.VulnerabilityID == "" then
      retainedFindings scanID containerID hostID uuid now k rest
    else
      parseVulnerability scanID containerID hostID (uuid k) now vuln ::
        retainedFindings scanID containerID hostID uuid now (k + 1) rest

/-- The vulnerability records of a report in report order. -/
def TrivyReport.records (report : TrivyReport) : List TrivyVulnerability :=
  report.Results.flatMap fun result => result.Vulnerabilities

/-! ## Further definitions: export, hook removal and lookup, inventory -/

/-- The Docker daemon over an inventory `inv`, as `GetContainer` takes it:
`ContainerInspect` finds the container whose ID is the given id (the "exact ID"
of the source's comment) and `ContainerList` with `All: true` lists `inv`. -/
def dockerOf (inv : List Container) : DockerClient :=
  { ContainerInspect := fun id =>
      match inv.find? fun c => c.ID == id with
      | some c => .ok c
      | none => .error ("No such container: " ++ id)
    ContainerList := .ok inv }

/-- Call `strings.ReplaceAll(s, "\"", "\"\"")`. -/
def escapeQuotes (s : String) : String :=
  String.mk (s.data.flatMap fun c => if c == '"' then ['"', '"'] else [c])

/-- The header line both exports write. -/
def csvHeader : String :=
  "ID,VulnerabilityID,Severity,Title,Package,InstalledVersion,FixedVersion,Description\n"

/-- The line both exports write for one vulnerability: `title` and
`description` with their quotes doubled, the other six fields as they are,
each between double quotes. -/
def csvLine (v : Vulnerability) : String :=
  let title := escapeQuotes v.Title
  let description := escapeQuotes v.Description
  "\"" ++ v.ID ++ "\",\"" ++ v.VulnerabilityID ++ "\",\"" ++ v.Severity ++ "\",\"" ++ title ++
    "\",\"" ++ v.Package ++ "\",\"" ++ v.InstalledVersion ++ "\",\"" ++ v.FixedVersion ++
    "\",\"" ++ description ++ "\"\n"

/-- What the file system does during an export: the error of `os.MkdirAll`, of
`os.Create` and of the k-th `file.WriteString` (`none`: no error). -/
structure FileWorld where
  mkdirAll : Option String
  create : Option String
  writeString : Nat → Option String

/-- The loop of both exports over the vulnerabilities: `k` counts the
`WriteString` calls made so far, `content` is what the file holds. -/
def writeLines (fs : FileWorld) (prefixErr : String) :
    Nat → List Vulnerability → String → Option String × String
  | _, [], content => (none, content)
  | k, v :: rest, content =>
    match fs.writeString k with
    | some err => (some (prefixErr ++ err), content)
    | none => writeLines fs prefixErr (k + 1) rest (content ++ csvLine v)

/-- Method `Scanner.ExportResultsToCSV`: its error (`none`: nil) and the
contents of the output file when it returns. -/
def ExportResultsToCSV (fs : FileWorld) (vulnerabilities : List Vulnerability) :
    Option String × String :=
  match fs.mkdirAll with
  | some err => (some ("ошибка создания каталога: " ++ err), "")
  | none =>
    match fs.create with
    | some err => (some ("ошибка создания файла: " ++ err), "")
    | none =>
      match fs.writeString 0 with
      | some err => (some ("ошибка записи заголовка: " ++ err), "")
      | none => writeLines fs "ошибка записи данных: " 1 vulnerabilities csvHeader

/-- The slice expression `s[:n]` of Go: it panics (`none`) when `n` exceeds the
length of `s` in bytes; for the ASCII text of a container id the first `n`
bytes are the first `n` characters. -/
def sliceTo (s : String) (n : Nat) : Option String :=
  if n ≤ s.utf8ByteSize then some (String.mk (s.data.take n)) else none

/-- How the goroutine of `performExport` ends. -/
inductive ExportResult where
  | cancelled (status : String)
  | panicked
  | failed (operationID status content : String)
  | exported (operationID content : String)
  deriving DecidableEq, Repr

/-- The goroutine of `TUI.performExport`: `cursor` is the cursor line of the
containers view (`none`: the view does not exist), `containers` and `vulns` are
`t.containers` and `t.vulns`. -/
def performExport (fs : FileWorld) (containers : List Container) (cursor : Option Int)
    (vulns : List Vulnerability) : ExportResult :=
  let selectedContainer : Option Container :=
    match cursor with
    | some cy => if 0 ≤ cy ∧ cy < containers.length then containers[cy.toNat]? else none
    | none => none
  match selectedContainer with
  | none => .cancelled "Не выбран контейнер для экспорта"
  | some selectedContainer =>
    if vulns.length == 0 then .cancelled "Нет данных для экспорта"
    else
      match sliceTo selectedContainer.ID 8 with
      | none => .panicked
      | some short =>
        let operationID := "export-" ++ short
        match fs.mkdirAll with
        | some err => .failed operationID ("Ошибка создания директории: " ++ err) ""
        | none =>
          match fs.create with
          | some err => .failed operationID ("Ошибка создания файла: " ++ err) ""
          | none =>
            match fs.writeString 0 with
            | some err => .failed operationID ("Ошибка записи в файл: " ++ err) ""
            | none =>
              match writeLines fs "Ошибка записи в файл: " 1 vulns csvHeader with
              | (some status, content) => .failed operationID status content
              | (none, content) => .exported operationID content

/-- The loop of `RemoveHook` over `m.hooks`: the list without the first hook
whose ID is `id` (`none`: the loop ends without a match). -/
def removeHook (id : String) : List Hook → Option (List Hook)
  | [] => none
  | hook :: rest =>
    if hook.ID == id then some rest
    else (removeHook id rest).map fun hooks => hook :: hooks

/-- Method `Manager.RemoveHook`: its error (`none`: nil) and the manager as the
call leaves it. -/
def Manager.RemoveHook (m : Manager) (id : String) : Option String × Manager :=
  match removeHook id m.hooks with
  | some hooks => (none, { hooks := hooks })
  | none => (some ("хук не найден: " ++ id), m)

/-- Method `Manager.GetHook`. -/
def Manager.GetHook (m : Manager) (id : String) : Except String Hook :=
  match m.hooks.find? fun hook => hook.ID == id with
  | some hook => .ok hook
  | none => .error ("хук не найден: " ++ id)

/-- The check of the event by `aegis hook add` (`validEvents` of `handleHooks`). -/
def hookAddValidEvent (event : String) : Bool :=
  event == "on_scan_start" || event == "on_scan_complete" || event == "on_error"

/-- Where the reading of a CSV record stands: before the opening quote of a
field, inside a field (its characters so far, in reverse), or just after a
quote met inside a field. -/
inductive CsvState where
  | start
  | inField (field : List Char)
  | afterQuote (field : List Char)
  deriving DecidableEq, Repr

/-- A record of a CSV file read back: fields are between double quotes, a
doubled quote inside a field stands for one quote, fields are separated by
commas and the record ends at a line feed outside quotes (`none`: the text is
not such a record).  `fields` holds the finished fields in reverse. -/
def readCsvFields : List Char → CsvState → List String → Option (List String)
  | [], _, _ => none
  | c :: rest, .start, fields =>
    if c == '"' then readCsvFields rest (.inField []) fields else none
  | c :: rest, .inField field, fields =>
    if c == '"' then readCsvFields rest (.afterQuote field) fields
    else readCsvFields rest (.inField (c :: field)) fields
  | c :: rest, .afterQuote field, fields =>
    if c == '"' then readCsvFields rest (.inField ('"' :: field)) fields
    else if c == ',' then readCsvFields rest .start (String.mk field.reverse :: fields)
    else if c == '\n' && rest.isEmpty then some (String.mk field.reverse :: fields).reverse
    else none

/-- Reading one CSV record back into its fields. -/
def readCsvRecord (line : String) : Option (List String) := readCsvFields line.data .start []

/-- The eight fields a record of the export stands for. -/
def csvFields (v : Vulnerability) : List String :=
  [v.ID, v.VulnerabilityID, v.Severity, v.Title, v.Package, v.InstalledVersion, v.FixedVersion,
    v.Description]

/-! ## Traces, invariants and schedules -/

/-- States a job goes through while its worker runs `fuel` more steps. -/
def Job.states : Nat → Job → List Job
  | 0, j => [j]
  | fuel + 1, j => j :: Job.states fuel j.exec

/-- Every state of the job's entry from creation to the end of its worker. -/
def Job.trace (j : Job) : List Job := Job.states j.todo.length j

/-- What holds of a job in each state of its life. -/
structure JobFacts (j : Job) : Prop where
  finished_completed : j.scan.FinishedAt ≠ none → j.scan.Status = "completed"
  vulns_completed : j.scan.Vulnerabilities ≠ [] → j.scan.Status = "completed"
  error_failed : j.scan.ErrorMsg ≠ "" → j.scan.Status = "failed"
  inScan_running : j.inScan = true → j.scan.Status = "running"
  send_outside : j.todo.head? = some .semSend → j.inScan = false
  recv_inside : j.todo.head? = some .semRecv → j.inScan = true
  other_same : ∀ i, j.todo.head? = some i → i ≠ .semSend → i ≠ .semRecv →
    j.exec.inScan = j.inScan

/-- A job of the registry is some job created by `startScan` whose worker has
made some number of steps. -/
def JobWF (j : Job) : Prop :=
  ∃ scanID now container run finishedAt k,
    j = (newJob scanID now container run finishedAt).run k

/-- The invariant of the agent started with capacity `N`. -/
structure AgentInv (N : Nat) (a : Agent) : Prop where
  cap : a.sem.cap = N
  len : a.sem.len = scanningJobs a
  bound : a.sem.len ≤ N
  wf : ∀ j ∈ a.scans, JobWF j

/-- Workers execute in the order given by a schedule of job indices. -/
def Agent.execs : List Nat → Agent → Option Agent
  | [], a => some a
  | n :: schedule, a =>
    match a.exec n with
    | none => none
    | some a' => Agent.execs schedule a'

/-! ## Sample data -/

/-- A container of the sample inventory. -/
def sampleContainer : Container :=
  { ID := "4f5c1d2e9a7b", HostID := "local", Name := "web", Image := "nginx:1.25",
    Status := "running", CreatedAt := 100, UpdatedAt := 200 }

/-- A Docker client that knows `sampleContainer` only. -/
def sampleDocker : DockerClient :=
  { ContainerInspect := fun id =>
      if id == sampleContainer.ID then .ok sampleContainer else .error "No such container"
    ContainerList := .ok [sampleContainer] }

/-- A report with a critical and a low finding and one record without id. -/
def sampleReport : TrivyReport :=
  { SchemaVersion := 2, ArtifactName := "nginx:1.25", ArtifactType := "container_image"
    Results :=
      [{ Target := "nginx:1.25 (debian 12.1)", Class := "os-pkgs", ResultType := "debian"
         Vulnerabilities :=
           [{ VulnerabilityID := "CVE-2023-4911", PkgName := "libc6", PkgID := "libc6@2.36-9",
              InstalledVersion := "2.36-9", FixedVersion := "2.36-9+deb12u3",
              Title := "glibc: buffer overflow in ld.so", Description := "Looney Tunables",
              Severity := "CRITICAL", References := ["https://example.org/a"] },
            { VulnerabilityID := "", PkgName := "zlib1g", PkgID := "", InstalledVersion := "1.2.13",
              FixedVersion := "", Title := "", Description := "", Severity := "LOW",
              References := [] },
            { VulnerabilityID := "CVE-2023-0001", PkgName := "", PkgID := "tar@1.34",
              InstalledVersion := "1.34", FixedVersion := "", Title := "tar: minor issue",
              Description := "", Severity := "LOW", References := [] }] }] }

/-- A scan that succeeds. -/
def sampleRunOk : ScanRun :=
  { resultsID := "r-1", cmd := .ok, file := .report sampleReport,
    uuid := fun k => String.mk (List.replicate (k + 1) 'v'), now := 40 }

/-- A scan whose scanner command exits non-zero. -/
def sampleRunCmdError : ScanRun :=
  { resultsID := "r-2", cmd := .error "exit status 1" "FATAL image scan error",
    file := .readError "open: no such file",
    uuid := fun k => String.mk (List.replicate (k + 1) 'v'), now := 41 }

/-- A scan whose results file does not parse. -/
def sampleRunParseError : ScanRun :=
  { resultsID := "r-3", cmd := .ok, file := .jsonError "unexpected end of JSON input",
    uuid := fun k => String.mk (List.replicate (k + 1) 'v'), now := 42 }

/-- The request naming `sampleContainer`. -/
def sampleBody : Body := .request { ContainerID := "4f5c1d2e9a7b" }

/-- An agent of capacity 1 after three `startScan` requests for the same
container. -/
def sampleDispatched : Agent :=
  (startScan sampleDocker sampleBody "s-3" 12 sampleRunParseError 52
    (startScan sampleDocker sampleBody "s-2" 11 sampleRunCmdError 51
      (startScan sampleDocker sampleBody "s-1" 10 sampleRunOk 50 (NewAgent 1)).2).2).2

/-- Each of the three workers has executed its first assignment. -/
def sampleThreeRunning : Agent :=
  ((sampleDispatched.execs [0, 1, 2]).getD sampleDispatched)

/-- Furthermore the first worker has acquired the permit. -/
def sampleOneScanning : Agent :=
  ((sampleDispatched.execs [0, 1, 2, 0]).getD sampleDispatched)

/-- All three workers have run to their end, one after the other. -/
def sampleAllFinished : Agent :=
  ((sampleDispatched.execs
    [0, 1, 2, 0, 0, 0, 0, 0, 0, 1, 1, 1, 1, 1, 2, 2, 2, 2, 2]).getD sampleDispatched)

/-- The host of the sample store. -/
def sampleHost : Host := { ID := "h-1", Name := "build-01", Address := "10.0.0.5", Port := 8080 }

/-- The durable record of `s-1` as created at dispatch. -/
def samplePendingRow : Scan :=
  { ID := "s-1", HostID := "h-1", ContainerID := "4f5c1d2e9a7b", Status := "pending",
    StartedAt := 9, FinishedAt := 0, ResultPath := "", ErrorMsg := "" }

/-- The row of `sampleContainer` in the controller's store. -/
def sampleStoredContainer : Container := { sampleContainer with HostID := "h-1" }

/-- The controller's store after it dispatched scan `s-1` on host `h-1`. -/
def sampleStore : Store :=
  { hosts := [sampleHost]
    containers := [sampleStoredContainer]
    scans := [samplePendingRow]
    vulnerabilities := [] }

/-- The controller before any poll. -/
def sampleController : Controller := { store := sampleStore, notifications := [] }

/-- A poll that is answered 200 with the given snapshot while every store
write succeeds. -/
def sampleTick (snapshot : ScanStatusResponse) : Tick :=
  { poll := .response 200 (some snapshot)
    uuid := fun k => String.mk (List.replicate (k + 1) 'w')
    now := 60
    updateScanOk := true
    addVulnerabilityOk := fun _ => true }

/-- The agent's entry of a successful scan once its worker has finished. -/
def sampleCompleted : ScanStatusResponse :=
  ((newJob "s-1" 10 sampleContainer sampleRunOk 50).finish).scan

/-- The agent's entry of a successful scan read between the assignments of
Status and FinishedAt. -/
def sampleTorn : ScanStatusResponse :=
  ((newJob "s-1" 10 sampleContainer sampleRunOk 50).run 4).scan

/-- The agent's entry of a failed scan once its worker has finished. -/
def sampleFailed : ScanStatusResponse :=
  ((newJob "s-1" 10 sampleContainer sampleRunCmdError 50).finish).scan

/-- The controller after `aegis scan status s-1` has merged the completed
snapshot. -/
def sampleReconciled : Controller :=
  handleScanStatus true "s-1" (sampleTick sampleCompleted) sampleController


/-- Three hooks: one enabled for on_scan_complete, one disabled for the same
event, one enabled for on_error. -/
def sampleHooks : List Hook :=
  [{ ID := "hk-1", Name := "notify", Event := "on_scan_complete",
     ScriptPath := "/usr/local/bin/notify.sh", TimeoutSeconds := 30, Enabled := true,
     CreatedAt := 1, UpdatedAt := 1 },
   { ID := "hk-2", Name := "archive", Event := "on_scan_complete",
     ScriptPath := "/usr/local/bin/archive.sh", TimeoutSeconds := 30, Enabled := false,
     CreatedAt := 2, UpdatedAt := 2 },
   { ID := "hk-3", Name := "alert", Event := "on_error",
     ScriptPath := "/usr/local/bin/alert.sh", TimeoutSeconds := 10, Enabled := true,
     CreatedAt := 3, UpdatedAt := 3 }]

/-- A hook whose timeout is 0 and whose event is unknown. -/
def sampleBadHook : Hook :=
  { ID := "hk-9", Name := "broken", Event := "on_scan_done", ScriptPath := "/nonexistent.sh",
    TimeoutSeconds := 0, Enabled := true, CreatedAt := 4, UpdatedAt := 4 }

/-- A file system in which only the three sample scripts resolve. -/
def sampleLookPath (path : String) : Bool :=
  path == "/usr/local/bin/notify.sh" || path == "/usr/local/bin/archive.sh" ||
    path == "/usr/local/bin/alert.sh"

/-- An outside world in which every hook script is killed at its timeout. -/
def sampleHookWorld (hook : Hook) (scanID : String) : HookRun :=
  { uuid := hook.ID ++ "/" ++ scanID, startedAt := 70, outcome := .killed "signal: killed" "",
    finishedAt := 100 }

/-- The agent's entry of a scan whose worker has only set Status running. -/
def sampleRunning : ScanStatusResponse :=
  ((newJob "s-1" 10 sampleContainer sampleRunOk 50).run 1).scan

/-- A poll that fails to connect. -/
def sampleConnError : Tick :=
  { poll := .connError, uuid := fun _ => "", now := 55, updateScanOk := true,
    addVulnerabilityOk := fun _ => true }

/-- A read of the entry while the worker of a successful scan is between the
assignments of Status and FinishedAt: four steps before the first field. -/
def sampleReadAfterStatus : ReadSchedule :=
  { beforeScanID := 4, beforeStatus := 0, beforeStartedAt := 0, beforeFinishedAt := 0,
    beforeVulnerabilities := 0, beforeErrorMsg := 0 }

/-- A read of the entry that the worker overtakes: one step before the first
field, four more between the reads of StartedAt and FinishedAt. -/
def sampleTornRead : ReadSchedule :=
  { beforeScanID := 1, beforeStatus := 0, beforeStartedAt := 0, beforeFinishedAt := 4,
    beforeVulnerabilities := 0, beforeErrorMsg := 0 }

/-- A file system in which every operation of an export succeeds. -/
def sampleFs : FileWorld :=
  { mkdirAll := none, create := none, writeString := fun _ => none }

/-- A finding whose title holds double quotes. -/
def sampleVuln : Vulnerability :=
  { ID := "f-1", ScanID := "s-1", ContainerID := "4f5c1d2e9a7b", HostID := "h-1",
    VulnerabilityID := "CVE-2024-0001", Severity := "HIGH", Title := "overflow in \"parse\"",
    Description := "d", Package := "libssl", InstalledVersion := "1.0", FixedVersion := "1.1",
    References := "", DiscoveredAt := 60 }

/-- The finding for a package whose name holds a double quote. -/
def sampleQuotedPackage : Vulnerability := { sampleVuln with Package := "lib\"ssl" }

/-- A finding whose package name holds the three characters quote, comma, quote. -/
def sampleSplitPackage : Vulnerability :=
  { sampleVuln with Package := "a\",\"b", InstalledVersion := "c" }

/-- A finding whose installed version holds the three characters quote, comma,
quote. -/
def sampleSplitVersion : Vulnerability :=
  { sampleVuln with Package := "a", InstalledVersion := "b\",\"c" }

/-- A container the store holds under an ID of three characters. -/
def sampleShortContainer : Container := { sampleStoredContainer with ID := "abc" }

/-! ## Lemmas on jobs and on the agent -/

theorem Job.exec_todo (j : Job) : j.exec.todo = j.todo.tail := by
  unfold Job.exec
  split <;> simp_all

theorem Job.exec_of_nil (j : Job) (h : j.todo = []) : j.exec = j := by
  unfold Job.exec
  simp [h]

theorem Job.run_of_nil (k : Nat) (j : Job) (h : j.todo = []) : j.run k = j := by
  induction k with
  | zero => rfl
  | succ k ih => simp [Job.run, Job.exec_of_nil j h, ih]

theorem Job.run_succ (k : Nat) (j : Job) : j.run (k + 1) = (j.run k).exec := by
  induction k generalizing j with
  | zero => rfl
  | succ k ih =>
    rw [Job.run, ih j.exec]
    rfl

theorem Job.run_mem_states (fuel : Nat) (j : Job) (h : j.todo.length ≤ fuel) (k : Nat) :
    j.run k ∈ Job.states fuel j := by
  induction fuel generalizing j k with
  | zero =>
    have hnil : j.todo = [] := List.length_eq_zero.mp (Nat.le_zero.mp h)
    simp [Job.states, Job.run_of_nil k j hnil]
  | succ fuel ih =>
    cases k with
    | zero => simp [Job.states, Job.run]
    | succ k =>
      have hlen : j.exec.todo.length ≤ fuel := by
        rw [Job.exec_todo, List.length_tail]
        omega
      simp only [Job.states, Job.run, List.mem_cons]
      exact Or.inr (ih j.exec hlen k)

theorem Job.run_mem_trace (j : Job) (k : Nat) : j.run k ∈ j.trace :=
  Job.run_mem_states _ j (Nat.le_refl _) k

theorem newJob_trace_facts (scanID : String) (now : Time) (container : Container) (run : ScanRun)
    (finishedAt : Time) :
    ∀ j ∈ (newJob scanID now container run finishedAt).trace, JobFacts j := by
  intro j hj
  cases h : scanBody container run with
  | error err =>
    simp [Job.trace, newJob, worker, h, Job.states, Job.exec, Instr.write] at hj
    rcases hj with rfl | rfl | rfl | rfl | rfl | rfl | rfl <;>
      constructor <;> simp [Job.exec]
  | ok results =>
    simp [Job.trace, newJob, worker, h, Job.states, Job.exec, Instr.write] at hj
    rcases hj with rfl | rfl | rfl | rfl | rfl | rfl | rfl | rfl <;>
      constructor <;> simp [Job.exec]

theorem JobWF.facts {j : Job} (h : JobWF j) : JobFacts j := by
  obtain ⟨scanID, now, container, run, finishedAt, k, rfl⟩ := h
  exact newJob_trace_facts scanID now container run finishedAt _ (Job.run_mem_trace _ k)

theorem JobWF.exec {j : Job} (h : JobWF j) : JobWF j.exec := by
  obtain ⟨scanID, now, container, run, finishedAt, k, rfl⟩ := h
  exact ⟨scanID, now, container, run, finishedAt, k + 1, (Job.run_succ k _).symm⟩

theorem AgentInv.init (N : Nat) : AgentInv N (NewAgent N) := by
  constructor <;> simp [NewAgent, NewSem, scanningJobs]

theorem startScan_scans (docker : DockerClient) (body : Body) (scanID : String) (now : Time)
    (run : ScanRun) (finishedAt : Time) (a : Agent) :
    (startScan docker body scanID now run finishedAt a).2 = a ∨
    ∃ container, (startScan docker body scanID now run finishedAt a).2 =
      { a with scans := a.scans ++ [newJob scanID now container run finishedAt] } := by
  unfold startScan
  split
  · exact Or.inl rfl
  · split
    · exact Or.inl rfl
    · split
      · exact Or.inl rfl
      · exact Or.inr ⟨_, rfl⟩

theorem AgentInv.step {N : Nat} {a a' : Agent} (inv : AgentInv N a) (s : Step a a') :
    AgentInv N a' := by
  cases s with
  | dispatch docker body scanID now run finishedAt fresh =>
    rcases startScan_scans docker body scanID now run finishedAt a with h | ⟨container, h⟩
    · rw [h]; exact inv
    · rw [h]
      refine ⟨inv.cap, ?_, inv.bound, ?_⟩
      · simp [scanningJobs, newJob, List.countP_cons, inv.len]
      · intro j hj
        rcases List.mem_append.mp hj with hj | hj
        · exact inv.wf j hj
        · rw [List.mem_singleton.mp hj]
          exact ⟨scanID, now, container, run, finishedAt, 0, rfl⟩
  | exec _ n h =>
    unfold Agent.exec at h
    split at h
    · exact absurd h (by simp)
    · rename_i j hj
      obtain ⟨hn, hget⟩ := List.getElem?_eq_some.mp hj
      split at h
      · exact absurd h (by simp)
      · rename_i i rest htodo
        split at h
        · exact absurd h (by simp)
        · rename_i sem hsem
          have ha' : a' = { sem := sem, scans := a.scans.set n j.exec } := by
            simpa using h.symm
          subst ha'
          have hmem : j ∈ a.scans := hget ▸ List.getElem_mem _
          have facts := (inv.wf j hmem).facts
          have hcount : scanningJobs { sem := sem, scans := a.scans.set n j.exec } =
              scanningJobs a - (if j.inScan then 1 else 0) + (if j.exec.inScan then 1 else 0) := by
            simp only [scanningJobs]
            rw [List.countP_set _ _ _ _ hn, hget]
          have hle : (if j.inScan = true then 1 else 0) ≤ scanningJobs a := by
            have := List.boole_getElem_le_countP (fun j : Job => j.inScan) a.scans n hn
            simpa [scanningJobs, hget] using this
          have hwf : ∀ j' ∈ a.scans.set n j.exec, JobWF j' := by
            intro j' hj'
            rcases List.mem_or_eq_of_mem_set hj' with hj' | hj'
            · exact inv.wf j' hj'
            · rw [hj']; exact (inv.wf j hmem).exec
          have hhead : j.todo.head? = some i := by simp [htodo]
          by_cases hs : i = .semSend
          · subst hs
            have hout := facts.send_outside hhead
            have hin : j.exec.inScan = true := by simp [Job.exec, htodo]
            simp only [Instr.sem, Sem.send] at hsem
            split at hsem
            · rename_i hlt
              have : sem = { a.sem with len := a.sem.len + 1 } := by simpa using hsem.symm
              subst this
              refine ⟨inv.cap, ?_, ?_, hwf⟩
              · rw [hcount, hout, hin]; simp [inv.len]
              · have := inv.cap; simp only; omega
            · exact absurd hsem (by simp)
          · by_cases hr : i = .semRecv
            · subst hr
              have hin := facts.recv_inside hhead
              have hout : j.exec.inScan = false := by simp [Job.exec, htodo]
              simp only [Instr.sem, Sem.recv] at hsem
              split at hsem
              · rename_i hpos
                have : sem = { a.sem with len := a.sem.len - 1 } := by simpa using hsem.symm
                subst this
                refine ⟨inv.cap, ?_, ?_, hwf⟩
                · rw [hcount, hin, hout]; simp [inv.len]
                · have := inv.bound; simp only; omega
              · exact absurd hsem (by simp)
            · have hsame := facts.other_same i hhead hs hr
              have : sem = a.sem := by
                cases i <;> simp_all [Instr.sem]
              subst this
              refine ⟨inv.cap, ?_, inv.bound, hwf⟩
              rw [hcount, hsame, inv.len]
              omega

theorem Reachable.inv {N : Nat} {a : Agent} (h : Reachable N a) : AgentInv N a := by
  induction h with
  | refl => exact AgentInv.init N
  | tail _ s ih => exact ih.step s

theorem Reachable.execs {N : Nat} {a a' : Agent} (h : Reachable N a) (schedule : List Nat)
    (hs : a.execs schedule = some a') : Reachable N a' := by
  induction schedule generalizing a with
  | nil =>
    simp only [Agent.execs, Option.some.injEq] at hs
    exact hs ▸ h
  | cons n schedule ih =>
    simp only [Agent.execs] at hs
    split at hs
    · exact absurd hs (by simp)
    · rename_i a1 h1
      exact ih (Relation.ReflTransGen.tail h (Step.exec a a1 n h1)) hs

theorem sampleDispatched_reachable : Reachable 1 sampleDispatched := by
  have h0 : Reachable 1 (NewAgent 1) := Relation.ReflTransGen.refl
  have h1 := Relation.ReflTransGen.tail h0
    (Step.dispatch (NewAgent 1) sampleDocker sampleBody "s-1" 10 sampleRunOk 50 (by decide))
  have h2 := Relation.ReflTransGen.tail h1
    (Step.dispatch _ sampleDocker sampleBody "s-2" 11 sampleRunCmdError 51 (by decide))
  exact Relation.ReflTransGen.tail h2
    (Step.dispatch _ sampleDocker sampleBody "s-3" 12 sampleRunParseError 52 (by decide))

theorem sampleThreeRunning_reachable : Reachable 1 sampleThreeRunning :=
  sampleDispatched_reachable.execs [0, 1, 2] (by decide)

theorem sampleOneScanning_reachable : Reachable 1 sampleOneScanning :=
  sampleDispatched_reachable.execs [0, 1, 2, 0] (by decide)

theorem sampleAllFinished_reachable : Reachable 1 sampleAllFinished :=
  sampleDispatched_reachable.execs
    [0, 1, 2, 0, 0, 0, 0, 0, 0, 1, 1, 1, 1, 1, 2, 2, 2, 2, 2] (by decide)

theorem worker_cases (container : Container) (run : ScanRun) (finishedAt : Time) :
    (∃ err, scanBody container run = .error err ∧
      worker container run finishedAt =
        [.setStatus "running", .semSend, .semRecv, .setStatus "failed", .setErrorMsg err,
          .ExecuteHooks "on_error"]) ∨
    (∃ results, scanBody container run = .ok results ∧
      worker container run finishedAt =
        [.setStatus "running", .semSend, .semRecv, .setStatus "completed",
          .setFinishedAt finishedAt, .setVulnerabilities results,
          .ExecuteHooks "on_scan_complete"]) := by
  cases h : scanBody container run with
  | error err => exact Or.inl ⟨err, rfl, by simp [worker, h]⟩
  | ok results => exact Or.inr ⟨results, rfl, by simp [worker, h]⟩

theorem statusWrites_append (xs ys : List Instr) :
    statusWrites (xs ++ ys) = statusWrites xs ++ statusWrites ys := by
  induction xs with
  | nil => rfl
  | cons i xs ih => cases i <;> simp [statusWrites, ih]

theorem append_ne_empty_of_left (p s : String) (h : p ≠ "") : p ++ s ≠ "" := by
  intro hc
  have hlen := congrArg String.length hc
  simp only [String.length_append] at hlen
  have hp : p.length = 0 := by
    have : "".length = 0 := rfl
    omega
  exact h (by
    cases p with
    | mk data =>
      simp only [String.length] at hp
      simp [List.length_eq_zero.mp hp])

theorem scanBody_fails (container : Container) (run : ScanRun)
    (hfail : (∃ err output, run.cmd = .error err output) ∨ (∃ err, run.file = .readError err) ∨
      (∃ err, run.file = .jsonError err)) :
    ∃ err, scanBody container run = .error err ∧ err ≠ "" := by
  unfold scanBody
  cases hcmd : run.cmd with
  | error err output =>
    refine ⟨_, rfl, ?_⟩
    simp only [String.append_assoc]
    exact append_ne_empty_of_left _ _ (by decide)
  | ok =>
    rcases hfail with ⟨e, o, h⟩ | ⟨e, h⟩ | ⟨e, h⟩
    · rw [hcmd] at h; cases h
    · simp only [h, parseResults]
      exact ⟨_, rfl, append_ne_empty_of_left _ _ (by decide)⟩
    · simp only [h, parseResults]
      exact ⟨_, rfl, append_ne_empty_of_left _ _ (by decide)⟩

/-- Running `a` steps and then `b` steps is running `a + b` steps. -/
theorem Job.run_add (a b : Nat) (j : Job) : (j.run a).run b = j.run (a + b) := by
  induction a generalizing j with
  | zero => simp [Job.run]
  | succ a ih =>
    rw [show a + 1 + b = (a + b) + 1 by omega, Job.run, Job.run, ih]

/-- A step of a worker whose remaining instructions write no Status leaves the
Status of the entry as it is, and the same holds of what then remains. -/
theorem Job.exec_status_of_no_write (j : Job) (h : statusWrites j.todo = []) :
    j.exec.scan.Status = j.scan.Status ∧ statusWrites j.exec.todo = [] := by
  unfold Job.exec
  cases hj : j.todo with
  | nil => simp [hj] at h ⊢; exact h
  | cons i rest =>
    rw [hj] at h
    cases i <;> simp [statusWrites, Instr.write] at h ⊢ <;> exact h

/-- Once the remaining instructions write no Status, the Status of the entry
stays what it is. -/
theorem Job.run_status_of_no_write (n : Nat) (j : Job) (h : statusWrites j.todo = []) :
    (j.run n).scan.Status = j.scan.Status := by
  induction n generalizing j with
  | zero => rfl
  | succ n ih =>
    rw [Job.run, ih j.exec (Job.exec_status_of_no_write j h).2,
      (Job.exec_status_of_no_write j h).1]

/-- In every state of a job, a terminal Status in the entry means that no
instruction that remains writes Status. -/
theorem newJob_trace_terminal (scanID : String) (now : Time) (container : Container)
    (run : ScanRun) (finishedAt : Time) :
    ∀ j ∈ (newJob scanID now container run finishedAt).trace,
      terminal j.scan.Status = true → statusWrites j.todo = [] := by
  intro j hj
  cases h : scanBody container run with
  | error err =>
    simp [Job.trace, newJob, worker, h, Job.states, Job.exec, Instr.write] at hj
    rcases hj with rfl | rfl | rfl | rfl | rfl | rfl | rfl <;>
      simp [statusWrites, terminal]
  | ok results =>
    simp [Job.trace, newJob, worker, h, Job.states, Job.exec, Instr.write] at hj
    rcases hj with rfl | rfl | rfl | rfl | rfl | rfl | rfl | rfl <;>
      simp [statusWrites, terminal]

/-- The Status of the entry in each state of a job, from its creation to the
end of its worker. -/
theorem newJob_trace_status (scanID : String) (now : Time) (container : Container)
    (run : ScanRun) (finishedAt : Time) :
    (newJob scanID now container run finishedAt).trace.map (fun j => j.scan.Status) =
        ["pending", "running", "running", "running", "completed", "completed", "completed",
          "completed"] ∨
    (newJob scanID now container run finishedAt).trace.map (fun j => j.scan.Status) =
        ["pending", "running", "running", "running", "failed", "failed", "failed"] := by
  cases h : scanBody container run with
  | error err =>
    right
    simp [Job.trace, newJob, worker, h, Job.states, Job.exec, Instr.write]
  | ok results =>
    left
    simp [Job.trace, newJob, worker, h, Job.states, Job.exec, Instr.write]

/-- Executing a Status assignment puts its value in the entry. -/
theorem Job.exec_setStatus (j : Job) (status : String) (rest : List Instr)
    (h : j.todo = .setStatus status :: rest) : j.exec.scan.Status = status := by
  simp [Job.exec, h, Instr.write]

/-! ## Lemmas on the controller -/

theorem mergeSnapshot_ID (scan : Scan) (resp : ScanStatusResponse) :
    (mergeSnapshot scan resp).ID = scan.ID := by
  unfold mergeSnapshot
  cases resp.FinishedAt <;> simp only [] <;> split <;> rfl

theorem mergeSnapshot_Status (scan : Scan) (resp : ScanStatusResponse) :
    (mergeSnapshot scan resp).Status = resp.Status := by
  unfold mergeSnapshot
  cases resp.FinishedAt <;> simp only [] <;> split <;> rfl

theorem mergeSnapshot_FinishedAt (scan : Scan) (resp : ScanStatusResponse) :
    (mergeSnapshot scan resp).FinishedAt = resp.FinishedAt.getD scan.FinishedAt := by
  unfold mergeSnapshot
  cases resp.FinishedAt <;> simp only [] <;> split <;> rfl

theorem mergeSnapshot_ErrorMsg (scan : Scan) (resp : ScanStatusResponse) :
    (mergeSnapshot scan resp).ErrorMsg =
      if resp.ErrorMsg = "" then scan.ErrorMsg else resp.ErrorMsg := by
  unfold mergeSnapshot
  cases resp.FinishedAt <;> simp only [] <;> split <;> simp_all

theorem GetScan_ID {s : Store} {scanID : String} {scan : Scan}
    (h : s.GetScan scanID = some scan) : scan.ID = scanID := by
  have := List.find?_some h
  simpa using this

theorem GetScan_UpdateScan (s : Store) (scanID : String) (row scan : Scan)
    (hrow : s.GetScan scanID = some row) (hid : scan.ID = scanID) :
    (s.UpdateScan true scan).GetScan scanID =
      some { row with Status := scan.Status, FinishedAt := scan.FinishedAt,
                      ResultPath := scan.ResultPath, ErrorMsg := scan.ErrorMsg } := by
  have hrid := GetScan_ID hrow
  unfold Store.GetScan at hrow ⊢
  simp only [Store.UpdateScan, if_true, List.find?_map]
  have hfun : ((fun scan : Scan => scan.ID == scanID) ∘ fun row : Scan =>
      if (row.ID == scan.ID) = true then
        { row with Status := scan.Status, FinishedAt := scan.FinishedAt,
                   ResultPath := scan.ResultPath, ErrorMsg := scan.ErrorMsg }
      else row) = fun scan : Scan => scan.ID == scanID := by
    funext r
    simp only [Function.comp]
    split <;> rfl
  rw [hfun, hrow]
  simp [hrid, hid]

theorem UpdateScan_vulnerabilities (s : Store) (ok : Bool) (scan : Scan) :
    (s.UpdateScan ok scan).vulnerabilities = s.vulnerabilities := by
  unfold Store.UpdateScan
  split <;> rfl

theorem addVulnerabilities_scans (tick : Tick) (scanID containerID hostID : String) (k : Nat)
    (vulns : List Vulnerability) (store : Store) :
    (addVulnerabilities tick scanID containerID hostID k vulns store).scans = store.scans := by
  induction vulns generalizing k store with
  | nil => rfl
  | cons vuln rest ih =>
    rw [addVulnerabilities, ih]
    unfold Store.AddVulnerability
    split <;> rfl

theorem addVulnerabilities_count (tick : Tick) (scanID containerID hostID : String) (k : Nat)
    (vulns : List Vulnerability) (store : Store) (hadd : ∀ i, tick.addVulnerabilityOk i = true) :
    ((addVulnerabilities tick scanID containerID hostID k vulns store).ListVulnerabilities
        scanID).length =
      (store.ListVulnerabilities scanID).length + vulns.length := by
  induction vulns generalizing k store with
  | nil => rfl
  | cons vuln rest ih =>
    rw [addVulnerabilities, ih]
    simp [Store.AddVulnerability, hadd, Store.ListVulnerabilities, List.filter_append]
    omega

theorem GetScan_scans {s s' : Store} (h : s'.scans = s.scans) (scanID : String) :
    s'.GetScan scanID = s.GetScan scanID := by
  unfold Store.GetScan
  rw [h]


theorem handleScanStatus_store (notifier : Bool) (scanID : String) (tick : Tick)
    (c : Controller) (row : Scan) (host : Host) (resp : ScanStatusResponse)
    (hrow : c.store.GetScan scanID = some row)
    (hhost : c.store.GetHost row.HostID = some host)
    (hopen : terminal row.Status = false)
    (hpoll : tick.poll = .response 200 (some resp)) :
    (handleScanStatus notifier scanID tick c).store =
      if (mergeSnapshot row resp).Status = "completed" then
        addVulnerabilities tick scanID (mergeSnapshot row resp).ContainerID
          (mergeSnapshot row resp).HostID 0 resp.Vulnerabilities
          (c.store.UpdateScan tick.updateScanOk (mergeSnapshot row resp))
      else c.store.UpdateScan tick.updateScanOk (mergeSnapshot row resp) := by
  have hopen' : (row.Status == "completed" || row.Status == "failed") = false := hopen
  simp only [handleScanStatus, hrow, hhost, hopen', hpoll]
  by_cases hcomp : (mergeSnapshot row resp).Status = "completed"
  · cases hv : resp.Vulnerabilities with
    | nil => simp [hcomp, addVulnerabilities]
    | cons v vs => simp [hcomp]
  · simp [hcomp]

theorem monitorLoop_store (scanID : String) (host : Host) (container : Container)
    (tick : Tick) (ticks : List Tick) (scan : Scan) (c : Controller) (resp : ScanStatusResponse)
    (hpoll : tick.poll = .response 200 (some resp))
    (hterm : terminal resp.Status = true) :
    (monitorLoop scanID host container (tick :: ticks) scan c).store =
      if (mergeSnapshot scan resp).Status = "completed" then
        addVulnerabilities tick scanID container.ID host.ID 0 resp.Vulnerabilities
          (c.store.UpdateScan tick.updateScanOk (mergeSnapshot scan resp))
      else c.store.UpdateScan tick.updateScanOk (mergeSnapshot scan resp) := by
  have hterm' : ((mergeSnapshot scan resp).Status == "completed" ||
      (mergeSnapshot scan resp).Status == "failed") = true := by
    rw [mergeSnapshot_Status]; exact hterm
  simp only [monitorLoop, hpoll]
  by_cases hcomp : (mergeSnapshot scan resp).Status = "completed"
  · simp [hcomp]
  · have hfailed : (mergeSnapshot scan resp).Status = "failed" := by
      simpa [hcomp] using hterm'
    simp [hfailed]

theorem merged_store (tick : Tick) (scanID containerID hostID : String) (store : Store)
    (row scan : Scan) (resp : ScanStatusResponse)
    (hrow : store.GetScan scanID = some row) (hscan : scan.ID = scanID)
    (hadd : ∀ k, tick.addVulnerabilityOk k = true) (store' : Store)
    (hstore : store' =
      if (mergeSnapshot scan resp).Status = "completed" then
        addVulnerabilities tick scanID containerID hostID 0 resp.Vulnerabilities
          (store.UpdateScan true (mergeSnapshot scan resp))
      else store.UpdateScan true (mergeSnapshot scan resp)) :
    (∃ row', store'.GetScan scanID = some row' ∧
      row'.Status = resp.Status ∧
      row'.FinishedAt = resp.FinishedAt.getD scan.FinishedAt ∧
      row'.ErrorMsg = if resp.ErrorMsg = "" then scan.ErrorMsg else resp.ErrorMsg) ∧
    (resp.Status = "completed" →
      (store'.ListVulnerabilities scanID).length =
        (store.ListVulnerabilities scanID).length + resp.Vulnerabilities.length) ∧
    (resp.Status = "failed" → store'.vulnerabilities = store.vulnerabilities) := by
  have hmid : (mergeSnapshot scan resp).ID = scanID := by rw [mergeSnapshot_ID, hscan]
  have hupdated := GetScan_UpdateScan store scanID row (mergeSnapshot scan resp) hrow hmid
  have hst := mergeSnapshot_Status scan resp
  have hget : store'.GetScan scanID = (store.UpdateScan true (mergeSnapshot scan resp)).GetScan
      scanID := by
    rw [hstore]
    split
    · exact GetScan_scans (addVulnerabilities_scans ..) scanID
    · rfl
  refine ⟨⟨_, hget.trans hupdated, hst, mergeSnapshot_FinishedAt scan resp,
    mergeSnapshot_ErrorMsg scan resp⟩, ?_, ?_⟩
  · intro hcomp
    rw [hstore, if_pos (hst.trans hcomp), addVulnerabilities_count _ _ _ _ _ _ _ hadd]
    simp [Store.ListVulnerabilities, UpdateScan_vulnerabilities]
  · intro hfailed
    have hne : (mergeSnapshot scan resp).Status ≠ "completed" := by
      rw [hst, hfailed]; decide
    rw [hstore, if_neg hne, UpdateScan_vulnerabilities]

theorem monitorLoop_stops (scanID : String) (host : Host) (container : Container)
    (ticks extra : List Tick) (tick : Tick) (resp : ScanStatusResponse)
    (hpoll : tick.poll = .response 200 (some resp)) (hterm : terminal resp.Status = true)
    (scan : Scan) (c : Controller) :
    monitorLoop scanID host container (ticks ++ tick :: extra) scan c =
      monitorLoop scanID host container (ticks ++ [tick]) scan c := by
  induction ticks generalizing scan c with
  | nil =>
    have hterm' : ((mergeSnapshot scan resp).Status == "completed" ||
        (mergeSnapshot scan resp).Status == "failed") = true := by
      rw [mergeSnapshot_Status]; exact hterm
    simp only [List.nil_append, monitorLoop, hpoll]
    simp [hterm']
  | cons t ticks ih =>
    simp only [List.cons_append, monitorLoop]
    split
    · exact ih scan c
    · split
      · exact ih scan c
      · split
        · exact ih scan c
        · split
          · rfl
          · exact ih _ _

theorem handleScanStatus_of_terminal (notifier : Bool) (scanID : String) (tick : Tick)
    (c : Controller) (row : Scan) (hrow : c.store.GetScan scanID = some row)
    (hterm : terminal row.Status = true) : handleScanStatus notifier scanID tick c = c := by
  have hterm' : (row.Status == "completed" || row.Status == "failed") = true := hterm
  unfold handleScanStatus
  simp only [hrow]
  split
  · rfl
  · simp [hterm']

theorem handleScanStatus_repeat_of_terminal (notifier : Bool) (scanID : String)
    (c : Controller) (row : Scan) (hrow : c.store.GetScan scanID = some row)
    (hterm : terminal row.Status = true) (ticks : List Tick) :
    ticks.foldl (fun c tick => handleScanStatus notifier scanID tick c) c = c := by
  induction ticks with
  | nil => rfl
  | cons tick ticks ih =>
    rw [List.foldl_cons, handleScanStatus_of_terminal notifier scanID tick c row hrow hterm, ih]


/-! ## The claims -/

/-- C1: once the worker goroutine has finished, a job whose scan failed
(scanner command error, unreadable or unparsable results file) has Status
failed and FinishedAt unset, while a job whose scan succeeded has Status
completed and FinishedAt set; so "FinishedAt is set iff Status is completed or
failed" is false of every failed job, such as the sample scan whose scanner
command exits non-zero. -/
theorem C1_failed_job_has_no_FinishedAt (scanID : String) (now : Time) (container : Container)
    (run : ScanRun) (finishedAt : Time) :
    ((newJob scanID now container run finishedAt).finish).todo = [] ∧
    (((∃ err output, run.cmd = .error err output) ∨ (∃ err, run.file = .readError err) ∨
        (∃ err, run.file = .jsonError err)) →
      ((newJob scanID now container run finishedAt).finish).scan.Status = "failed" ∧
      ((newJob scanID now container run finishedAt).finish).scan.FinishedAt = none) ∧
    (∀ results, scanBody container run = .ok results →
      ((newJob scanID now container run finishedAt).finish).scan.Status = "completed" ∧
      ((newJob scanID now container run finishedAt).finish).scan.FinishedAt = some finishedAt) ∧
    ((newJob "s-2" 11 sampleContainer sampleRunCmdError 51).finish).scan.Status = "failed" ∧
    ((newJob "s-2" 11 sampleContainer sampleRunCmdError 51).finish).scan.FinishedAt = none := by
  refine ⟨?_, ?_, ?_, by decide, by decide⟩
  · cases h : scanBody container run <;>
      simp [Job.finish, newJob, worker, h, Job.run, Job.exec]
  · intro hfail
    obtain ⟨err, herr, _⟩ := scanBody_fails container run hfail
    simp [Job.finish, newJob, worker, herr, Job.run, Job.exec, Instr.write]
  · intro results hok
    simp [Job.finish, newJob, worker, hok, Job.run, Job.exec, Instr.write]

/-- C2 as stated fails: with capacity 1 the agent reaches a state in which all
three dispatched jobs have Status running. -/
theorem C2_three_running_with_capacity_one :
    Reachable 1 sampleThreeRunning ∧ runningJobs sampleThreeRunning = 3 ∧
      ¬ runningJobs sampleThreeRunning ≤ 1 :=
  ⟨sampleDispatched_reachable.execs [0, 1, 2] (by decide), by decide, by decide⟩

/-- C2, amended: in every reachable state at most `N` jobs have Status running
while their worker is between acquire and release of the scan permit, and every
job whose worker is there has Status running. -/
theorem C2_running_scans_bounded (N : Nat) (a : Agent) (h : Reachable N a) :
    (a.scans.countP fun j => j.scan.Status == "running" && j.inScan) ≤ N ∧
      ∀ j ∈ a.scans, j.inScan = true → j.scan.Status = "running" := by
  have inv := h.inv
  constructor
  · calc (a.scans.countP fun j => j.scan.Status == "running" && j.inScan)
        ≤ a.scans.countP fun j => j.inScan :=
          List.countP_mono_left (fun j _ hj => by simp at hj; simpa using hj.2)
      _ = a.sem.len := inv.len.symm
      _ ≤ N := inv.bound
  · intro j hj
    exact (inv.wf j hj).facts.inScan_running

/-- Witness of C2 (amended): three jobs running, one of them scanning. -/
theorem C2_running_scans_bounded_witness :
    Reachable 1 sampleOneScanning ∧
      ((sampleOneScanning.scans.countP fun j => j.scan.Status == "running" && j.inScan) ≤ 1 ∧
        ∀ j ∈ sampleOneScanning.scans, j.inScan = true → j.scan.Status = "running") :=
  ⟨sampleOneScanning_reachable, C2_running_scans_bounded 1 sampleOneScanning
    sampleOneScanning_reachable⟩

/-- C3: for every capacity `N` (in particular every `N ≥ 1`) and every
interleaving of acquire and release steps, the number of `ScanContainer` calls
between acquire and release equals the number of permits held and never
exceeds `N`. -/
theorem C3_scans_in_flight_le_capacity (N : Nat) (a : Agent) (h : Reachable N a) :
    scanningJobs a = a.sem.len ∧ scanningJobs a ≤ N := by
  have inv := h.inv
  exact ⟨inv.len.symm, inv.len ▸ inv.bound⟩

/-- Witness of C3: capacity 1, three calls, one of them holding the permit. -/
theorem C3_scans_in_flight_le_capacity_witness :
    Reachable 1 sampleOneScanning ∧
      (scanningJobs sampleOneScanning = sampleOneScanning.sem.len ∧
        scanningJobs sampleOneScanning ≤ 1) :=
  ⟨sampleOneScanning_reachable,
    C3_scans_in_flight_le_capacity 1 sampleOneScanning sampleOneScanning_reachable⟩

/-- C4: whenever `ScanContainer` gets its permit it returns, whatever the scan
gives (success, command error, parse error), and leaves the semaphore as it was
before the acquire. -/
theorem C4_ScanContainer_releases_permit (sem : Sem) (container : Container) (run : ScanRun)
    (h : sem.len < sem.cap) :
    ScanContainer sem container run = some (scanBody container run, sem) := by
  simp [ScanContainer, Sem.send, Sem.recv, h]

/-- Witness of C4: a scan whose scanner command fails, capacity 2. -/
theorem C4_ScanContainer_releases_permit_witness :
    (NewSem 2).len < (NewSem 2).cap ∧
      ScanContainer (NewSem 2) sampleContainer sampleRunCmdError =
        some (scanBody sampleContainer sampleRunCmdError, NewSem 2) :=
  ⟨by decide, C4_ScanContainer_releases_permit (NewSem 2) sampleContainer sampleRunCmdError
    (by decide)⟩

/-- C5: the entry is created with Status pending, and along the life of the
job, from its creation to the end of its worker, the Status of the entry is
pending, then running, then exactly one of completed and failed; the worker
writes running followed by exactly one of completed and failed, each write
putting its value in the entry; once the entry holds a terminal Status no
instruction that remains writes Status and the Status stays what it is. -/
theorem C5_status_order (scanID : String) (now : Time) (container : Container) (run : ScanRun)
    (finishedAt : Time) :
    (newJob scanID now container run finishedAt).scan.Status = "pending" ∧
    ((newJob scanID now container run finishedAt).trace.map (fun j => j.scan.Status) =
        ["pending", "running", "running", "running", "completed", "completed", "completed",
          "completed"] ∨
      (newJob scanID now container run finishedAt).trace.map (fun j => j.scan.Status) =
        ["pending", "running", "running", "running", "failed", "failed", "failed"]) ∧
    (statusWrites (newJob scanID now container run finishedAt).todo = ["running", "completed"] ∨
      statusWrites (newJob scanID now container run finishedAt).todo = ["running", "failed"]) ∧
    (∀ k status rest,
      ((newJob scanID now container run finishedAt).run k).todo = .setStatus status :: rest →
      ((newJob scanID now container run finishedAt).run (k + 1)).scan.Status = status) ∧
    (∀ k, terminal ((newJob scanID now container run finishedAt).run k).scan.Status = true →
      statusWrites ((newJob scanID now container run finishedAt).run k).todo = [] ∧
      ∀ n, ((newJob scanID now container run finishedAt).run (k + n)).scan.Status =
        ((newJob scanID now container run finishedAt).run k).scan.Status) ∧
    ∀ pre status post,
      (newJob scanID now container run finishedAt).todo = pre ++ Instr.setStatus status :: post →
      terminal status = true → statusWrites post = [] := by
  refine ⟨rfl, newJob_trace_status scanID now container run finishedAt, ?_, ?_, ?_, ?_⟩
  · rcases worker_cases container run finishedAt with ⟨err, _, hw⟩ | ⟨results, _, hw⟩
    · exact Or.inr (by rw [show (newJob scanID now container run finishedAt).todo = _ from hw]; rfl)
    · exact Or.inl (by rw [show (newJob scanID now container run finishedAt).todo = _ from hw]; rfl)
  · intro k status rest h
    rw [Job.run_succ]
    exact Job.exec_setStatus _ status rest h
  · intro k hterm
    have hno := newJob_trace_terminal scanID now container run finishedAt _
      (Job.run_mem_trace _ k) hterm
    refine ⟨hno, fun n => ?_⟩
    rw [← Job.run_add]
    exact Job.run_status_of_no_write n _ hno
  · intro pre status post hsplit hterm
    have hstat : status ≠ "running" := by
      intro hs; rw [hs] at hterm; revert hterm; decide
    have hwrites : ∀ t : String,
        statusWrites (newJob scanID now container run finishedAt).todo = ["running", t] →
        statusWrites post = [] := by
      intro t ht
      rw [hsplit, statusWrites_append] at ht
      have hlen := congrArg List.length ht
      simp only [statusWrites, List.length_append, List.length_cons, List.length_nil] at hlen
      match hp : statusWrites pre, hq : statusWrites post with
      | [], _ =>
        rw [hp] at ht
        simp only [statusWrites, List.nil_append, List.cons.injEq] at ht
        exact absurd ht.1 hstat
      | [_], [] => rfl
      | [_], _ :: _ => rw [hp, hq] at hlen; simp only [List.length_cons] at hlen; omega
      | _ :: _ :: _, _ => rw [hp] at hlen; simp only [List.length_cons] at hlen; omega
    rcases worker_cases container run finishedAt with ⟨err, _, hw⟩ | ⟨results, _, hw⟩
    · exact hwrites "failed"
        (by rw [show (newJob scanID now container run finishedAt).todo = _ from hw]; rfl)
    · exact hwrites "completed"
        (by rw [show (newJob scanID now container run finishedAt).todo = _ from hw]; rfl)

/-- C6 as stated fails both ways: the entry of a successful scan has Status
completed and no FinishedAt between the two assignments, and `getScanStatus`
then sends just that; and a read of Status made while the scan is running,
followed by a read of FinishedAt made after the worker has assigned it, sends
Status running with FinishedAt set. -/
theorem C6_reader_observes_both_mismatches :
    ((newJob "s-1" 10 sampleContainer sampleRunOk 50).run 4).scan.Status = "completed" ∧
    ((newJob "s-1" 10 sampleContainer sampleRunOk 50).run 4).scan.FinishedAt = none ∧
    ((newJob "s-1" 10 sampleContainer sampleRunOk 50).run 4).todo.head? =
      some (.setFinishedAt 50) ∧
    (marshalScan (newJob "s-1" 10 sampleContainer sampleRunOk 50)
      sampleReadAfterStatus).Status = "completed" ∧
    (marshalScan (newJob "s-1" 10 sampleContainer sampleRunOk 50)
      sampleReadAfterStatus).FinishedAt = none ∧
    (marshalScan (newJob "s-1" 10 sampleContainer sampleRunOk 50) sampleTornRead).Status =
      "running" ∧
    (marshalScan (newJob "s-1" 10 sampleContainer sampleRunOk 50) sampleTornRead).FinishedAt =
      some 50 := by
  decide

/-- C6, amended: in every state of a job's entry FinishedAt is set only with a
terminal Status; so when `getScanStatus` sends FinishedAt set, the entry held a
terminal Status at the moment FinishedAt was read, and the Status sent is
terminal when no step of the worker fell between the reads of Status and
FinishedAt. -/
theorem C6_FinishedAt_only_with_terminal_Status (scanID : String) (now : Time)
    (container : Container) (run : ScanRun) (finishedAt : Time) (s : ReadSchedule)
    (hset : (marshalScan (newJob scanID now container run finishedAt) s).FinishedAt ≠ none) :
    terminal ((newJob scanID now container run finishedAt).run
      (s.beforeScanID + s.beforeStatus + s.beforeStartedAt + s.beforeFinishedAt)).scan.Status =
        true ∧
    (s.beforeStartedAt = 0 → s.beforeFinishedAt = 0 →
      terminal (marshalScan (newJob scanID now container run finishedAt) s).Status = true) ∧
    ∀ k, ((newJob scanID now container run finishedAt).run k).scan.FinishedAt ≠ none →
      terminal ((newJob scanID now container run finishedAt).run k).scan.Status = true := by
  have hentry : ∀ k, ((newJob scanID now container run finishedAt).run k).scan.FinishedAt ≠ none →
      terminal ((newJob scanID now container run finishedAt).run k).scan.Status = true := by
    intro k h
    have hc := (newJob_trace_facts scanID now container run finishedAt _
      (Job.run_mem_trace _ k)).finished_completed h
    rw [hc]
    decide
  have hF : (marshalScan (newJob scanID now container run finishedAt) s).FinishedAt =
      ((newJob scanID now container run finishedAt).run
        (s.beforeScanID + s.beforeStatus + s.beforeStartedAt + s.beforeFinishedAt)).scan.FinishedAt := by
    simp only [marshalScan, Job.run_add]
  have hS : (marshalScan (newJob scanID now container run finishedAt) s).Status =
      ((newJob scanID now container run finishedAt).run
        (s.beforeScanID + s.beforeStatus)).scan.Status := by
    simp only [marshalScan, Job.run_add]
  rw [hF] at hset
  refine ⟨hentry _ hset, ?_, hentry⟩
  intro h1 h2
  simp only [h1, h2, Nat.add_zero] at hset
  rw [hS]
  exact hentry _ hset

/-- Witness of C6 (amended): the read the worker overtakes sends FinishedAt
set. -/
theorem C6_FinishedAt_only_with_terminal_Status_witness :
    (marshalScan (newJob "s-1" 10 sampleContainer sampleRunOk 50) sampleTornRead).FinishedAt ≠
      none ∧
    (terminal ((newJob "s-1" 10 sampleContainer sampleRunOk 50).run
      (sampleTornRead.beforeScanID + sampleTornRead.beforeStatus +
        sampleTornRead.beforeStartedAt + sampleTornRead.beforeFinishedAt)).scan.Status = true ∧
    (sampleTornRead.beforeStartedAt = 0 → sampleTornRead.beforeFinishedAt = 0 →
      terminal (marshalScan (newJob "s-1" 10 sampleContainer sampleRunOk 50)
        sampleTornRead).Status = true) ∧
    ∀ k, ((newJob "s-1" 10 sampleContainer sampleRunOk 50).run k).scan.FinishedAt ≠ none →
      terminal ((newJob "s-1" 10 sampleContainer sampleRunOk 50).run k).scan.Status = true) :=
  ⟨by decide, C6_FinishedAt_only_with_terminal_Status "s-1" 10 sampleContainer sampleRunOk 50
    sampleTornRead (by decide)⟩

/-- C7: in every reachable state, every job of the registry has
Vulnerabilities non-empty only with Status completed and ErrorMsg non-empty
only with Status failed. -/
theorem C7_findings_and_error_only_when_terminal (N : Nat) (a : Agent) (h : Reachable N a) :
    ∀ j ∈ a.scans,
      (j.scan.Vulnerabilities ≠ [] → j.scan.Status = "completed") ∧
      (j.scan.ErrorMsg ≠ "" → j.scan.Status = "failed") := by
  intro j hj
  have facts := (h.inv.wf j hj).facts
  exact ⟨facts.vulns_completed, facts.error_failed⟩

/-- Witness of C7: one completed job with findings and two failed jobs. -/
theorem C7_findings_and_error_only_when_terminal_witness :
    Reachable 1 sampleAllFinished ∧
      ∀ j ∈ sampleAllFinished.scans,
        (j.scan.Vulnerabilities ≠ [] → j.scan.Status = "completed") ∧
        (j.scan.ErrorMsg ≠ "" → j.scan.Status = "failed") :=
  ⟨sampleAllFinished_reachable,
    C7_findings_and_error_only_when_terminal 1 sampleAllFinished sampleAllFinished_reachable⟩

/-- C8: when the scanner command fails or the results file cannot be read or
parsed, `startScan` still answers 202 with the scan id, registers the job, and
the job ends failed with a non-empty ErrorMsg and no Vulnerabilities. -/
theorem C8_failed_scan_is_recorded_not_returned (docker : DockerClient) (req : ScanRequest)
    (scanID : String) (now : Time) (run : ScanRun) (finishedAt : Time) (a : Agent)
    (container : Container)
    (hid : req.ContainerID ≠ "")
    (hfound : GetContainer docker req.ContainerID = .ok container)
    (hfail : (∃ err output, run.cmd = .error err output) ∨ (∃ err, run.file = .readError err) ∨
      (∃ err, run.file = .jsonError err)) :
    startScan docker (.request req) scanID now run finishedAt a =
      (.scanResponse 202 scanID,
        { a with scans := a.scans ++ [newJob scanID now container run finishedAt] }) ∧
    ((newJob scanID now container run finishedAt).finish).todo = [] ∧
    ((newJob scanID now container run finishedAt).finish).scan.Status = "failed" ∧
    ((newJob scanID now container run finishedAt).finish).scan.ErrorMsg ≠ "" ∧
    ((newJob scanID now container run finishedAt).finish).scan.Vulnerabilities = [] := by
  obtain ⟨err, herr, hne⟩ := scanBody_fails container run hfail
  refine ⟨?_, ?_⟩
  · simp [startScan, hid, hfound]
  · simp [Job.finish, newJob, worker, herr, Job.run, Job.exec, Instr.write, hne]

/-- Witness of C8: a scan whose results file does not parse. -/
theorem C8_failed_scan_is_recorded_not_returned_witness :
    startScan sampleDocker (.request { ContainerID := "4f5c1d2e9a7b" }) "s-9" 10
        sampleRunParseError 50 (NewAgent 2) =
      (.scanResponse 202 "s-9",
        { NewAgent 2 with scans := (NewAgent 2).scans ++
            [newJob "s-9" 10 sampleContainer sampleRunParseError 50] }) ∧
    ((newJob "s-9" 10 sampleContainer sampleRunParseError 50).finish).todo = [] ∧
    ((newJob "s-9" 10 sampleContainer sampleRunParseError 50).finish).scan.Status = "failed" ∧
    ((newJob "s-9" 10 sampleContainer sampleRunParseError 50).finish).scan.ErrorMsg ≠ "" ∧
    ((newJob "s-9" 10 sampleContainer sampleRunParseError 50).finish).scan.Vulnerabilities = [] :=
  C8_failed_scan_is_recorded_not_returned sampleDocker { ContainerID := "4f5c1d2e9a7b" } "s-9" 10
    sampleRunParseError 50 (NewAgent 2) sampleContainer (by decide) rfl
    (Or.inr (Or.inr ⟨_, rfl⟩))

/-- C9: after `aegis scan status` has reconciled scan `s-1` to completed with
2 stored findings, the monitoring loop of the TUI that observes the same
completed snapshot stores the 2 findings again, so 4 are stored; the merge of
`monitorScanStatus` does not look at the durable record, while `scan status`
run again leaves the controller as it is. -/
theorem C9_monitor_stores_findings_again :
    (sampleReconciled.store.GetScan "s-1").map (fun row => row.Status) = some "completed" ∧
    (sampleReconciled.store.ListVulnerabilities "s-1").length = 2 ∧
    handleScanStatus true "s-1" (sampleTick sampleCompleted) sampleReconciled =
      sampleReconciled ∧
    ((monitorLoop "s-1" sampleHost sampleStoredContainer [sampleTick sampleCompleted]
      samplePendingRow sampleReconciled).store.ListVulnerabilities "s-1").length = 4 ∧
    ((monitorScanStatus "s-1" [sampleTick sampleCompleted]
      sampleReconciled).store.ListVulnerabilities "s-1").length = 4 := by
  decide

/-- C10 as stated fails: a snapshot with Status completed that carries no
FinishedAt (the agent's entry read between the two assignments) leaves the
durable record completed with a zero FinishedAt. -/
theorem C10_completed_without_FinishedAt :
    sampleTorn.Status = "completed" ∧ sampleTorn.FinishedAt = none ∧
    (sampleController.store.ListVulnerabilities "s-1").length = 0 ∧
    ((handleScanStatus true "s-1" (sampleTick sampleTorn) sampleController).store.GetScan
        "s-1").map (fun row => (row.Status, row.FinishedAt)) = some ("completed", 0) ∧
    ((monitorScanStatus "s-1" [sampleTick sampleTorn] sampleController).store.GetScan
        "s-1").map (fun row => (row.Status, row.FinishedAt)) = some ("completed", 0) := by
  decide

/-- C10, amended: when a poll answered 200 brings a terminal snapshot for a
scan whose durable record is not terminal, and the store writes succeed, then
on the `scan status` path and in the monitoring loop alike the durable record
takes the snapshot's Status, takes the snapshot's FinishedAt if it carries one
and the snapshot's ErrorMsg if it is non-empty (else keeps the value of the
local record); a completed snapshot with k findings adds exactly k findings for
the scan, a failed one adds none. -/
theorem C10_terminal_snapshot_is_merged (notifier : Bool) (scanID : String) (tick : Tick)
    (c : Controller) (row : Scan) (host host' : Host) (container : Container)
    (ticks : List Tick) (resp : ScanStatusResponse)
    (hrow : c.store.GetScan scanID = some row)
    (hhost : c.store.GetHost row.HostID = some host)
    (hopen : terminal row.Status = false)
    (hpoll : tick.poll = .response 200 (some resp))
    (hterm : terminal resp.Status = true)
    (hupd : tick.updateScanOk = true)
    (hadd : ∀ k, tick.addVulnerabilityOk k = true) :
    ∀ c' scan,
      (scan = row ∧ c' = handleScanStatus notifier scanID tick c) ∨
        (scan.ID = scanID ∧ c' = monitorLoop scanID host' container (tick :: ticks) scan c) →
      (∃ row', c'.store.GetScan scanID = some row' ∧
        row'.Status = resp.Status ∧
        row'.FinishedAt = resp.FinishedAt.getD scan.FinishedAt ∧
        row'.ErrorMsg = if resp.ErrorMsg = "" then scan.ErrorMsg else resp.ErrorMsg) ∧
      (resp.Status = "completed" →
        (c'.store.ListVulnerabilities scanID).length =
          (c.store.ListVulnerabilities scanID).length + resp.Vulnerabilities.length) ∧
      (resp.Status = "failed" → c'.store.vulnerabilities = c.store.vulnerabilities) := by
  intro c' scan hc'
  rcases hc' with ⟨rfl, rfl⟩ | ⟨hscan, rfl⟩
  · exact merged_store tick scanID _ _ c.store scan scan resp hrow (GetScan_ID hrow) hadd _
      (by rw [handleScanStatus_store notifier scanID tick c scan host resp hrow hhost hopen hpoll,
        hupd])
  · exact merged_store tick scanID _ _ c.store row scan resp hrow hscan hadd _
      (by rw [monitorLoop_store scanID host' container tick ticks scan c resp hpoll hterm, hupd])

/-- Witness of C10 (amended): the agent reports completed with 2 findings, one
CRITICAL and one LOW; the durable record goes from pending to completed with
FinishedAt 50 and exactly 2 stored findings. -/
theorem C10_terminal_snapshot_is_merged_witness :
    (sampleCompleted.Vulnerabilities.map fun v => v.Severity) = ["CRITICAL", "LOW"] ∧
    sampleCompleted.FinishedAt = some 50 ∧
    ((∃ row', (handleScanStatus true "s-1" (sampleTick sampleCompleted)
          sampleController).store.GetScan "s-1" = some row' ∧
        row'.Status = sampleCompleted.Status ∧
        row'.FinishedAt = sampleCompleted.FinishedAt.getD samplePendingRow.FinishedAt ∧
        row'.ErrorMsg =
          if sampleCompleted.ErrorMsg = "" then samplePendingRow.ErrorMsg
          else sampleCompleted.ErrorMsg) ∧
      (sampleCompleted.Status = "completed" →
        ((handleScanStatus true "s-1" (sampleTick sampleCompleted)
            sampleController).store.ListVulnerabilities "s-1").length =
          (sampleController.store.ListVulnerabilities "s-1").length +
            sampleCompleted.Vulnerabilities.length) ∧
      (sampleCompleted.Status = "failed" →
        (handleScanStatus true "s-1" (sampleTick sampleCompleted)
            sampleController).store.vulnerabilities = sampleController.store.vulnerabilities)) :=
  ⟨by decide, by decide,
    C10_terminal_snapshot_is_merged true "s-1" (sampleTick sampleCompleted) sampleController
      samplePendingRow sampleHost sampleHost sampleContainer [] sampleCompleted
      (by decide) (by decide) (by decide) rfl (by decide) rfl (fun _ => rfl)
      _ samplePendingRow (Or.inl ⟨rfl, rfl⟩)⟩

/-! ## Lemmas on the monitoring loop -/


theorem monitorLoop_notifications (scanID : String) (host : Host) (container : Container)
    (ticks : List Tick) (scan : Scan) (c : Controller) :
    (monitorLoop scanID host container ticks scan c).notifications = c.notifications := by
  induction ticks generalizing scan c with
  | nil => rfl
  | cons tick ticks ih =>
    simp only [monitorLoop]
    split
    · exact ih scan c
    · split
      · exact ih scan c
      · split
        · exact ih scan c
        · split
          · split <;> rfl
          · exact ih _ _

theorem monitorScanStatus_notifications (scanID : String) (ticks : List Tick) (c : Controller) :
    (monitorScanStatus scanID ticks c).notifications = c.notifications := by
  unfold monitorScanStatus
  split
  · rfl
  · split
    · rfl
    · split
      · rfl
      · exact monitorLoop_notifications ..

theorem monitorLoop_failed (scanID : String) (host : Host) (container : Container)
    (tick : Tick) (ticks : List Tick) (scan : Scan) (c : Controller)
    (h : tick.failed = true) :
    monitorLoop scanID host container (tick :: ticks) scan c =
      monitorLoop scanID host container ticks scan c := by
  unfold Tick.failed at h
  rw [monitorLoop]
  split
  · rfl
  · rename_i code body hpoll
    rw [hpoll] at h
    simp only [Bool.or_eq_true] at h
    rcases h with h | h
    · simp [h]
    · cases body with
      | none => simp
      | some resp => simp at h

theorem monitorLoop_filter (scanID : String) (host : Host) (container : Container)
    (ticks : List Tick) (scan : Scan) (c : Controller) :
    monitorLoop scanID host container ticks scan c =
      monitorLoop scanID host container (ticks.filter fun tick => !tick.failed) scan c := by
  induction ticks generalizing scan c with
  | nil => rfl
  | cons tick ticks ih =>
    cases hf : tick.failed with
    | true =>
      rw [monitorLoop_failed _ _ _ _ _ _ _ hf, List.filter_cons_of_neg (by simp [hf])]
      exact ih scan c
    | false =>
      rw [List.filter_cons_of_pos (by simp [hf])]
      unfold Tick.failed at hf
      rw [monitorLoop, monitorLoop]
      split
      · rename_i hpoll; rw [hpoll] at hf; simp at hf
      · split
        · exact ih scan c
        · split
          · exact ih scan c
          · dsimp only
            rw [ih]

theorem GetScan_UpdateScan_status (s : Store) (scanID : String) (row scan : Scan) (ok : Bool)
    (hrow : s.GetScan scanID = some row) :
    ∃ row', (s.UpdateScan ok scan).GetScan scanID = some row' ∧
      (row'.Status = row.Status ∨ row'.Status = scan.Status) := by
  cases ok with
  | false => exact ⟨row, by simpa [Store.UpdateScan] using hrow, Or.inl rfl⟩
  | true =>
    unfold Store.GetScan at hrow ⊢
    simp only [Store.UpdateScan, if_true, List.find?_map]
    have hfun : ((fun scan : Scan => scan.ID == scanID) ∘ fun row : Scan =>
        if (row.ID == scan.ID) = true then
          { row with Status := scan.Status, FinishedAt := scan.FinishedAt,
                     ResultPath := scan.ResultPath, ErrorMsg := scan.ErrorMsg }
        else row) = fun scan : Scan => scan.ID == scanID := by
      funext r
      simp only [Function.comp]
      split <;> rfl
    rw [hfun, hrow]
    simp only [Option.map_some', Option.some.injEq, exists_eq_left']
    split
    · exact Or.inr rfl
    · exact Or.inl rfl

theorem monitorLoop_open (scanID : String) (host : Host) (container : Container)
    (ticks : List Tick)
    (hnone : ∀ tick ∈ ticks, ∀ resp, tick.poll = .response 200 (some resp) →
      terminal resp.Status = false)
    (scan : Scan) (c : Controller) (row : Scan)
    (hrow : c.store.GetScan scanID = some row) (hopen : terminal row.Status = false) :
    (monitorLoop scanID host container ticks scan c).store.vulnerabilities =
        c.store.vulnerabilities ∧
      ∃ row', (monitorLoop scanID host container ticks scan c).store.GetScan scanID =
          some row' ∧ terminal row'.Status = false := by
  induction ticks generalizing scan c row with
  | nil => exact ⟨rfl, row, hrow, hopen⟩
  | cons tick ticks ih =>
    have hrest : ∀ t ∈ ticks, ∀ resp, t.poll = .response 200 (some resp) →
        terminal resp.Status = false := fun t ht => hnone t (List.mem_cons_of_mem _ ht)
    rw [monitorLoop]
    split
    · exact ih hrest scan c row hrow hopen
    · rename_i code body hpoll
      split
      · exact ih hrest scan c row hrow hopen
      · rename_i hcode
        have hcode' : code = 200 := by simpa using hcode
        subst hcode'
        split
        · exact ih hrest scan c row hrow hopen
        · rename_i resp
          have hresp := hnone tick (List.mem_cons_self _ _) resp hpoll
          have hst := mergeSnapshot_Status scan resp
          have hnt : ((mergeSnapshot scan resp).Status == "completed" ||
              (mergeSnapshot scan resp).Status == "failed") = false := by
            rw [hst]; exact hresp
          simp only [hnt]
          obtain ⟨row', hrow', hstat⟩ := GetScan_UpdateScan_status c.store scanID row
            (mergeSnapshot scan resp) tick.updateScanOk hrow
          have hopen' : terminal row'.Status = false := by
            rcases hstat with h | h
            · rw [h]; exact hopen
            · rw [h, hst]; exact hresp
          have := ih hrest (mergeSnapshot scan resp)
            { c with store := c.store.UpdateScan tick.updateScanOk (mergeSnapshot scan resp) }
            row' hrow' hopen'
          simpa [UpdateScan_vulnerabilities] using this


/-! ## Lemmas on hooks -/

theorem foldl_collect {α : Type} (p : α → Bool) (l init : List α) :
    l.foldl (fun acc x => if p x then acc ++ [x] else acc) init = init ++ l.filter p := by
  induction l generalizing init with
  | nil => simp
  | cons x l ih =>
    rw [List.foldl_cons, ih]
    cases hp : p x <;> simp [hp]

theorem foldl_snoc_map {α β : Type} (f : α → β) (l : List α) (init : List β) :
    l.foldl (fun acc x => acc ++ [f x]) init = init ++ l.map f := by
  induction l generalizing init with
  | nil => simp
  | cons x l ih => rw [List.foldl_cons, ih]; simp

theorem ExecuteHooks_eq (m : Manager) (event scanID : String) :
    m.ExecuteHooks event scanID =
      (m.hooks.filter fun hook => hook.Event == event && hook.Enabled).map
        fun hook => (hook, scanID) := by
  unfold Manager.ExecuteHooks
  simp only []
  rw [foldl_collect (fun hook : Hook => hook.Event == event && hook.Enabled),
    foldl_snoc_map (fun hook : Hook => (hook, scanID))]
  simp

theorem replaceHook_mem (hook : Hook) (hooks hooks' : List Hook)
    (h : replaceHook hook hooks = some hooks') : hook ∈ hooks' := by
  induction hooks generalizing hooks' with
  | nil => simp [replaceHook] at h
  | cons x rest ih =>
    rw [replaceHook] at h
    split at h
    · simp only [Option.some.injEq] at h
      rw [← h]; exact List.mem_cons_self _ _
    · cases hr : replaceHook hook rest with
      | none => rw [hr] at h; simp at h
      | some l =>
        rw [hr] at h
        simp only [Option.map_some', Option.some.injEq] at h
        rw [← h]
        exact List.mem_cons_of_mem _ (ih l hr)

theorem AddHook_mem (m : Manager) (hook : Hook) : hook ∈ (m.AddHook hook).hooks := by
  unfold Manager.AddHook
  split
  · rename_i hooks h
    exact replaceHook_mem hook m.hooks hooks h
  · simp

theorem runWithHooks_fst (m : Manager) (world : Hook → String → HookRun) (k : Nat)
    (s : Job × List HookExecution) : (Job.runWithHooks m world k s).1 = Job.run k s.1 := by
  induction k generalizing s with
  | zero => rfl
  | succ k ih => rw [Job.runWithHooks, ih, Job.run]

theorem scanWithHooks_fst (m : Manager) (world : Hook → String → HookRun) (scanID : String)
    (now : Time) (container : Container) (run : ScanRun) (finishedAt : Time) :
    (scanWithHooks m world scanID now container run finishedAt).1 =
      (newJob scanID now container run finishedAt).finish := by
  unfold scanWithHooks
  rw [runWithHooks_fst]
  rfl

/-! ## Lemmas on `parseResults` -/

theorem retainedFindings_append (scanID containerID hostID : String) (uuid : Nat → String)
    (now : Time) (k : Nat) (xs ys : List TrivyVulnerability) :
    retainedFindings scanID containerID hostID uuid now k (xs ++ ys) =
      retainedFindings scanID containerID hostID uuid now k xs ++
        retainedFindings scanID containerID hostID uuid now
          (k + (retainedFindings scanID containerID hostID uuid now k xs).length) ys := by
  induction xs generalizing k with
  | nil => simp [retainedFindings]
  | cons x xs ih =>
    rw [List.cons_append, retainedFindings, retainedFindings]
    split
    · exact ih k
    · rw [ih (k + 1)]
      simp only [List.cons_append, List.length_cons]
      generalize (retainedFindings scanID containerID hostID uuid now (k + 1) xs).length = n
      rw [show k + 1 + n = k + (n + 1) by omega]

theorem parse_inner (scanID containerID hostID : String) (uuid : Nat → String) (now : Time)
    (recs : List TrivyVulnerability) (acc : List Vulnerability) :
    recs.foldl (fun vulnerabilities vuln =>
        if vuln.VulnerabilityID == "" then vulnerabilities
        else vulnerabilities ++
          [parseVulnerability scanID containerID hostID (uuid vulnerabilities.length) now vuln])
      acc =
    acc ++ retainedFindings scanID containerID hostID uuid now acc.length recs := by
  induction recs generalizing acc with
  | nil => simp [retainedFindings]
  | cons x recs ih =>
    rw [List.foldl_cons, ih]
    simp only [retainedFindings]
    split
    · rfl
    · simp

theorem parse_outer (scanID containerID hostID : String) (uuid : Nat → String) (now : Time)
    (results : List TrivyResult) (acc : List Vulnerability) :
    results.foldl (fun vulnerabilities result =>
        result.Vulnerabilities.foldl (fun vulnerabilities vuln =>
          if vuln.VulnerabilityID == "" then vulnerabilities
          else vulnerabilities ++
            [parseVulnerability scanID containerID hostID (uuid vulnerabilities.length) now vuln])
          vulnerabilities) acc =
    acc ++ retainedFindings scanID containerID hostID uuid now acc.length
      (results.flatMap fun result => result.Vulnerabilities) := by
  induction results generalizing acc with
  | nil => simp [retainedFindings]
  | cons r results ih =>
    rw [List.foldl_cons, parse_inner, ih, List.flatMap_cons, retainedFindings_append]
    simp [List.append_assoc]

theorem parseResults_report (report : TrivyReport) (scanID containerID hostID : String)
    (uuid : Nat → String) (now : Time) :
    parseResults (.report report) scanID containerID hostID uuid now =
      .ok (retainedFindings scanID containerID hostID uuid now 0 report.records) := by
  unfold parseResults TrivyReport.records
  simp only []
  rw [parse_outer]
  rfl

theorem retainedFindings_getElem? (scanID containerID hostID : String) (uuid : Nat → String)
    (now : Time) (start : Nat) (recs : List TrivyVulnerability) (k : Nat) :
    (retainedFindings scanID containerID hostID uuid now start recs)[k]? =
      ((recs.filter fun vuln => vuln.VulnerabilityID != "")[k]?).map fun vuln =>
        parseVulnerability scanID containerID hostID (uuid (start + k)) now vuln := by
  induction recs generalizing start k with
  | nil => simp [retainedFindings]
  | cons x recs ih =>
    rw [retainedFindings]
    by_cases hx : x.VulnerabilityID = ""
    · simp only [hx, beq_self_eq_true, if_true]
      rw [ih, List.filter_cons_of_neg (by simp [hx])]
    · have hne : (x.VulnerabilityID == "") = false := by simpa using hx
      simp only [hne]
      rw [List.filter_cons_of_pos (by simp [hx])]
      cases k with
      | zero => simp
      | succ k =>
        simp only [Bool.false_eq_true, if_false, List.getElem?_cons_succ]
        rw [ih]
        congr 1
        funext vuln
        congr 2
        omega

theorem retainedFindings_ids (scanID containerID hostID : String) (uuid : Nat → String)
    (now : Time) (start : Nat) (recs : List TrivyVulnerability) :
    (retainedFindings scanID containerID hostID uuid now start recs).map
        (fun v => v.VulnerabilityID) =
      (recs.filter fun vuln => vuln.VulnerabilityID != "").map fun vuln => vuln.VulnerabilityID := by
  induction recs generalizing start with
  | nil => rfl
  | cons x recs ih =>
    rw [retainedFindings]
    by_cases hx : x.VulnerabilityID = ""
    · simp only [hx, beq_self_eq_true, if_true]
      rw [ih, List.filter_cons_of_neg (by simp [hx])]
    · have hne : (x.VulnerabilityID == "") = false := by simpa using hx
      simp only [hne]
      rw [List.filter_cons_of_pos (by simp [hx])]
      simp [ih, parseVulnerability]

/-! ## The claims C11 to C20 -/

/-- C11: the outcome notification is not invoked once per terminal
reconciliation.  `aegis scan status` that reconciles a failed scan sends no
notification, and `monitorScanStatus` never sends one (here for a scan it
reconciles to completed), whereas `aegis scan status` that reconciles a
completed scan sends exactly one. -/
theorem C11_no_notification_for_failed_or_monitored_scans :
    ((handleScanStatus true "s-1" (sampleTick sampleFailed) sampleController).store.GetScan
        "s-1").map (fun row => row.Status) = some "failed" ∧
    (handleScanStatus true "s-1" (sampleTick sampleFailed) sampleController).notifications = [] ∧
    ((monitorScanStatus "s-1" [sampleTick sampleCompleted] sampleController).store.GetScan
        "s-1").map (fun row => row.Status) = some "completed" ∧
    (monitorScanStatus "s-1" [sampleTick sampleCompleted] sampleController).notifications = [] ∧
    (handleScanStatus true "s-1" (sampleTick sampleCompleted)
        sampleController).notifications.length = 1 ∧
    ∀ (scanID : String) (ticks : List Tick) (c : Controller),
      (monitorScanStatus scanID ticks c).notifications = c.notifications :=
  ⟨by decide, by decide, by decide, by decide, by decide, monitorScanStatus_notifications⟩

/-- C12: a failed poll (connection error, response other than 200, body that
does not decode) leaves the controller as it is and the loop goes on with the
next poll; monitoring a sequence of polls gives the same final state as
monitoring it with the failed polls removed. -/
theorem C12_failed_polls_are_skipped (scanID : String) (host : Host) (container : Container)
    (ticks : List Tick) (scan : Scan) (c : Controller) :
    (∀ tick : Tick, tick.failed = true →
      monitorLoop scanID host container (tick :: ticks) scan c =
        monitorLoop scanID host container ticks scan c) ∧
    monitorLoop scanID host container ticks scan c =
      monitorLoop scanID host container (ticks.filter fun tick => !tick.failed) scan c ∧
    monitorScanStatus scanID ticks c =
      monitorScanStatus scanID (ticks.filter fun tick => !tick.failed) c := by
  refine ⟨fun tick h => monitorLoop_failed scanID host container tick ticks scan c h,
    monitorLoop_filter scanID host container ticks scan c, ?_⟩
  unfold monitorScanStatus
  split
  · rfl
  · split
    · rfl
    · split
      · rfl
      · exact monitorLoop_filter ..

/-- C13: when no poll before the deadline brings a terminal snapshot and the
durable record is not terminal, `monitorScanStatus` returns when the deadline
fires, having stored no finding, and the durable record is still not terminal,
in particular not failed; with no poll at all it changes nothing. -/
theorem C13_timeout_leaves_record_open (scanID : String) (ticks : List Tick) (c : Controller)
    (row : Scan)
    (hrow : c.store.GetScan scanID = some row)
    (hopen : terminal row.Status = false)
    (hnone : ∀ tick ∈ ticks, ∀ resp, tick.poll = .response 200 (some resp) →
      terminal resp.Status = false) :
    (monitorScanStatus scanID ticks c).store.vulnerabilities = c.store.vulnerabilities ∧
    (∃ row', (monitorScanStatus scanID ticks c).store.GetScan scanID = some row' ∧
      terminal row'.Status = false ∧ row'.Status ≠ "failed") ∧
    monitorScanStatus scanID [] c = c := by
  have hloop : (monitorScanStatus scanID ticks c).store.vulnerabilities =
        c.store.vulnerabilities ∧
      ∃ row', (monitorScanStatus scanID ticks c).store.GetScan scanID = some row' ∧
        terminal row'.Status = false := by
    unfold monitorScanStatus
    rw [hrow]
    simp only []
    split
    · exact ⟨rfl, row, hrow, hopen⟩
    · split
      · exact ⟨rfl, row, hrow, hopen⟩
      · exact monitorLoop_open scanID _ _ ticks hnone row c row hrow hopen
  obtain ⟨hv, row', hrow', hopen'⟩ := hloop
  refine ⟨hv, ⟨row', hrow', hopen', ?_⟩, ?_⟩
  · intro hf
    rw [hf] at hopen'
    revert hopen'
    decide
  · unfold monitorScanStatus
    split
    · rfl
    · split
      · rfl
      · split <;> rfl

/-- Witness of C13: a poll that fails to connect, then a poll that finds the
scan running, then the deadline. -/
theorem C13_timeout_leaves_record_open_witness :
    (monitorScanStatus "s-1" [sampleConnError, sampleTick sampleRunning]
        sampleController).store.vulnerabilities = sampleController.store.vulnerabilities ∧
    (∃ row', (monitorScanStatus "s-1" [sampleConnError, sampleTick sampleRunning]
        sampleController).store.GetScan "s-1" = some row' ∧
      terminal row'.Status = false ∧ row'.Status ≠ "failed") ∧
    monitorScanStatus "s-1" [] sampleController = sampleController :=
  C13_timeout_leaves_record_open "s-1" [sampleConnError, sampleTick sampleRunning]
    sampleController samplePendingRow (by decide) (by decide)
    (by
      intro tick htick resp hpoll
      simp only [List.mem_cons, List.mem_singleton, List.not_mem_nil, or_false] at htick
      rcases htick with rfl | rfl
      · simp [sampleConnError] at hpoll
      · simp only [sampleTick, Poll.response.injEq, Option.some.injEq, true_and] at hpoll
        rw [← hpoll]
        decide)

/-- C14: `ExecuteHooks` starts, in list order, one execution with the given
scan id for each hook of the list that is enabled and registered for the given
event, and none for any other hook. -/
theorem C14_ExecuteHooks_starts_matching_hooks (m : Manager) (event scanID : String) :
    m.ExecuteHooks event scanID =
      (m.hooks.filter fun hook => hook.Event == event && hook.Enabled).map
        (fun hook => (hook, scanID)) ∧
    (∀ p ∈ m.ExecuteHooks event scanID,
      p.1 ∈ m.hooks ∧ p.1.Enabled = true ∧ p.1.Event = event ∧ p.2 = scanID) ∧
    (∀ hook ∈ m.hooks, hook.Enabled = false ∨ hook.Event ≠ event →
      ∀ p ∈ m.ExecuteHooks event scanID, p.1 ≠ hook) ∧
    (m.ExecuteHooks event scanID).length =
      m.hooks.countP fun hook => hook.Event == event && hook.Enabled := by
  have heq := ExecuteHooks_eq m event scanID
  have hmem : ∀ p ∈ m.ExecuteHooks event scanID,
      p.1 ∈ m.hooks ∧ p.1.Enabled = true ∧ p.1.Event = event ∧ p.2 = scanID := by
    intro p hp
    rw [heq, List.mem_map] at hp
    obtain ⟨hook, hhook, rfl⟩ := hp
    rw [List.mem_filter] at hhook
    simp only [Bool.and_eq_true, beq_iff_eq] at hhook
    exact ⟨hhook.1, hhook.2.2, hhook.2.1, rfl⟩
  refine ⟨heq, hmem, ?_, ?_⟩
  · intro hook _ hbad p hp heqp
    obtain ⟨_, hen, hev, _⟩ := hmem p hp
    rw [heqp] at hen hev
    rcases hbad with h | h
    · rw [h] at hen; cases hen
    · exact h hev
  · rw [heq, List.length_map, List.countP_eq_length_filter]

/-- C15: the execution `executeHook` fills in has Status success exactly when
the script ran and exited with code 0; for every other end of the script
(non-zero exit, failure to start, kill at the timeout) it has Status failure
and the message of the error as ErrorMsg. -/
theorem C15_executeHook_status (hook : Hook) (scanID : String) (run : HookRun) :
    ((executeHook hook scanID run).Status = "success" ↔
      ∃ output, run.outcome = .exited 0 output) ∧
    ((∀ output, run.outcome ≠ .exited 0 output) →
      ∃ err, run.outcome.CombinedOutput.2 = some err ∧
        (executeHook hook scanID run).Status = "failure" ∧
        (executeHook hook scanID run).ErrorMsg = err) ∧
    (∀ err output, run.outcome = .killed err output →
      (executeHook hook scanID run).Status = "failure" ∧
      (executeHook hook scanID run).ErrorMsg = err) ∧
    (∀ err, run.outcome = .startFailed err →
      (executeHook hook scanID run).Status = "failure" ∧
      (executeHook hook scanID run).ErrorMsg = err) ∧
    (∀ code output, run.outcome = .exited (code + 1) output →
      (executeHook hook scanID run).Status = "failure" ∧
      (executeHook hook scanID run).ErrorMsg = "exit status " ++ toString (code + 1)) := by
  have hne : "failure" ≠ "success" := by decide
  cases hout : run.outcome with
  | exited code output =>
    cases code with
    | zero => simp [executeHook, hout, ScriptOutcome.CombinedOutput]
    | succ n => simp [executeHook, hout, ScriptOutcome.CombinedOutput, hne]
  | startFailed err => simp [executeHook, hout, ScriptOutcome.CombinedOutput, hne]
  | killed err output => simp [executeHook, hout, ScriptOutcome.CombinedOutput, hne]

/-- C16: for every scan, whatever hooks are registered and however their
scripts end, the job ends with the same registry entry: two runs that differ
only in the hook manager and in the hook outcomes agree on the final Status,
Vulnerabilities and ErrorMsg (while the hook executions they record differ, as
for the sample scan run with the sample hooks and with no hook). -/
theorem C16_hooks_do_not_influence_scan (m₁ m₂ : Manager) (world₁ world₂ : Hook → String → HookRun)
    (scanID : String) (now : Time) (container : Container) (run : ScanRun) (finishedAt : Time) :
    (scanWithHooks m₁ world₁ scanID now container run finishedAt).1.scan.Status =
      (scanWithHooks m₂ world₂ scanID now container run finishedAt).1.scan.Status ∧
    (scanWithHooks m₁ world₁ scanID now container run finishedAt).1.scan.Vulnerabilities =
      (scanWithHooks m₂ world₂ scanID now container run finishedAt).1.scan.Vulnerabilities ∧
    (scanWithHooks m₁ world₁ scanID now container run finishedAt).1.scan.ErrorMsg =
      (scanWithHooks m₂ world₂ scanID now container run finishedAt).1.scan.ErrorMsg ∧
    (scanWithHooks m₁ world₁ scanID now container run finishedAt).1 =
      (newJob scanID now container run finishedAt).finish ∧
    ((scanWithHooks (NewManager sampleHooks) sampleHookWorld "s-1" 10 sampleContainer
        sampleRunOk 50).2.map fun execution => (execution.HookID, execution.Status)) =
      [("hk-1", "failure")] ∧
    (scanWithHooks (NewManager []) sampleHookWorld "s-1" 10 sampleContainer sampleRunOk 50).2 =
      [] := by
  rw [scanWithHooks_fst, scanWithHooks_fst]
  exact ⟨rfl, rfl, rfl, rfl, by decide, by decide⟩

/-- C17: a finished job has fired, after on_scan_start, exactly one further
event: on_scan_complete if it ended completed, on_error if it ended failed; and
in every state of the job, once on_scan_complete has been fired the entry has
Status completed, once on_error has been fired it has Status failed. -/
theorem C17_terminal_hook_after_terminal_status (scanID : String) (now : Time)
    (container : Container) (run : ScanRun) (finishedAt : Time) :
    ((((newJob scanID now container run finishedAt).finish).scan.Status = "completed" ∧
        ((newJob scanID now container run finishedAt).finish).fired =
          ["on_scan_start", "on_scan_complete"]) ∨
      (((newJob scanID now container run finishedAt).finish).scan.Status = "failed" ∧
        ((newJob scanID now container run finishedAt).finish).fired =
          ["on_scan_start", "on_error"])) ∧
    ∀ k,
      ("on_scan_complete" ∈ ((newJob scanID now container run finishedAt).run k).fired →
        ((newJob scanID now container run finishedAt).run k).scan.Status = "completed") ∧
      ("on_error" ∈ ((newJob scanID now container run finishedAt).run k).fired →
        ((newJob scanID now container run finishedAt).run k).scan.Status = "failed") := by
  constructor
  · cases h : scanBody container run with
    | error err =>
      exact Or.inr (by simp [Job.finish, newJob, worker, h, Job.run, Job.exec, Instr.write])
    | ok results =>
      exact Or.inl (by simp [Job.finish, newJob, worker, h, Job.run, Job.exec, Instr.write])
  · intro k
    have hmem := Job.run_mem_trace (newJob scanID now container run finishedAt) k
    generalize (newJob scanID now container run finishedAt).run k = j at hmem
    cases h : scanBody container run with
    | error err =>
      simp [Job.trace, newJob, worker, h, Job.states, Job.exec, Instr.write] at hmem
      rcases hmem with rfl | rfl | rfl | rfl | rfl | rfl | rfl <;> simp
    | ok results =>
      simp [Job.trace, newJob, worker, h, Job.states, Job.exec, Instr.write] at hmem
      rcases hmem with rfl | rfl | rfl | rfl | rfl | rfl | rfl | rfl <;> simp

/-- C18 as stated fails: `AddHook` stores a hook whose timeout is 0, whose event
is unknown and whose script does not resolve; the hook list grows. -/
theorem C18_AddHook_stores_invalid_hook :
    sampleBadHook.TimeoutSeconds ≤ 0 ∧
    sampleBadHook.Event ≠ "on_scan_start" ∧ sampleBadHook.Event ≠ "on_scan_complete" ∧
    sampleBadHook.Event ≠ "on_error" ∧
    sampleLookPath sampleBadHook.ScriptPath = false ∧
    ((NewManager sampleHooks).AddHook sampleBadHook).hooks = sampleHooks ++ [sampleBadHook] ∧
    ((NewManager sampleHooks).AddHook sampleBadHook) ≠ NewManager sampleHooks := by
  decide

/-- C18, amended: for a hook whose timeout is not positive, or whose event is
not one of the three known events, or whose script does not resolve,
`ValidateHook` returns an error and leaves manager and hook as they were;
`AddHook` does not validate and holds the hook afterwards. -/
theorem C18_invalid_hook_rejected_by_ValidateHook_only (m : Manager) (LookPath : String → Bool)
    (hook : Hook)
    (hbad : hook.TimeoutSeconds ≤ 0 ∨
      (hook.Event ≠ "on_scan_start" ∧ hook.Event ≠ "on_scan_complete" ∧
        hook.Event ≠ "on_error") ∨
      LookPath hook.ScriptPath = false) :
    (m.ValidateHook LookPath hook).1 ≠ none ∧
    (m.ValidateHook LookPath hook).2 = (m, hook) ∧
    hook ∈ (m.AddHook hook).hooks := by
  refine ⟨?_, ?_, AddHook_mem m hook⟩
  · unfold Manager.ValidateHook
    split
    · simp
    · split
      · simp
      · split
        · simp
        · split
          · simp
          · split
            · simp
            · rename_i _ _ ht hev hlp
              rcases hbad with h | h | h
              · exact absurd h ht
              · simp [h.1, h.2.1, h.2.2] at hev
              · simp [h] at hlp
  · unfold Manager.ValidateHook
    repeat' split
    all_goals rfl

/-- Witness of C18 (amended). -/
theorem C18_invalid_hook_rejected_by_ValidateHook_only_witness :
    ((NewManager sampleHooks).ValidateHook sampleLookPath sampleBadHook).1 ≠ none ∧
    ((NewManager sampleHooks).ValidateHook sampleLookPath sampleBadHook).2 =
      (NewManager sampleHooks, sampleBadHook) ∧
    sampleBadHook ∈ ((NewManager sampleHooks).AddHook sampleBadHook).hooks :=
  C18_invalid_hook_rejected_by_ValidateHook_only (NewManager sampleHooks) sampleLookPath
    sampleBadHook (Or.inl (by decide))

/-- C19: `ValidateHook` returns an error for a hook with an empty Name, an empty
ScriptPath, a timeout that is not positive or an event other than
on_scan_start, on_scan_complete and on_error; it returns no error for a hook
with none of these defects whose ScriptPath resolves; it leaves the manager and
the hook as they were. -/
theorem C19_ValidateHook (m : Manager) (LookPath : String → Bool) (hook : Hook) :
    ((hook.Name = "" ∨ hook.ScriptPath = "" ∨ hook.TimeoutSeconds ≤ 0 ∨
        (hook.Event ≠ "on_scan_start" ∧ hook.Event ≠ "on_scan_complete" ∧
          hook.Event ≠ "on_error")) →
      (m.ValidateHook LookPath hook).1 ≠ none) ∧
    ((hook.Name ≠ "" ∧ hook.ScriptPath ≠ "" ∧ 0 < hook.TimeoutSeconds ∧
        (hook.Event = "on_scan_start" ∨ hook.Event = "on_scan_complete" ∨
          hook.Event = "on_error") ∧ LookPath hook.ScriptPath = true) →
      (m.ValidateHook LookPath hook).1 = none) ∧
    (m.ValidateHook LookPath hook).2 = (m, hook) := by
  refine ⟨?_, ?_, ?_⟩
  · intro hbad
    unfold Manager.ValidateHook
    split
    · simp
    · split
      · simp
      · split
        · simp
        · split
          · simp
          · rename_i hn hs ht hev
            rcases hbad with h | h | h | h
            · simp [h] at hn
            · simp [h] at hs
            · exact absurd h ht
            · simp [h.1, h.2.1, h.2.2] at hev
  · rintro ⟨hn, hs, ht, hev, hlp⟩
    have ht' : ¬ hook.TimeoutSeconds ≤ 0 := by omega
    have hev' : (hook.Event == "on_scan_start" || hook.Event == "on_scan_complete" ||
        hook.Event == "on_error") = true := by
      rcases hev with h | h | h <;> simp [h]
    simp [Manager.ValidateHook, hn, hs, ht', hev', hlp]
  · unfold Manager.ValidateHook
    repeat' split
    all_goals rfl

/-- C20: for a report that decodes, `parseResults` returns, in report order, one
finding for each record whose VulnerabilityID is not empty (the k-th of them
built from the k-th such record) and none for the other records; no returned
finding has an empty VulnerabilityID. -/
theorem C20_parseResults_retains_identified_records (report : TrivyReport)
    (scanID containerID hostID : String) (uuid : Nat → String) (now : Time) :
    ∃ vulnerabilities,
      parseResults (.report report) scanID containerID hostID uuid now = .ok vulnerabilities ∧
      vulnerabilities = retainedFindings scanID containerID hostID uuid now 0 report.records ∧
      (∀ k, vulnerabilities[k]? =
        ((report.records.filter fun vuln => vuln.VulnerabilityID != "")[k]?).map fun vuln =>
          parseVulnerability scanID containerID hostID (uuid k) now vuln) ∧
      vulnerabilities.map (fun v => v.VulnerabilityID) =
        (report.records.filter fun vuln => vuln.VulnerabilityID != "").map
          (fun vuln => vuln.VulnerabilityID) ∧
      vulnerabilities.length =
        report.records.countP (fun vuln => vuln.VulnerabilityID != "") ∧
      ∀ v ∈ vulnerabilities, v.VulnerabilityID ≠ "" := by
  refine ⟨_, parseResults_report report scanID containerID hostID uuid now, rfl, ?_, ?_, ?_, ?_⟩
  · intro k
    rw [retainedFindings_getElem?]
    simp
  · exact retainedFindings_ids ..
  · have := congrArg List.length
      (retainedFindings_ids scanID containerID hostID uuid now 0 report.records)
    simpa [List.countP_eq_length_filter] using this
  · intro v hv
    have hid : v.VulnerabilityID ∈
        (retainedFindings scanID containerID hostID uuid now 0 report.records).map
          (fun v => v.VulnerabilityID) := List.mem_map_of_mem _ hv
    rw [retainedFindings_ids, List.mem_map] at hid
    obtain ⟨vuln, hvuln, hveq⟩ := hid
    rw [List.mem_filter] at hvuln
    rw [← hveq]
    simpa using hvuln.2

/-! ## Lemmas on the inventory, on the hook list and on the stored findings -/

/-- When the containers passing a test that depends on the ID only are just `c`,
the first container with the ID of `c` is `c`. -/
theorem find?_ID_of_filter_singleton (inv : List Container) (p : Container → Bool)
    (c : Container) (hfilter : inv.filter p = [c]) (hp : ∀ x y : Container, x.ID = y.ID →
      p x = p y) :
    inv.find? (fun x => x.ID == c.ID) = some c := by
  have hc : c ∈ inv.filter p := by rw [hfilter]; exact List.mem_singleton.mpr rfl
  have hcin := (List.mem_filter.mp hc).1
  have hpc := (List.mem_filter.mp hc).2
  cases hfind : inv.find? (fun x => x.ID == c.ID) with
  | none =>
    have := List.find?_eq_none.mp hfind c hcin
    simp at this
  | some x =>
    have hx := List.find?_some hfind
    have hxin := List.mem_of_find?_eq_some hfind
    have hxid : x.ID = c.ID := by simpa using hx
    have hxp : p x = true := by rw [hp x c hxid]; exact hpc
    have hxf : x ∈ inv.filter p := List.mem_filter.mpr ⟨hxin, hxp⟩
    rw [hfilter] at hxf
    rw [List.mem_singleton.mp hxf]

/-- Over an inventory, `GetContainer` returns the container with the exact id. -/
theorem GetContainer_exact (inv : List Container) (id : String) (c : Container)
    (h : inv.find? (fun c => c.ID == id) = some c) :
    GetContainer (dockerOf inv) id = .ok c := by
  simp [GetContainer, dockerOf, h]

/-- Over an inventory without a container with the exact id, `GetContainer` is
the scan of the inventory for IDs starting with the id. -/
theorem GetContainer_scan (inv : List Container) (id : String)
    (h : inv.find? (fun c => c.ID == id) = none) :
    GetContainer (dockerOf inv) id =
      match inv.filter (fun cont => id.data.isPrefixOf cont.ID.data) with
      | [] => .error ("контейнер не найден: " ++ id)
      | [matchedContainer] => .ok matchedContainer
      | matchingContainers =>
        .error ("найдено несколько контейнеров с ID, начинающимся с " ++ id ++ ": " ++
          ", ".intercalate (matchingContainers.map fun cont =>
            (if cont.ID.length > 12 then cont.ID.take 12 else cont.ID) ++ " (" ++ cont.Name ++
              ")")) := by
  unfold GetContainer
  simp only [dockerOf, h]
  match hf : inv.filter (fun cont => id.data.isPrefixOf cont.ID.data) with
  | [] => rw [hf]
  | [c] =>
    have hfind := find?_ID_of_filter_singleton inv _ c hf (fun x y hxy => by simp only [hxy])
    rw [hf]
    simp only [hfind]
  | c₁ :: c₂ :: rest => rw [hf]

/-- When the loop of `AddHook` finds a match, the list splits around the first
hook with the id, and that hook is the only one replaced. -/
theorem replaceHook_some (hook : Hook) :
    ∀ (hooks result : List Hook), replaceHook hook hooks = some result →
      ∃ pre old post, hooks = pre ++ old :: post ∧ old.ID = hook.ID ∧
        (∀ x ∈ pre, x.ID ≠ hook.ID) ∧ result = pre ++ hook :: post := by
  intro hooks
  induction hooks with
  | nil => intro result h; simp [replaceHook] at h
  | cons x rest ih =>
    intro result h
    rw [replaceHook] at h
    by_cases hx : x.ID = hook.ID
    · simp only [hx, beq_self_eq_true, if_true, Option.some.injEq] at h
      exact ⟨[], x, rest, rfl, hx, by simp, by simp [← h]⟩
    · have hne : (x.ID == hook.ID) = false := by simpa using hx
      simp only [hne, Bool.false_eq_true, if_false, Option.map_eq_some'] at h
      obtain ⟨hooks, hrec, hres⟩ := h
      obtain ⟨pre, old, post, hsplit, hold, hpre, hresult⟩ := ih hooks hrec
      refine ⟨x :: pre, old, post, by simp [hsplit], hold, ?_, by simp [← hres, hresult]⟩
      intro y hy
      rcases List.mem_cons.mp hy with rfl | hy
      · exact hx
      · exact hpre y hy

/-- The loop of `AddHook` ends without a match exactly when no hook has the id. -/
theorem replaceHook_none (hook : Hook) :
    ∀ hooks : List Hook, replaceHook hook hooks = none ↔ ∀ x ∈ hooks, x.ID ≠ hook.ID := by
  intro hooks
  induction hooks with
  | nil => simp [replaceHook]
  | cons x rest ih =>
    rw [replaceHook]
    by_cases hx : x.ID = hook.ID
    · simp [hx]
    · have hne : (x.ID == hook.ID) = false := by simpa using hx
      simp [hne, ih, hx]

/-- When the loop of `RemoveHook` finds a match, the list splits around the
first hook with the id, and that hook is the only one removed. -/
theorem removeHook_some (id : String) :
    ∀ (hooks result : List Hook), removeHook id hooks = some result →
      ∃ pre hook post, hooks = pre ++ hook :: post ∧ hook.ID = id ∧
        (∀ x ∈ pre, x.ID ≠ id) ∧ result = pre ++ post := by
  intro hooks
  induction hooks with
  | nil => intro result h; simp [removeHook] at h
  | cons x rest ih =>
    intro result h
    rw [removeHook] at h
    by_cases hx : x.ID = id
    · simp only [hx, beq_self_eq_true, if_true, Option.some.injEq] at h
      exact ⟨[], x, rest, rfl, hx, by simp, by simp [← h]⟩
    · have hne : (x.ID == id) = false := by simpa using hx
      simp only [hne, Bool.false_eq_true, if_false, Option.map_eq_some'] at h
      obtain ⟨hooks, hrec, hres⟩ := h
      obtain ⟨pre, old, post, hsplit, hold, hpre, hresult⟩ := ih hooks hrec
      refine ⟨x :: pre, old, post, by simp [hsplit], hold, ?_, by simp [← hres, hresult]⟩
      intro y hy
      rcases List.mem_cons.mp hy with rfl | hy
      · exact hx
      · exact hpre y hy

/-- The loop of `RemoveHook` ends without a match exactly when no hook has the id. -/
theorem removeHook_none (id : String) :
    ∀ hooks : List Hook, removeHook id hooks = none ↔ ∀ x ∈ hooks, x.ID ≠ id := by
  intro hooks
  induction hooks with
  | nil => simp [removeHook]
  | cons x rest ih =>
    rw [removeHook]
    by_cases hx : x.ID = id
    · simp [hx]
    · have hne : (x.ID == id) = false := by simpa using hx
      simp [hne, ih, hx]

/-- The first hook with a given id, in a list split around it. -/
theorem find?_ID_split (pre post : List Hook) (hook : Hook) (id : String) (hid : hook.ID = id)
    (hpre : ∀ x ∈ pre, x.ID ≠ id) :
    (pre ++ hook :: post).find? (fun x => x.ID == id) = some hook := by
  have hnone : pre.find? (fun x => x.ID == id) = none := by
    rw [List.find?_eq_none]
    intro x hx
    simpa using hpre x hx
  simp [List.find?_append, hnone, hid]

/-- The merge keeps the host id of the record. -/
theorem mergeSnapshot_HostID (scan : Scan) (resp : ScanStatusResponse) :
    (mergeSnapshot scan resp).HostID = scan.HostID := by
  unfold mergeSnapshot
  cases resp.FinishedAt <;> simp only [] <;> split <;> rfl

/-- The merge keeps the container id of the record. -/
theorem mergeSnapshot_ContainerID (scan : Scan) (resp : ScanStatusResponse) :
    (mergeSnapshot scan resp).ContainerID = scan.ContainerID := by
  unfold mergeSnapshot
  cases resp.FinishedAt <;> simp only [] <;> split <;> rfl

/-- The findings `addVulnerabilities` inserts come after those the store held
and carry the scan, container and host ids it is given. -/
theorem addVulnerabilities_stamps (tick : Tick) (scanID containerID hostID : String) (k : Nat)
    (vulns : List Vulnerability) (store : Store) :
    ∃ added : List Vulnerability,
      (addVulnerabilities tick scanID containerID hostID k vulns store).vulnerabilities =
        store.vulnerabilities ++ added ∧
      ∀ v ∈ added, v.ScanID = scanID ∧ v.HostID = hostID ∧ v.ContainerID = containerID := by
  induction vulns generalizing k store with
  | nil => exact ⟨[], by simp [addVulnerabilities], by simp⟩
  | cons vuln rest ih =>
    rw [addVulnerabilities]
    obtain ⟨added, hadded, hstamp⟩ := ih (k + 1)
      (store.AddVulnerability (tick.addVulnerabilityOk k)
        { vuln with ID := tick.uuid k, ScanID := scanID, ContainerID := containerID,
                    HostID := hostID, DiscoveredAt := tick.now })
    rw [hadded]
    cases hok : tick.addVulnerabilityOk k with
    | false => exact ⟨added, by simp [Store.AddVulnerability], hstamp⟩
    | true =>
      refine ⟨{ vuln with ID := tick.uuid k, ScanID := scanID, ContainerID := containerID,
                          HostID := hostID, DiscoveredAt := tick.now } :: added,
        by simp [Store.AddVulnerability], ?_⟩
      intro v hv
      rcases List.mem_cons.mp hv with rfl | hv
      · exact ⟨rfl, rfl, rfl⟩
      · exact hstamp v hv

/-- The findings the loop of the monitor inserts carry the scan id and the ids
of the host and the container looked up before the loop. -/
theorem monitorLoop_stamps (scanID : String) (host : Host) (container : Container)
    (ticks : List Tick) (scan : Scan) (c : Controller) :
    ∃ added : List Vulnerability,
      (monitorLoop scanID host container ticks scan c).store.vulnerabilities =
        c.store.vulnerabilities ++ added ∧
      ∀ v ∈ added, v.ScanID = scanID ∧ v.HostID = host.ID ∧ v.ContainerID = container.ID := by
  induction ticks generalizing scan c with
  | nil => exact ⟨[], by simp [monitorLoop], by simp⟩
  | cons tick ticks ih =>
    rw [monitorLoop]
    cases tick.poll with
    | connError => exact ih scan c
    | response code body =>
      dsimp only
      split
      · exact ih scan c
      · cases body with
        | none => exact ih scan c
        | some resp =>
          dsimp only
          split
          · split
            · obtain ⟨added, hadded, hstamp⟩ := addVulnerabilities_stamps tick scanID
                container.ID host.ID 0 resp.Vulnerabilities
                (c.store.UpdateScan tick.updateScanOk (mergeSnapshot scan resp))
              exact ⟨added, by rw [hadded, UpdateScan_vulnerabilities], hstamp⟩
            · exact ⟨[], by simp [UpdateScan_vulnerabilities], by simp⟩
          · obtain ⟨added, hadded, hstamp⟩ := ih (mergeSnapshot scan resp)
              { c with store := c.store.UpdateScan tick.updateScanOk (mergeSnapshot scan resp) }
            exact ⟨added, by rw [hadded, UpdateScan_vulnerabilities], hstamp⟩

/-- The findings `aegis scan status` inserts carry the scan id and the host and
container ids of the durable record. -/
theorem handleScanStatus_stamps (notifier : Bool) (scanID : String) (tick : Tick)
    (c : Controller) (scan : Scan) (hscan : c.store.GetScan scanID = some scan) :
    ∃ added : List Vulnerability,
      (handleScanStatus notifier scanID tick c).store.vulnerabilities =
        c.store.vulnerabilities ++ added ∧
      ∀ v ∈ added, v.ScanID = scanID ∧ v.HostID = scan.HostID ∧
        v.ContainerID = scan.ContainerID := by
  have hsame : ∃ added : List Vulnerability,
      c.store.vulnerabilities = c.store.vulnerabilities ++ added ∧
      ∀ v ∈ added, v.ScanID = scanID ∧ v.HostID = scan.HostID ∧
        v.ContainerID = scan.ContainerID := ⟨[], by simp, by simp⟩
  rw [handleScanStatus, hscan]
  dsimp only
  cases c.store.GetHost scan.HostID with
  | none => exact hsame
  | some host =>
    dsimp only
    split
    · exact hsame
    · cases tick.poll with
      | connError => exact hsame
      | response code body =>
        dsimp only
        split
        · exact hsame
        · cases body with
          | none => exact hsame
          | some resp =>
            dsimp only
            split
            · obtain ⟨added, hadded, hstamp⟩ := addVulnerabilities_stamps tick scanID
                (mergeSnapshot scan resp).ContainerID (mergeSnapshot scan resp).HostID 0
                resp.Vulnerabilities
                (c.store.UpdateScan tick.updateScanOk (mergeSnapshot scan resp))
              rw [mergeSnapshot_HostID, mergeSnapshot_ContainerID] at hstamp
              exact ⟨added, by rw [hadded, UpdateScan_vulnerabilities], hstamp⟩
            · exact ⟨[], by simp [UpdateScan_vulnerabilities], by simp⟩

/-- A container the store finds under an id that a stored container has
exactly has that id. -/
theorem StoreGetContainer_of_exact (s : Store) (id : String) (found : Container)
    (hexact : ∃ container ∈ s.containers, container.ID = id)
    (hfound : s.GetContainer id = some found) : found.ID = id := by
  obtain ⟨container, hmem, hid⟩ := hexact
  unfold Store.GetContainer at hfound
  cases hfind : s.containers.find? (fun container => container.ID == id) with
  | none =>
    have := List.find?_eq_none.mp hfind container hmem
    simp [hid] at this
  | some x =>
    rw [hfind] at hfound
    simp only [Option.some.injEq] at hfound
    rw [← hfound]
    simpa using List.find?_some hfind

/-- The events a job has passed to `ExecuteHooks` once its worker has finished:
on_scan_start, then on_error or on_scan_complete. -/
theorem newJob_finish_fired (scanID : String) (now : Time) (container : Container)
    (run : ScanRun) (finishedAt : Time) :
    (newJob scanID now container run finishedAt).finish.fired = ["on_scan_start", "on_error"] ∨
    (newJob scanID now container run finishedAt).finish.fired =
      ["on_scan_start", "on_scan_complete"] := by
  rcases worker_cases container run finishedAt with ⟨err, _, hw⟩ | ⟨results, _, hw⟩
  · left
    have hj : newJob scanID now container run finishedAt =
        { scan := (newJob scanID now container run finishedAt).scan
          todo := [.setStatus "running", .semSend, .semRecv, .setStatus "failed",
            .setErrorMsg err, .ExecuteHooks "on_error"]
          inScan := false
          fired := ["on_scan_start"] } := by
      unfold newJob
      rw [hw]
    rw [hj]
    rfl
  · right
    have hj : newJob scanID now container run finishedAt =
        { scan := (newJob scanID now container run finishedAt).scan
          todo := [.setStatus "running", .semSend, .semRecv, .setStatus "completed",
            .setFinishedAt finishedAt, .setVulnerabilities results,
            .ExecuteHooks "on_scan_complete"]
          inScan := false
          fired := ["on_scan_start"] } := by
      unfold newJob
      rw [hw]
    rw [hj]
    rfl

/-- When every write succeeds the loop appends one line per vulnerability, in
the order of the list. -/
theorem writeLines_ok (fs : FileWorld) (prefixErr : String)
    (hwrite : ∀ k, fs.writeString k = none) (vulnerabilities : List Vulnerability) :
    ∀ (k : Nat) (content : String),
      writeLines fs prefixErr k vulnerabilities content =
        (none, vulnerabilities.foldl (fun content v => content ++ csvLine v) content) := by
  induction vulnerabilities with
  | nil => intro k content; rfl
  | cons v rest ih =>
    intro k content
    rw [writeLines, hwrite k]
    exact ih (k + 1) (content ++ csvLine v)

/-- Doubling the quotes of a text without quotes leaves it as it is. -/
theorem flatMap_quote_free (s : List Char) (hfree : '"' ∉ s) :
    (s.flatMap fun c => if c == '"' then ['"', '"'] else [c]) = s := by
  induction s with
  | nil => rfl
  | cons c s ih =>
    have hc : ¬c = '"' := fun h => hfree (by simp [h])
    have hs : '"' ∉ s := fun h => hfree (List.mem_cons_of_mem _ h)
    rw [List.flatMap_cons, ih hs]
    simp [hc]

/-- Reading a field written with its quotes doubled and followed by a closing
quote and a comma gives the field back. -/
theorem readCsvFields_field (rest : List Char) (fields : List String) (s : List Char) :
    ∀ field : List Char,
      readCsvFields ((s.flatMap fun c => if c == '"' then ['"', '"'] else [c]) ++
          '"' :: ',' :: rest) (.inField field) fields =
        readCsvFields rest .start (String.mk (field.reverse ++ s) :: fields) := by
  induction s with
  | nil =>
    intro field
    simp [readCsvFields]
  | cons c s ih =>
    intro field
    by_cases hc : c = '"'
    · subst hc
      simp only [List.flatMap_cons, beq_self_eq_true, if_true, List.cons_append, List.nil_append]
      rw [readCsvFields, if_pos (by rfl), readCsvFields, if_pos (by rfl), ih ('"' :: field)]
      simp
    · have hne : (c == '"') = false := by simpa using hc
      simp only [List.flatMap_cons, hne, Bool.false_eq_true, if_false, List.cons_append,
        List.nil_append]
      rw [readCsvFields, hne, if_neg (by simp), ih (c :: field)]
      simp

/-- Reading the last field of a record, written with its quotes doubled and
followed by a closing quote and a line feed, ends the record. -/
theorem readCsvFields_last (fields : List String) (s : List Char) :
    ∀ field : List Char,
      readCsvFields ((s.flatMap fun c => if c == '"' then ['"', '"'] else [c]) ++
          ['"', '\n']) (.inField field) fields =
        some (String.mk (field.reverse ++ s) :: fields).reverse := by
  induction s with
  | nil =>
    intro field
    simp [readCsvFields]
  | cons c s ih =>
    intro field
    by_cases hc : c = '"'
    · subst hc
      simp only [List.flatMap_cons, beq_self_eq_true, if_true, List.cons_append, List.nil_append]
      rw [readCsvFields, if_pos (by rfl), readCsvFields, if_pos (by rfl), ih ('"' :: field)]
      simp
    · have hne : (c == '"') = false := by simpa using hc
      simp only [List.flatMap_cons, hne, Bool.false_eq_true, if_false, List.cons_append,
        List.nil_append]
      rw [readCsvFields, hne, if_neg (by simp), ih (c :: field)]
      simp

/-- Reading a field without quotes that is followed by the quote, comma and
quote between two fields. -/
theorem readCsvFields_plain (rest : List Char) (fields : List String) (s : String)
    (hfree : '"' ∉ s.data) :
    readCsvFields (s.data ++ '"' :: ',' :: '"' :: rest) (.inField []) fields =
      readCsvFields rest (.inField []) (s :: fields) := by
  have h := readCsvFields_field ('"' :: rest) fields s.data []
  rw [flatMap_quote_free s.data hfree] at h
  rw [h, readCsvFields, if_pos (by rfl)]
  simp

/-- Reading a field written by `escapeQuotes` that is followed by the quote,
comma and quote between two fields. -/
theorem readCsvFields_escaped (rest : List Char) (fields : List String) (s : String) :
    readCsvFields ((escapeQuotes s).data ++ '"' :: ',' :: '"' :: rest) (.inField []) fields =
      readCsvFields rest (.inField []) (s :: fields) := by
  have h := readCsvFields_field ('"' :: rest) fields s.data []
  rw [escapeQuotes, h, readCsvFields, if_pos (by rfl)]
  simp

/-- The characters of the line written for a vulnerability. -/
theorem csvLine_data (v : Vulnerability) :
    (csvLine v).data =
      '"' :: (v.ID.data ++ '"' :: ',' :: '"' ::
        (v.VulnerabilityID.data ++ '"' :: ',' :: '"' ::
        (v.Severity.data ++ '"' :: ',' :: '"' ::
        ((escapeQuotes v.Title).data ++ '"' :: ',' :: '"' ::
        (v.Package.data ++ '"' :: ',' :: '"' ::
        (v.InstalledVersion.data ++ '"' :: ',' :: '"' ::
        (v.FixedVersion.data ++ '"' :: ',' :: '"' ::
        ((escapeQuotes v.Description).data ++ ['"', '\n'])))))))) := by
  simp [csvLine, String.data_append]

/-- A record whose six fields written as they are hold no quote reads back as
the eight fields of the vulnerability. -/
theorem readCsvRecord_csvLine (v : Vulnerability)
    (hfree : ∀ field ∈ [v.ID, v.VulnerabilityID, v.Severity, v.Package, v.InstalledVersion,
      v.FixedVersion], '"' ∉ field.data) :
    readCsvRecord (csvLine v) = some (csvFields v) := by
  have h1 := hfree v.ID (by simp)
  have h2 := hfree v.VulnerabilityID (by simp)
  have h3 := hfree v.Severity (by simp)
  have h4 := hfree v.Package (by simp)
  have h5 := hfree v.InstalledVersion (by simp)
  have h6 := hfree v.FixedVersion (by simp)
  rw [readCsvRecord, csvLine_data, readCsvFields, if_pos (by rfl)]
  rw [readCsvFields_plain _ _ _ h1, readCsvFields_plain _ _ _ h2, readCsvFields_plain _ _ _ h3,
    readCsvFields_escaped, readCsvFields_plain _ _ _ h4, readCsvFields_plain _ _ _ h5,
    readCsvFields_plain _ _ _ h6]
  have hlast := readCsvFields_last
    [v.FixedVersion, v.InstalledVersion, v.Package, v.Title, v.Severity, v.VulnerabilityID, v.ID]
    v.Description.data []
  rw [escapeQuotes, hlast]
  simp [csvFields]

/-- An update of a scan row keeps the row of every id in the table, with its
host id and container id. -/
theorem UpdateScan_GetScan_ids (s : Store) (ok : Bool) (x : Scan) (id : String) (row : Scan)
    (h : s.GetScan id = some row) :
    ∃ record, (s.UpdateScan ok x).GetScan id = some record ∧ record.HostID = row.HostID ∧
      record.ContainerID = row.ContainerID := by
  cases ok with
  | false => exact ⟨row, by simpa [Store.UpdateScan] using h, rfl, rfl⟩
  | true =>
    unfold Store.GetScan at h ⊢
    simp only [Store.UpdateScan, if_true, List.find?_map]
    have hfun : ((fun scan : Scan => scan.ID == id) ∘ fun row : Scan =>
        if (row.ID == x.ID) = true then
          { row with Status := x.Status, FinishedAt := x.FinishedAt,
                     ResultPath := x.ResultPath, ErrorMsg := x.ErrorMsg }
        else row) = fun scan : Scan => scan.ID == id := by
      funext r
      simp only [Function.comp]
      split <;> rfl
    rw [hfun, h]
    simp only [Option.map_some']
    split
    · exact ⟨_, rfl, rfl, rfl⟩
    · exact ⟨_, rfl, rfl, rfl⟩

/-- The loop that stores findings leaves the scan rows as they are. -/
theorem addVulnerabilities_GetScan (tick : Tick) (scanID containerID hostID : String) (k : Nat)
    (vulns : List Vulnerability) (store : Store) (id : String) :
    (addVulnerabilities tick scanID containerID hostID k vulns store).GetScan id =
      store.GetScan id :=
  GetScan_scans (addVulnerabilities_scans tick scanID containerID hostID k vulns store) id

/-- The loop of the monitor keeps the row of every scan id, with its host id
and container id. -/
theorem monitorLoop_GetScan_ids (scanID : String) (host : Host) (container : Container)
    (id : String) (ticks : List Tick) (scan : Scan) (c : Controller) (row : Scan)
    (h : c.store.GetScan id = some row) :
    ∃ record, (monitorLoop scanID host container ticks scan c).store.GetScan id = some record ∧
      record.HostID = row.HostID ∧ record.ContainerID = row.ContainerID := by
  induction ticks generalizing scan c row with
  | nil => exact ⟨row, by simpa [monitorLoop] using h, rfl, rfl⟩
  | cons tick ticks ih =>
    rw [monitorLoop]
    cases tick.poll with
    | connError => exact ih scan c row h
    | response code body =>
      dsimp only
      split
      · exact ih scan c row h
      · cases body with
        | none => exact ih scan c row h
        | some resp =>
          dsimp only
          obtain ⟨record, hrecord, hhost, hcont⟩ := UpdateScan_GetScan_ids c.store
            tick.updateScanOk (mergeSnapshot scan resp) id row h
          split
          · split
            · exact ⟨record, by rw [addVulnerabilities_GetScan]; exact hrecord, hhost, hcont⟩
            · exact ⟨record, hrecord, hhost, hcont⟩
          · obtain ⟨record', hrecord', hhost', hcont'⟩ := ih (mergeSnapshot scan resp)
              { c with store := c.store.UpdateScan tick.updateScanOk (mergeSnapshot scan resp) }
              record hrecord
            exact ⟨record', hrecord', hhost'.trans hhost, hcont'.trans hcont⟩

/-- The monitor keeps the row of every scan id, with its host id and container
id. -/
theorem monitorScanStatus_GetScan_ids (scanID id : String) (ticks : List Tick) (c : Controller)
    (row : Scan) (h : c.store.GetScan id = some row) :
    ∃ record, (monitorScanStatus scanID ticks c).store.GetScan id = some record ∧
      record.HostID = row.HostID ∧ record.ContainerID = row.ContainerID := by
  rw [monitorScanStatus]
  cases c.store.GetScan scanID with
  | none => exact ⟨row, h, rfl, rfl⟩
  | some scan =>
    dsimp only
    cases c.store.GetHost scan.HostID with
    | none => exact ⟨row, h, rfl, rfl⟩
    | some host =>
      dsimp only
      cases c.store.GetContainer scan.ContainerID with
      | none => exact ⟨row, h, rfl, rfl⟩
      | some container => exact monitorLoop_GetScan_ids scanID host container id ticks scan c row h

/-- Command `aegis scan status` keeps the row of every scan id, with its host
id and container id. -/
theorem handleScanStatus_GetScan_ids (notifier : Bool) (scanID id : String) (tick : Tick)
    (c : Controller) (row : Scan) (h : c.store.GetScan id = some row) :
    ∃ record, (handleScanStatus notifier scanID tick c).store.GetScan id = some record ∧
      record.HostID = row.HostID ∧ record.ContainerID = row.ContainerID := by
  have hsame : ∃ record, c.store.GetScan id = some record ∧
      record.HostID = row.HostID ∧ record.ContainerID = row.ContainerID := ⟨row, h, rfl, rfl⟩
  rw [handleScanStatus]
  cases c.store.GetScan scanID with
  | none => exact hsame
  | some scan =>
    dsimp only
    cases c.store.GetHost scan.HostID with
    | none => exact hsame
    | some host =>
      dsimp only
      split
      · exact hsame
      · cases tick.poll with
        | connError => exact hsame
        | response code body =>
          dsimp only
          split
          · exact hsame
          · cases body with
            | none => exact hsame
            | some resp =>
              dsimp only
              obtain ⟨record, hrecord, hhost, hcont⟩ := UpdateScan_GetScan_ids c.store
                tick.updateScanOk (mergeSnapshot scan resp) id row h
              split
              · exact ⟨record, by rw [addVulnerabilities_GetScan]; exact hrecord, hhost, hcont⟩
              · exact ⟨record, hrecord, hhost, hcont⟩

/-- The findings the monitor stores for a record whose container id is the ID
of a stored container carry the scan id and the host and container ids of the
record. -/
theorem monitorScanStatus_stamps (scanID : String) (ticks : List Tick) (c : Controller)
    (scan : Scan) (hscan : c.store.GetScan scanID = some scan)
    (hexact : ∃ stored ∈ c.store.containers, stored.ID = scan.ContainerID) :
    ∃ added : List Vulnerability,
      (monitorScanStatus scanID ticks c).store.vulnerabilities =
        c.store.vulnerabilities ++ added ∧
      ∀ v ∈ added, v.ScanID = scanID ∧ v.HostID = scan.HostID ∧
        v.ContainerID = scan.ContainerID := by
  rw [monitorScanStatus, hscan]
  dsimp only
  cases hhost : c.store.GetHost scan.HostID with
  | none => exact ⟨[], by simp, by simp⟩
  | some host =>
    dsimp only
    cases hcont : c.store.GetContainer scan.ContainerID with
    | none => exact ⟨[], by simp, by simp⟩
    | some container =>
      dsimp only
      have hhostID : host.ID = scan.HostID := by
        simpa using List.find?_some hhost
      have hcontID := StoreGetContainer_of_exact c.store scan.ContainerID container hexact hcont
      obtain ⟨added, hadded, hstamp⟩ := monitorLoop_stamps scanID host container ticks scan c
      refine ⟨added, hadded, ?_⟩
      intro v hv
      obtain ⟨h1, h2, h3⟩ := hstamp v hv
      exact ⟨h1, h2.trans hhostID, h3.trans hcontID⟩

/-- The containers `ListContainers` returns are rows of the table. -/
theorem ListContainers_mem (s : Store) (hostID : String) (container : Container)
    (h : container ∈ s.ListContainers hostID) : container ∈ s.containers := by
  unfold Store.ListContainers at h
  rw [(List.perm_insertionSort _ _).mem_iff] at h
  exact (List.mem_filter.mp h).1

/-- The row read back after the insert of a scan record whose id is new. -/
theorem GetScan_AddScan (s : Store) (ok : Bool) (scan : Scan)
    (fresh : ∀ row ∈ s.scans, row.ID ≠ scan.ID) :
    (s.AddScan ok scan).GetScan scan.ID = if ok then some scan else none := by
  have hnone : s.scans.find? (fun row => row.ID == scan.ID) = none := by
    rw [List.find?_eq_none]
    intro row hrow
    simpa using fresh row hrow
  have hall : s.scans.all (fun row => row.ID != scan.ID) = true := by
    rw [List.all_eq_true]
    intro row hrow
    simpa using fresh row hrow
  cases ok with
  | false => simpa [Store.AddScan, Store.GetScan] using hnone
  | true => simp [Store.AddScan, Store.GetScan, hall, List.find?_append, hnone]

/-- The insert of a scan record touches the scan rows only. -/
theorem AddScan_other (s : Store) (ok : Bool) (scan : Scan) :
    (s.AddScan ok scan).vulnerabilities = s.vulnerabilities ∧
    (s.AddScan ok scan).containers = s.containers ∧ (s.AddScan ok scan).hosts = s.hosts := by
  unfold Store.AddScan
  split <;> exact ⟨rfl, rfl, rfl⟩

/-- The findings the goroutine of `TUI.startScan` stores carry the ids of the
durable record of the scan, when the selected container has the ID of a row of
the store and the scan id the agent answers is new to the store. -/
theorem goroutine_stamps (activeHost : Host) (selected : Container) (post : PostReply)
    (now : Time) (addScanOk : Bool) (ticks : List Tick) (c : Controller)
    (hstored : ∃ stored ∈ c.store.containers, stored.ID = selected.ID)
    (fresh : ∀ code id, post = .response code (some id) → ∀ row ∈ c.store.scans, row.ID ≠ id) :
    ∃ added : List Vulnerability,
      (TUI.startScan.goroutine activeHost selected post now addScanOk ticks
        c).store.vulnerabilities = c.store.vulnerabilities ++ added ∧
      ∀ v ∈ added, ∃ record,
        (TUI.startScan.goroutine activeHost selected post now addScanOk ticks
          c).store.GetScan v.ScanID = some record ∧
        v.HostID = record.HostID ∧ v.ContainerID = record.ContainerID := by
  have hsame : ∃ added : List Vulnerability,
      c.store.vulnerabilities = c.store.vulnerabilities ++ added ∧
      ∀ v ∈ added, ∃ record, c.store.GetScan v.ScanID = some record ∧
        v.HostID = record.HostID ∧ v.ContainerID = record.ContainerID :=
    ⟨[], by simp, by simp⟩
  unfold TUI.startScan.goroutine
  cases hpost : post with
  | connError => exact hsame
  | response code body =>
    dsimp only
    by_cases hcode : (code != 200 && code != 202) = true
    · rw [if_pos hcode]
      exact hsame
    · rw [if_neg hcode]
      cases body with
      | none => exact hsame
      | some scanID =>
        dsimp only
        have hfresh := fresh code scanID hpost
        have hread := GetScan_AddScan c.store addScanOk
          { ID := scanID, HostID := activeHost.ID, ContainerID := selected.ID,
            Status := "pending", StartedAt := now, FinishedAt := 0, ResultPath := "",
            ErrorMsg := "" } hfresh
        have hother := AddScan_other c.store addScanOk
          { ID := scanID, HostID := activeHost.ID, ContainerID := selected.ID,
            Status := "pending", StartedAt := now, FinishedAt := 0, ResultPath := "",
            ErrorMsg := "" }
        cases addScanOk with
        | false =>
          simp only [Bool.false_eq_true, if_false] at hread
          rw [monitorScanStatus]
          simp only [hread]
          exact ⟨[], by simp [hother.1], by simp⟩
        | true =>
          simp only [if_true] at hread
          obtain ⟨added, hadded, hstamp⟩ := monitorScanStatus_stamps scanID ticks
            { c with store := (c.store.AddScan true
                { ID := scanID, HostID := activeHost.ID, ContainerID := selected.ID,
                  Status := "pending", StartedAt := now, FinishedAt := 0, ResultPath := "",
                  ErrorMsg := "" }) } _ hread
            (by
              obtain ⟨stored, hmem, hid⟩ := hstored
              exact ⟨stored, by rw [hother.2.1]; exact hmem, hid⟩)
          obtain ⟨record, hrecord, hhost, hcont⟩ := monitorScanStatus_GetScan_ids scanID
            scanID ticks
            { c with store := (c.store.AddScan true
                { ID := scanID, HostID := activeHost.ID, ContainerID := selected.ID,
                  Status := "pending", StartedAt := now, FinishedAt := 0, ResultPath := "",
                  ErrorMsg := "" }) } _ hread
          refine ⟨added, by rw [hadded, hother.1], ?_⟩
          intro v hv
          obtain ⟨h1, h2, h3⟩ := hstamp v hv
          exact ⟨record, by rw [h1]; exact hrecord, h2.trans hhost.symm, h3.trans hcont.symm⟩

/-- The findings a scan started from the TUI stores carry the ids of the
durable record of the scan, when the containers shown have the IDs of rows of
the store and the scan id the agent answers is new to the store. -/
theorem TUI_startScan_stamps (activeHost : Option Host) (containers : List Container)
    (cursor : Option Int) (post : PostReply) (now : Time) (addScanOk : Bool)
    (ticks : List Tick) (c : Controller)
    (hrows : ∀ container ∈ containers, ∃ stored ∈ c.store.containers, stored.ID = container.ID)
    (fresh : ∀ code id, post = .response code (some id) → ∀ row ∈ c.store.scans, row.ID ≠ id) :
    ∃ added : List Vulnerability,
      (TUI.startScan activeHost containers cursor post now addScanOk ticks c).store.vulnerabilities =
        c.store.vulnerabilities ++ added ∧
      ∀ v ∈ added, ∃ record,
        (TUI.startScan activeHost containers cursor post now addScanOk ticks
          c).store.GetScan v.ScanID = some record ∧
        v.HostID = record.HostID ∧ v.ContainerID = record.ContainerID := by
  have hsame : ∃ added : List Vulnerability,
      c.store.vulnerabilities = c.store.vulnerabilities ++ added ∧
      ∀ v ∈ added, ∃ record, c.store.GetScan v.ScanID = some record ∧
        v.HostID = record.HostID ∧ v.ContainerID = record.ContainerID :=
    ⟨[], by simp, by simp⟩
  unfold TUI.startScan
  cases activeHost with
  | none => exact hsame
  | some activeHost =>
    cases cursor with
    | none => exact hsame
    | some cy =>
      dsimp only
      by_cases hcy : 0 ≤ cy ∧ cy < containers.length
      · rw [if_pos hcy]
        cases hget : containers[cy.toNat]? with
        | none => exact hsame
        | some selected =>
          exact goroutine_stamps activeHost selected post now addScanOk ticks c
            (hrows selected (List.getElem?_mem hget)) fresh
      · rw [if_neg hcy]
        exact hsame

/-! ## The claims C21 to C30 -/

/-- C21: for a report that decodes, `parseResults` returns no error, and the
finding built from a retained record carries the record's Severity,
VulnerabilityID, InstalledVersion and FixedVersion unchanged; every record with
a non-empty VulnerabilityID is retained, whatever its Severity. -/
theorem C21_retained_fields_unchanged (report : TrivyReport)
    (scanID containerID hostID : String) (uuid : Nat → String) (now : Time) :
    ∃ vulnerabilities : List Vulnerability,
      parseResults (.report report) scanID containerID hostID uuid now = .ok vulnerabilities ∧
      (∀ (k : Nat) (vuln : TrivyVulnerability),
        (report.records.filter fun vuln => vuln.VulnerabilityID != "")[k]? = some vuln →
        ∃ v : Vulnerability, vulnerabilities[k]? = some v ∧ v.Severity = vuln.Severity ∧
          v.VulnerabilityID = vuln.VulnerabilityID ∧
          v.InstalledVersion = vuln.InstalledVersion ∧ v.FixedVersion = vuln.FixedVersion) ∧
      (∀ vuln ∈ report.records, vuln.VulnerabilityID ≠ "" →
        ∃ v ∈ vulnerabilities, v.Severity = vuln.Severity ∧
          v.VulnerabilityID = vuln.VulnerabilityID ∧
          v.InstalledVersion = vuln.InstalledVersion ∧ v.FixedVersion = vuln.FixedVersion) := by
  have hget : ∀ k vuln,
      (report.records.filter fun vuln => vuln.VulnerabilityID != "")[k]? = some vuln →
      (retainedFindings scanID containerID hostID uuid now 0 report.records)[k]? =
        some (parseVulnerability scanID containerID hostID (uuid (0 + k)) now vuln) := by
    intro k vuln hk
    rw [retainedFindings_getElem?, hk]
    rfl
  refine ⟨_, parseResults_report report scanID containerID hostID uuid now, ?_, ?_⟩
  · intro k vuln hk
    exact ⟨_, hget k vuln hk, rfl, rfl, rfl, rfl⟩
  · intro vuln hmem hid
    have hf : vuln ∈ report.records.filter fun vuln => vuln.VulnerabilityID != "" :=
      List.mem_filter.mpr ⟨hmem, by simpa using hid⟩
    obtain ⟨k, hk⟩ := List.getElem?_of_mem hf
    exact ⟨_, List.getElem?_mem (hget k vuln hk), rfl, rfl, rfl, rfl⟩

/-- C22: a `startScan` request whose body is not valid JSON or whose container
id is empty is answered 400, one whose container id `GetContainer` does not
resolve (as when no container of the inventory has the id or an ID starting
with it) is answered 404; in each case the agent, that is the registry with
every entry and the hook events fired, is left as it was. -/
theorem C22_rejected_request_changes_nothing (docker : DockerClient) (scanID : String)
    (now : Time) (run : ScanRun) (finishedAt : Time) (a : Agent) :
    startScan docker .invalidJSON scanID now run finishedAt a =
      (.error 400 "Неверный формат JSON", a) ∧
    (∀ req : ScanRequest, req.ContainerID = "" →
      startScan docker (.request req) scanID now run finishedAt a =
        (.error 400 "Не указан ID контейнера", a)) ∧
    (∀ (req : ScanRequest) (err : String), req.ContainerID ≠ "" →
      GetContainer docker req.ContainerID = .error err →
      startScan docker (.request req) scanID now run finishedAt a =
        (.error 404 ("Контейнер не найден: " ++ req.ContainerID), a)) ∧
    (∀ (inv : List Container) (req : ScanRequest), req.ContainerID ≠ "" →
      (∀ c ∈ inv, req.ContainerID.data.isPrefixOf c.ID.data = false) →
      startScan (dockerOf inv) (.request req) scanID now run finishedAt a =
        (.error 404 ("Контейнер не найден: " ++ req.ContainerID), a)) := by
  refine ⟨rfl, ?_, ?_, ?_⟩
  · intro req h
    simp [startScan, h]
  · intro req err hid herr
    simp [startScan, hid, herr]
  · intro inv req hid hnone
    have hfind : inv.find? (fun c => c.ID == req.ContainerID) = none := by
      rw [List.find?_eq_none]
      intro c hc hceq
      have hcid : c.ID = req.ContainerID := by simpa using hceq
      have hfalse := hnone c hc
      rw [hcid, List.isPrefixOf_iff_prefix.mpr (List.prefix_refl _)] at hfalse
      cases hfalse
    have hfilter : inv.filter (fun cont => req.ContainerID.data.isPrefixOf cont.ID.data) = [] := by
      rw [List.filter_eq_nil_iff]
      intro c hc
      simp [hnone c hc]
    have herr := GetContainer_scan inv req.ContainerID hfind
    rw [hfilter] at herr
    simp [startScan, hid, herr]

/-- C23: a `startScan` request naming a container that `GetContainer` resolves
is answered 202 with the scan id; the registry gets exactly one more entry, which
has that scan id, Status pending, no FinishedAt, no Vulnerabilities and an
empty ErrorMsg and is what a status request for the scan id reads; the entries
that were there are unchanged and read as before. -/
theorem C23_accepted_request_adds_pending_entry (docker : DockerClient) (req : ScanRequest)
    (scanID : String) (now : Time) (run : ScanRun) (finishedAt : Time) (a : Agent)
    (container : Container)
    (hid : req.ContainerID ≠ "")
    (hfound : GetContainer docker req.ContainerID = .ok container)
    (fresh : ∀ j ∈ a.scans, j.scan.ScanID ≠ scanID) :
    (startScan docker (.request req) scanID now run finishedAt a).1 =
      .scanResponse 202 scanID ∧
    (∃ entry : Job,
      (startScan docker (.request req) scanID now run finishedAt a).2.scans =
        a.scans ++ [entry] ∧
      entry.scan =
        { ScanID := scanID, Status := "pending", StartedAt := now, FinishedAt := none,
          Vulnerabilities := [], ErrorMsg := "" } ∧
      getScanStatus (startScan docker (.request req) scanID now run finishedAt a).2 scanID =
        some entry.scan) ∧
    (startScan docker (.request req) scanID now run finishedAt a).2.sem = a.sem ∧
    (∀ other, other ≠ scanID →
      getScanStatus (startScan docker (.request req) scanID now run finishedAt a).2 other =
        getScanStatus a other) := by
  have hstart : startScan docker (.request req) scanID now run finishedAt a =
      (.scanResponse 202 scanID,
        { a with scans := a.scans ++ [newJob scanID now container run finishedAt] }) := by
    simp [startScan, hid, hfound]
  have hnone : a.scans.find? (fun j => j.scan.ScanID == scanID) = none := by
    rw [List.find?_eq_none]
    intro j hj
    simpa using fresh j hj
  rw [hstart]
  refine ⟨rfl, ⟨newJob scanID now container run finishedAt, rfl, rfl, ?_⟩, rfl, ?_⟩
  · simp [getScanStatus, List.find?_append, hnone, newJob]
  · intro other hother
    have hne : (scanID == other) = false := by
      simpa using fun h : scanID = other => hother h.symm
    simp [getScanStatus, List.find?_append, newJob, hne]

/-- Witness of C23: the first request served by a fresh agent. -/
theorem C23_accepted_request_adds_pending_entry_witness :
    (startScan sampleDocker (.request { ContainerID := "4f5c1d2e9a7b" }) "s-1" 10 sampleRunOk 50
        (NewAgent 2)).1 = .scanResponse 202 "s-1" ∧
    (∃ entry : Job,
      (startScan sampleDocker (.request { ContainerID := "4f5c1d2e9a7b" }) "s-1" 10 sampleRunOk 50
          (NewAgent 2)).2.scans = (NewAgent 2).scans ++ [entry] ∧
      entry.scan =
        { ScanID := "s-1", Status := "pending", StartedAt := 10, FinishedAt := none,
          Vulnerabilities := [], ErrorMsg := "" } ∧
      getScanStatus (startScan sampleDocker (.request { ContainerID := "4f5c1d2e9a7b" }) "s-1" 10
          sampleRunOk 50 (NewAgent 2)).2 "s-1" = some entry.scan) ∧
    (startScan sampleDocker (.request { ContainerID := "4f5c1d2e9a7b" }) "s-1" 10 sampleRunOk 50
        (NewAgent 2)).2.sem = (NewAgent 2).sem ∧
    (∀ other, other ≠ "s-1" →
      getScanStatus (startScan sampleDocker (.request { ContainerID := "4f5c1d2e9a7b" }) "s-1" 10
          sampleRunOk 50 (NewAgent 2)).2 other = getScanStatus (NewAgent 2) other) :=
  C23_accepted_request_adds_pending_entry sampleDocker { ContainerID := "4f5c1d2e9a7b" } "s-1" 10
    sampleRunOk 50 (NewAgent 2) sampleContainer (by decide) rfl (by decide)

/-- C24: over an inventory, `GetContainer` returns a container whose ID is `id`
when there is one; otherwise it returns the only container whose ID starts with
`id` when there is exactly one, the not-found error when there is none, and an
error, not a container, when there are several. -/
theorem C24_GetContainer_two_phase (inv : List Container) (id : String) :
    ((∃ c ∈ inv, c.ID = id) →
      ∃ c ∈ inv, c.ID = id ∧ GetContainer (dockerOf inv) id = .ok c) ∧
    ((∀ c ∈ inv, c.ID ≠ id) →
      (∀ c, inv.filter (fun cont => id.data.isPrefixOf cont.ID.data) = [c] →
        GetContainer (dockerOf inv) id = .ok c) ∧
      (inv.filter (fun cont => id.data.isPrefixOf cont.ID.data) = [] →
        GetContainer (dockerOf inv) id = .error ("контейнер не найден: " ++ id)) ∧
      (2 ≤ (inv.filter fun cont => id.data.isPrefixOf cont.ID.data).length →
        ∃ msg, GetContainer (dockerOf inv) id = .error msg)) := by
  constructor
  · rintro ⟨c, hc, hcid⟩
    cases hfind : inv.find? (fun c => c.ID == id) with
    | none =>
      have := List.find?_eq_none.mp hfind c hc
      simp [hcid] at this
    | some x =>
      exact ⟨x, List.mem_of_find?_eq_some hfind, by simpa using List.find?_some hfind,
        GetContainer_exact inv id x hfind⟩
  · intro hnone
    have hfind : inv.find? (fun c => c.ID == id) = none := by
      rw [List.find?_eq_none]
      intro c hc
      simpa using hnone c hc
    have hscan := GetContainer_scan inv id hfind
    refine ⟨?_, ?_, ?_⟩
    · intro c hf
      rw [hscan, hf]
    · intro hf
      rw [hscan, hf]
    · intro hlen
      rw [hscan]
      match hm : inv.filter (fun cont => id.data.isPrefixOf cont.ID.data) with
      | [] => rw [hm] at hlen; simp at hlen
      | [c] => rw [hm] at hlen; simp at hlen
      | c₁ :: c₂ :: rest => rw [hm]; exact ⟨_, rfl⟩

/-- C25: both exports write the header and then one line per vulnerability in
the order of the list, and a line reads back as the eight fields when the six
fields other than Title and Description hold no double quote; only Title and
Description have their quotes doubled, so the line of a vulnerability whose
Package is `lib"ssl` is not a CSV record, and two vulnerabilities that differ
in Package and InstalledVersion get the same line. -/
theorem C25_quotes_escaped_in_title_and_description_only :
    (∀ (fs : FileWorld) (vulnerabilities : List Vulnerability),
      fs.mkdirAll = none → fs.create = none → (∀ k, fs.writeString k = none) →
      ExportResultsToCSV fs vulnerabilities =
        (none, vulnerabilities.foldl (fun content v => content ++ csvLine v) csvHeader)) ∧
    (∀ v : Vulnerability,
      (∀ field ∈ [v.ID, v.VulnerabilityID, v.Severity, v.Package, v.InstalledVersion,
        v.FixedVersion], '"' ∉ field.data) →
      readCsvRecord (csvLine v) = some (csvFields v)) ∧
    ExportResultsToCSV sampleFs [sampleQuotedPackage] =
      (none, csvHeader ++ csvLine sampleQuotedPackage) ∧
    performExport sampleFs [sampleStoredContainer] (some 0) [sampleQuotedPackage] =
      .exported "export-4f5c1d2e" (csvHeader ++ csvLine sampleQuotedPackage) ∧
    readCsvRecord (csvLine sampleQuotedPackage) = none ∧
    readCsvRecord (csvLine sampleSplitPackage) ≠ some (csvFields sampleSplitPackage) ∧
    csvLine sampleSplitPackage = csvLine sampleSplitVersion ∧
    csvFields sampleSplitPackage ≠ csvFields sampleSplitVersion := by
  refine ⟨?_, readCsvRecord_csvLine, rfl, rfl, by decide, by decide, by decide, by decide⟩
  intro fs vulnerabilities hmkdir hcreate hwrite
  simp only [ExportResultsToCSV, hmkdir, hcreate, hwrite]
  exact writeLines_ok fs _ hwrite vulnerabilities 1 csvHeader

/-- C26: when the hook IDs of a manager are pairwise distinct they still are
after `AddHook(h)`: a hook with the ID of `h`, if there is one, is replaced in
place by `h`, everything before and after it staying as it was; otherwise `h`
is appended at the end; either way `GetHook(h.ID)` then returns `h`. -/
theorem C26_AddHook_keeps_ids_distinct (m : Manager) (h : Hook)
    (distinct : (m.hooks.map fun hook => hook.ID).Nodup) :
    ((m.AddHook h).hooks.map fun hook => hook.ID).Nodup ∧
    ((∃ old ∈ m.hooks, old.ID = h.ID) →
      ∃ pre old post, m.hooks = pre ++ old :: post ∧ old.ID = h.ID ∧
        (m.AddHook h).hooks = pre ++ h :: post) ∧
    ((∀ old ∈ m.hooks, old.ID ≠ h.ID) → (m.AddHook h).hooks = m.hooks ++ [h]) ∧
    (m.AddHook h).GetHook h.ID = .ok h := by
  cases hrep : replaceHook h m.hooks with
  | none =>
    have hno := (replaceHook_none h m.hooks).mp hrep
    have hadd : (m.AddHook h).hooks = m.hooks ++ [h] := by simp [Manager.AddHook, hrep]
    refine ⟨?_, ?_, fun _ => hadd, ?_⟩
    · rw [hadd, List.map_append, List.nodup_append]
      refine ⟨distinct, by simp, ?_⟩
      intro a ha hb
      simp only [List.map_cons, List.map_nil, List.mem_singleton] at hb
      obtain ⟨x, hx, hxa⟩ := List.mem_map.mp ha
      exact hno x hx (hxa.trans hb)
    · rintro ⟨old, hold, hid⟩
      exact absurd hid (hno old hold)
    · rw [Manager.GetHook, hadd]
      have := find?_ID_split m.hooks [] h h.ID rfl hno
      rw [this]
  | some result =>
    obtain ⟨pre, old, post, hsplit, hold, hpre, hresult⟩ := replaceHook_some h m.hooks result hrep
    have hadd : (m.AddHook h).hooks = pre ++ h :: post := by
      simp [Manager.AddHook, hrep, hresult]
    refine ⟨?_, fun _ => ⟨pre, old, post, hsplit, hold, hadd⟩, ?_, ?_⟩
    · rw [hadd]
      rw [hsplit] at distinct
      simpa [hold] using distinct
    · intro hno
      have hmem : old ∈ m.hooks := by rw [hsplit]; simp
      exact absurd hold (hno old hmem)
    · rw [Manager.GetHook, hadd, find?_ID_split pre post h h.ID rfl hpre]

/-- Witness of C26: the sample hooks, and a new version of the hook `hk-2`. -/
theorem C26_AddHook_keeps_ids_distinct_witness :
    (((NewManager sampleHooks).AddHook { sampleBadHook with ID := "hk-2" }).hooks.map
      fun hook => hook.ID).Nodup ∧
    ((∃ old ∈ (NewManager sampleHooks).hooks, old.ID = ({ sampleBadHook with ID := "hk-2" } : Hook).ID) →
      ∃ pre old post, (NewManager sampleHooks).hooks = pre ++ old :: post ∧
        old.ID = ({ sampleBadHook with ID := "hk-2" } : Hook).ID ∧
        ((NewManager sampleHooks).AddHook { sampleBadHook with ID := "hk-2" }).hooks =
          pre ++ { sampleBadHook with ID := "hk-2" } :: post) ∧
    ((∀ old ∈ (NewManager sampleHooks).hooks,
        old.ID ≠ ({ sampleBadHook with ID := "hk-2" } : Hook).ID) →
      ((NewManager sampleHooks).AddHook { sampleBadHook with ID := "hk-2" }).hooks =
        (NewManager sampleHooks).hooks ++ [{ sampleBadHook with ID := "hk-2" }]) ∧
    ((NewManager sampleHooks).AddHook { sampleBadHook with ID := "hk-2" }).GetHook
      ({ sampleBadHook with ID := "hk-2" } : Hook).ID = .ok { sampleBadHook with ID := "hk-2" } :=
  C26_AddHook_keeps_ids_distinct (NewManager sampleHooks) { sampleBadHook with ID := "hk-2" }
    (by decide)

/-- C27: `RemoveHook(id)` returns an error exactly when no hook has the ID, and
then leaves the manager as it was; otherwise it removes the first hook with the
ID and keeps the hooks before and after it, in their order. -/
theorem C27_RemoveHook (m : Manager) (id : String) :
    ((m.RemoveHook id).1 ≠ none ↔ ∀ hook ∈ m.hooks, hook.ID ≠ id) ∧
    ((m.RemoveHook id).1 ≠ none → (m.RemoveHook id).2 = m) ∧
    ((m.RemoveHook id).1 = none →
      ∃ pre hook post, m.hooks = pre ++ hook :: post ∧ hook.ID = id ∧
        (∀ x ∈ pre, x.ID ≠ id) ∧ (m.RemoveHook id).2.hooks = pre ++ post) := by
  cases hrem : removeHook id m.hooks with
  | none =>
    have hno := (removeHook_none id m.hooks).mp hrem
    have hr : m.RemoveHook id = (some ("хук не найден: " ++ id), m) := by
      simp [Manager.RemoveHook, hrem]
    rw [hr]
    exact ⟨⟨fun _ => hno, fun _ => by simp⟩, fun _ => rfl, fun h => by simp at h⟩
  | some result =>
    obtain ⟨pre, hook, post, hsplit, hid, hpre, hresult⟩ := removeHook_some id m.hooks result hrem
    have hr : m.RemoveHook id = (none, { hooks := result }) := by
      simp [Manager.RemoveHook, hrem]
    rw [hr]
    refine ⟨⟨fun h => absurd rfl h, fun hno => ?_⟩, fun h => absurd rfl h,
      fun _ => ⟨pre, hook, post, hsplit, hid, hpre, hresult⟩⟩
    have hmem : hook ∈ m.hooks := by rw [hsplit]; simp
    exact absurd hid (hno hook hmem)

/-- C28: the events a job of `startScan` passes to `ExecuteHooks` by the time
its worker has finished are, over all paths, exactly the events `ValidateHook`
accepts in a hook, which are the events `aegis hook add` accepts. -/
theorem C28_fired_events_are_the_valid_events (event : String) :
    ((∃ (docker : DockerClient) (body : Body) (scanID : String) (now : Time) (run : ScanRun)
        (finishedAt : Time) (N : Nat),
        ∃ j ∈ (startScan docker body scanID now run finishedAt (NewAgent N)).2.scans,
          event ∈ j.finish.fired) ↔
      ∃ (m : Manager) (LookPath : String → Bool) (hook : Hook),
        hook.Event = event ∧ (m.ValidateHook LookPath hook).1 = none) ∧
    ((∃ (m : Manager) (LookPath : String → Bool) (hook : Hook),
        hook.Event = event ∧ (m.ValidateHook LookPath hook).1 = none) ↔
      hookAddValidEvent event = true) := by
  have hvalid : (∃ (m : Manager) (LookPath : String → Bool) (hook : Hook),
      hook.Event = event ∧ (m.ValidateHook LookPath hook).1 = none) ↔
      hookAddValidEvent event = true := by
    constructor
    · rintro ⟨m, LookPath, hook, hev, hok⟩
      unfold Manager.ValidateHook at hok
      split at hok
      · cases hok
      · split at hok
        · cases hok
        · split at hok
          · cases hok
          · split at hok
            · cases hok
            · rename_i hevent
              rw [← hev]
              unfold hookAddValidEvent
              cases hb : (hook.Event == "on_scan_start" || hook.Event == "on_scan_complete" ||
                  hook.Event == "on_error") with
              | true => rfl
              | false =>
                rw [hb] at hevent
                exact absurd rfl hevent
    · intro hev
      refine ⟨NewManager [], fun _ => true,
        { ID := "hk", Name := "n", Event := event, ScriptPath := "/bin/true",
          TimeoutSeconds := 1, Enabled := true, CreatedAt := 0, UpdatedAt := 0 }, rfl, ?_⟩
      have hev' : (event == "on_scan_start" || event == "on_scan_complete" ||
          event == "on_error") = true := hev
      simp [Manager.ValidateHook, hev']
  refine ⟨?_, hvalid⟩
  rw [hvalid]
  constructor
  · rintro ⟨docker, body, scanID, now, run, finishedAt, N, j, hj, hfired⟩
    have hjob : ∃ container, j = newJob scanID now container run finishedAt := by
      unfold startScan at hj
      split at hj
      · simp [NewAgent] at hj
      · split at hj
        · simp [NewAgent] at hj
        · split at hj
          · simp [NewAgent] at hj
          · rename_i container _
            exact ⟨container, by simpa [NewAgent] using hj⟩
    obtain ⟨container, rfl⟩ := hjob
    rcases newJob_finish_fired scanID now container run finishedAt with h | h <;>
      rw [h] at hfired <;> simp at hfired <;> rcases hfired with rfl | rfl <;> decide
  · intro hev
    have hev' : event = "on_scan_start" ∨ event = "on_scan_complete" ∨ event = "on_error" := by
      simpa [hookAddValidEvent, or_assoc] using hev
    rcases hev' with rfl | rfl | rfl
    · exact ⟨sampleDocker, sampleBody, "s-1", 10, sampleRunOk, 50, 1, _,
        List.mem_singleton.mpr rfl, by decide⟩
    · exact ⟨sampleDocker, sampleBody, "s-1", 10, sampleRunOk, 50, 1, _,
        List.mem_singleton.mpr rfl, by decide⟩
    · exact ⟨sampleDocker, sampleBody, "s-1", 10, sampleRunCmdError, 50, 1, _,
        List.mem_singleton.mpr rfl, by decide⟩

/-- C29: the findings a reconciliation of the scan `scanID` stores come after
those the store held and carry `scanID` and the host id and container id of the
durable record of the scan, whatever the snapshot put in them, and the record
keeps these ids: in `aegis scan status`, in the monitor of the TUI run on a
record whose container id is the ID of a stored container, and so in every
scan started from the TUI, whose record holds the ID of the container selected
among those shown, which were loaded from the store (`ListContainers`) and have
the IDs of stored containers. -/
theorem C29_findings_carry_ids_of_durable_record (notifier : Bool) (scanID : String)
    (tick : Tick) (ticks : List Tick) (c : Controller) (scan : Scan)
    (hscan : c.store.GetScan scanID = some scan) :
    (∃ added : List Vulnerability,
      (handleScanStatus notifier scanID tick c).store.vulnerabilities =
        c.store.vulnerabilities ++ added ∧
      ∀ v ∈ added, v.ScanID = scanID ∧ v.HostID = scan.HostID ∧
        v.ContainerID = scan.ContainerID) ∧
    (∃ record, (handleScanStatus notifier scanID tick c).store.GetScan scanID = some record ∧
      record.HostID = scan.HostID ∧ record.ContainerID = scan.ContainerID) ∧
    ((∃ stored ∈ c.store.containers, stored.ID = scan.ContainerID) →
      ∃ added : List Vulnerability,
        (monitorScanStatus scanID ticks c).store.vulnerabilities =
          c.store.vulnerabilities ++ added ∧
        ∀ v ∈ added, v.ScanID = scanID ∧ v.HostID = scan.HostID ∧
          v.ContainerID = scan.ContainerID) ∧
    (∃ record, (monitorScanStatus scanID ticks c).store.GetScan scanID = some record ∧
      record.HostID = scan.HostID ∧ record.ContainerID = scan.ContainerID) ∧
    (∀ hostID, ∀ container ∈ c.store.ListContainers hostID,
      ∃ stored ∈ c.store.containers, stored.ID = container.ID) ∧
    (∀ (activeHost : Option Host) (containers : List Container) (cursor : Option Int)
      (post : PostReply) (now : Time) (addScanOk : Bool),
      (∀ container ∈ containers, ∃ stored ∈ c.store.containers, stored.ID = container.ID) →
      (∀ code id, post = .response code (some id) → ∀ row ∈ c.store.scans, row.ID ≠ id) →
      ∃ added : List Vulnerability,
        (TUI.startScan activeHost containers cursor post now addScanOk ticks
          c).store.vulnerabilities = c.store.vulnerabilities ++ added ∧
        ∀ v ∈ added, ∃ record,
          (TUI.startScan activeHost containers cursor post now addScanOk ticks
            c).store.GetScan v.ScanID = some record ∧
          v.HostID = record.HostID ∧ v.ContainerID = record.ContainerID) :=
  ⟨handleScanStatus_stamps notifier scanID tick c scan hscan,
    handleScanStatus_GetScan_ids notifier scanID scanID tick c scan hscan,
    monitorScanStatus_stamps scanID ticks c scan hscan,
    monitorScanStatus_GetScan_ids scanID scanID ticks c scan hscan,
    fun hostID container hmem => ⟨container, ListContainers_mem c.store hostID container hmem, rfl⟩,
    fun activeHost containers cursor post now addScanOk hrows fresh =>
      TUI_startScan_stamps activeHost containers cursor post now addScanOk ticks c hrows fresh⟩

/-- Witness of C29: the record of `s-1` reconciled from a completed snapshot,
and the scan `s-2` started from the TUI on the first container of host `h-1`,
whose two findings carry `s-2`, `h-1` and the ID of that container. -/
theorem C29_findings_carry_ids_of_durable_record_witness :
    ((TUI.startScan (some sampleHost) (sampleController.store.ListContainers sampleHost.ID)
        (some 0) (.response 202 (some "s-2")) 12 true
        [sampleTick { sampleCompleted with ScanID := "s-2" }]
        sampleController).store.vulnerabilities.map
          fun v => (v.ScanID, v.HostID, v.ContainerID)) =
      [("s-2", "h-1", "4f5c1d2e9a7b"), ("s-2", "h-1", "4f5c1d2e9a7b")] ∧
    ((∃ added : List Vulnerability,
      (handleScanStatus true "s-1" (sampleTick sampleCompleted)
          sampleController).store.vulnerabilities =
        sampleController.store.vulnerabilities ++ added ∧
      ∀ v ∈ added, v.ScanID = "s-1" ∧ v.HostID = samplePendingRow.HostID ∧
        v.ContainerID = samplePendingRow.ContainerID) ∧
    (∃ record,
      (handleScanStatus true "s-1" (sampleTick sampleCompleted)
          sampleController).store.GetScan "s-1" = some record ∧
      record.HostID = samplePendingRow.HostID ∧
      record.ContainerID = samplePendingRow.ContainerID) ∧
    ((∃ stored ∈ sampleController.store.containers, stored.ID = samplePendingRow.ContainerID) →
      ∃ added : List Vulnerability,
        (monitorScanStatus "s-1" [sampleTick sampleCompleted]
            sampleController).store.vulnerabilities =
          sampleController.store.vulnerabilities ++ added ∧
        ∀ v ∈ added, v.ScanID = "s-1" ∧ v.HostID = samplePendingRow.HostID ∧
          v.ContainerID = samplePendingRow.ContainerID) ∧
    (∃ record,
      (monitorScanStatus "s-1" [sampleTick sampleCompleted] sampleController).store.GetScan
          "s-1" = some record ∧
      record.HostID = samplePendingRow.HostID ∧
      record.ContainerID = samplePendingRow.ContainerID) ∧
    (∀ hostID, ∀ container ∈ sampleController.store.ListContainers hostID,
      ∃ stored ∈ sampleController.store.containers, stored.ID = container.ID) ∧
    (∀ (activeHost : Option Host) (containers : List Container) (cursor : Option Int)
      (post : PostReply) (now : Time) (addScanOk : Bool),
      (∀ container ∈ containers,
        ∃ stored ∈ sampleController.store.containers, stored.ID = container.ID) →
      (∀ code id, post = .response code (some id) →
        ∀ row ∈ sampleController.store.scans, row.ID ≠ id) →
      ∃ added : List Vulnerability,
        (TUI.startScan activeHost containers cursor post now addScanOk
          [sampleTick sampleCompleted] sampleController).store.vulnerabilities =
            sampleController.store.vulnerabilities ++ added ∧
        ∀ v ∈ added, ∃ record,
          (TUI.startScan activeHost containers cursor post now addScanOk
            [sampleTick sampleCompleted] sampleController).store.GetScan v.ScanID =
              some record ∧
          v.HostID = record.HostID ∧ v.ContainerID = record.ContainerID)) :=
  ⟨by decide, C29_findings_carry_ids_of_durable_record true "s-1" (sampleTick sampleCompleted)
    [sampleTick sampleCompleted] sampleController samplePendingRow (by decide)⟩

/-- C30: `performExport` slices the first 8 bytes of the selected container's
ID without a check of its length, so the goroutine panics for a selected
container whose ID is shorter than 8 bytes when there are vulnerabilities to
export, as it does for the container `abc`. -/
theorem C30_performExport_panics_on_short_ID :
    performExport sampleFs [sampleShortContainer] (some 0) [sampleVuln] = .panicked ∧
    ∀ (fs : FileWorld) (containers : List Container) (cy : Nat) (selected : Container)
      (vulns : List Vulnerability),
      containers[cy]? = some selected → vulns ≠ [] → selected.ID.utf8ByteSize < 8 →
      performExport fs containers (some (cy : Int)) vulns = .panicked := by
  refine ⟨by decide, ?_⟩
  intro fs containers cy selected vulns hsel hvulns hshort
  have hlt : cy < containers.length := by
    rcases List.getElem?_eq_some.mp hsel with ⟨h, _⟩
    exact h
  have hlen : (vulns.length == 0) = false := by
    cases vulns with
    | nil => exact absurd rfl hvulns
    | cons v rest => rfl
  have hslice : sliceTo selected.ID 8 = none := by
    unfold sliceTo
    rw [if_neg (by omega)]
  have hcond : (0 : Int) ≤ (cy : Int) ∧ (cy : Int) < (containers.length : Int) :=
    ⟨Int.ofNat_nonneg cy, by exact_mod_cast hlt⟩
  simp only [performExport, hcond, and_self, if_true, Int.toNat_ofNat, hsel, hlen,
    Bool.false_eq_true, if_false, hslice]

end Aegis
